import Mathlib

/-!
# Bundled LLVM passes

A shallow embedding of three routines of the LLVM sources bundled under
`vm/external_libs/llvm`.  The results of the analyses they consult are data.
-/

namespace llvm

/-- Modelled from the spec: the enumeration AliasAnalysis::ModRefResult is declared
in AliasAnalysis.h, which is not among the sources.  It has two bits, Ref and
Mod. -/
inductive ModRefResult where
  | NoModRef
  | Ref
  | Mod
  | ModRef
deriving DecidableEq, Repr

/-- The integer value of a ModRefResult. -/
def ModRefResult.to_int : ModRefResult → Nat
  | ModRefResult.NoModRef => 0
  | ModRefResult.Ref => 1
  | ModRefResult.Mod => 2
  | ModRefResult.ModRef => 3

/-- The cast `ModRefResult(n)` of an integer back to the enumeration; every value
the routine casts has only the two low bits. -/
def ModRefResult.of_int (n : Nat) : ModRefResult :=
  if n % 4 = 0 then ModRefResult.NoModRef
  else if n % 4 = 1 then ModRefResult.Ref
  else if n % 4 = 2 then ModRefResult.Mod
  else ModRefResult.ModRef

/-- The operator `~` on a 32-bit integer. -/
def bit_not (n : Nat) : Nat := (2 ^ 32 - 1) - n % 2 ^ 32

/-- Modelled from the spec: the answers of LibCallLocationInfo::isLocation, an
enumeration declared in LibCallSemantics.h, which is not among the sources. -/
inductive LocResult where
  | Yes
  | No
  | Unknown
deriving DecidableEq, Repr

/-- One entry of a details array: a location and the mod/ref effect on it. -/
structure LocationMRInfo where
  LocationID : Nat
  MRInfo : ModRefResult
deriving DecidableEq, Repr

/-- The two kinds of details arrays. -/
inductive DetailsKind where
  | DoesOnly
  | DoesNot
deriving DecidableEq, Repr

/-- The fields of LibCallFunctionInfo the routine reads.  `LocationDetails` is
`none` for a null pointer, else the entries of the array that precede its
terminator (the entry whose LocationID is `~0U`). -/
structure LibCallFunctionInfo where
  UniversalBehavior : ModRefResult
  DetailsType : DetailsKind
  LocationDetails : Option (List LocationMRInfo)

namespace LibCallAliasAnalysis

/-- The loop for details of the DoesNot kind (LibCallAliasAnalysis.cpp lines
99-109). -/
def does_not_loop (isLocation : Nat → LocResult) (MRInfo : ModRefResult) :
    List LocationMRInfo → ModRefResult
  | [] => MRInfo
  | d :: rest =>
    if isLocation d.LocationID ≠ LocResult.Yes then does_not_loop isLocation MRInfo rest
    else ModRefResult.of_int (MRInfo.to_int &&& bit_not d.MRInfo.to_int)

/-- The loop for details of the DoesOnly kind and the test of NoneMatch after it
(LibCallAliasAnalysis.cpp lines 119-146). -/
def does_only_loop (isLocation : Nat → LocResult) (MRInfo : ModRefResult) :
    List LocationMRInfo → Bool → ModRefResult
  | [], NoneMatch => if NoneMatch then ModRefResult.NoModRef else MRInfo
  | d :: rest, NoneMatch =>
    match isLocation d.LocationID with
    | LocResult.No => does_only_loop isLocation MRInfo rest NoneMatch
    | LocResult.Unknown => does_only_loop isLocation MRInfo rest false
    | LocResult.Yes => ModRefResult.of_int (MRInfo.to_int &&& d.MRInfo.to_int)

/-- LibCallAliasAnalysis::AnalyzeLibCallDetails (LibCallAliasAnalysis.cpp lines
77-147).  For the call site, pointer and size at hand, `isLocation` gives the
answer of the location with the given id. -/
def AnalyzeLibCallDetails (FI : LibCallFunctionInfo) (isLocation : Nat → LocResult) :
    ModRefResult :=
  if FI.UniversalBehavior = ModRefResult.NoModRef then FI.UniversalBehavior
  else
    match FI.LocationDetails with
    | none => FI.UniversalBehavior
    | some Details =>
      match FI.DetailsType with
      | DetailsKind.DoesNot => does_not_loop isLocation FI.UniversalBehavior Details
      | DetailsKind.DoesOnly => does_only_loop isLocation FI.UniversalBehavior Details true

end LibCallAliasAnalysis

/-- Modelled from the spec: the linkage types of a global value, an enumeration
declared in GlobalValue.h, which is not among the sources. -/
inductive LinkageTypes where
  | ExternalLinkage
  | LinkOnceLinkage
  | WeakLinkage
  | AppendingLinkage
  | InternalLinkage
  | DLLImportLinkage
  | DLLExportLinkage
  | ExternalWeakLinkage
  | GhostLinkage
deriving DecidableEq, Repr

/-- What the pass reads of a function or global variable: its name, its linkage
and whether it is only a declaration (a function without a body, a global
variable without an initializer). -/
structure GlobalValue where
  name : String
  linkage : LinkageTypes
  isDeclaration : Bool
deriving DecidableEq, Repr

/-- A module: its functions and its global variables, in iteration order. -/
structure Module where
  functions : List GlobalValue
  globals : List GlobalValue
deriving DecidableEq, Repr

/-- The state of an InternalizePass: the set of names to keep external and the
flag DontInternalize. -/
structure InternalizePass where
  ExternalNames : List String
  DontInternalize : Bool
deriving DecidableEq, Repr

namespace InternalizePass

/-- The body of both loops of runOnModule (Internalize.cpp lines 113-120 and
139-145) for one global value: the value afterwards and whether its linkage
was set. -/
def internalize (ExternalNames : List String) (I : GlobalValue) : GlobalValue × Bool :=
  if !I.isDeclaration && !(I.linkage = LinkageTypes.InternalLinkage)
      && !(ExternalNames.contains I.name) then
    ({ I with linkage := LinkageTypes.InternalLinkage }, true)
  else (I, false)

/-- One of the two loops of runOnModule over a list of global values: the list
afterwards and whether any linkage was set. -/
def internalize_all (ExternalNames : List String) : List GlobalValue → List GlobalValue × Bool
  | [] => ([], false)
  | I :: rest =>
    ((internalize ExternalNames I).1 :: (internalize_all ExternalNames rest).1,
      (internalize ExternalNames I).2 || (internalize_all ExternalNames rest).2)

/-- The names added to ExternalNames before the loop over the global variables
(Internalize.cpp lines 124-134); the name added last comes first. -/
def reserved_names : List String :=
  ["llvm.global.annotations", "llvm.noinline", "llvm.global_dtors", "llvm.global_ctors",
    "llvm.dbg.subprograms", "llvm.dbg.global_variables", "llvm.dbg.compile_units",
    "llvm.used"]

/-- Modelled from the spec: Module::getFunction is not among the sources.  It
answers the function of the given name, if the module has one. -/
def getFunction (M : Module) (name : String) : Option GlobalValue :=
  M.functions.find? (fun f => f.name = name)

/-- The part of runOnModule after the set of external names is settled
(Internalize.cpp lines 109-147). -/
def internalize_module (ExternalNames : List String) (M : Module) :
    Bool × Module × InternalizePass :=
  let functions := internalize_all ExternalNames M.functions
  let ExternalNames := reserved_names ++ ExternalNames
  let globals := internalize_all ExternalNames M.globals
  (functions.2 || globals.2, { functions := functions.1, globals := globals.1 },
    { ExternalNames := ExternalNames, DontInternalize := false })

/-- InternalizePass::runOnModule (Internalize.cpp lines 93-148): the value
returned, the module afterwards and the pass state afterwards. -/
def runOnModule (pass : InternalizePass) (M : Module) : Bool × Module × InternalizePass :=
  if pass.DontInternalize then (false, M, pass)
  else if pass.ExternalNames.isEmpty then
    match getFunction M "main" with
    | none => (false, M, pass)
    | some MainFunc =>
      if MainFunc.isDeclaration then (false, M, pass)
      else internalize_module (MainFunc.name :: pass.ExternalNames) M
  else internalize_module pass.ExternalNames M

end InternalizePass

/-- A value: an instruction, or anything else (a constant, an argument, a
block). -/
inductive Value where
  | instruction (id : Nat)
  | other (id : Nat)
deriving DecidableEq, Repr

/-- What the loop deletion pass reads of an instruction.  `incoming` is
PHINode::getIncomingValueForBlock and matters for PHI nodes only. -/
structure Instruction where
  isPHI : Bool := false
  parent : Nat := 0
  operands : List Value := []
  incoming : Nat → Value := fun _ => Value.other 0
  mayWriteToMemory : Bool := false
  isLoad : Bool := false
  isVolatile : Bool := false
  numUses : Nat := 0

/-- What the pass reads of a loop; each field is the answer of the accessor of
the same name (`subloops` is the range from `begin()` to `end()`, `tripCount`
is `none` for a null pointer). -/
structure Loop where
  blocks : List Nat := []
  header : Nat := 0
  subloops : List Nat := []
  exitingBlocks : List Nat := []
  uniqueExitBlocks : List Nat := []
  preheader : Option Nat := none
  latch : Option Nat := none
  tripCount : Option Value := none

/-- The modifications of runOnLoop that are recorded rather than carried out:
those of terminators and PHI nodes, of the dominator tree, of the reference
counts, of the function's block list, of the loop info and of the pass manager's
queue, and the statistic. -/
inductive Edit where
  | moveBefore (I preheader : Nat)
  | replaceUsesOfWith_terminator (preheader header exitBlock : Nat)
  | replaceUsesOfWith_phi (P exitingBlock preheader : Nat)
  | changeImmediateDominator_children (block preheader : Nat)
  | eraseNode (block : Nat)
  | dropAllReferences_instruction (I : Nat)
  | dropAllReferences_block (block : Nat)
  | eraseFromParent (block : Nat)
  | removeBlock (block : Nat)
  | deleteLoopFromQueue
  | NumDeleted
deriving DecidableEq, Repr

/-- The state the pass works on: the instructions, the instructions of each
block in order, the dominator tree as a relation on blocks, and the list of
modifications made so far. -/
structure Function where
  instruction : Nat → Instruction := fun _ => {}
  block : Nat → List Nat := fun _ => []
  dominates : Nat → Nat → Bool := fun _ _ => false
  edits : List Edit := []

/-- Modelled from the spec: Loop::contains is defined in LoopInfo.h, which is not
among the sources.  It tells whether a block is one of the loop's blocks. -/
def Loop.contains (L : Loop) (block : Nat) : Bool := L.blocks.contains block

/-- Modelled from the spec: Loop::isLoopInvariant is defined in LoopInfo.h, which
is not among the sources.  A value is invariant unless it is an instruction of
a block of the loop. -/
def Loop.isLoopInvariant (fn : Function) (L : Loop) : Value → Bool
  | Value.instruction I => !L.contains (fn.instruction I).parent
  | Value.other _ => true

namespace LoopDeletion

/-- LoopDeletion::SingleDominatingExit (LoopDeletion.cpp lines 69-84). -/
def SingleDominatingExit (fn : Function) (L : Loop) (exitingBlocks : List Nat) : Bool :=
  match exitingBlocks with
  | [exitingBlock] =>
    match L.latch with
    | none => false
    | some latch => if fn.dominates exitingBlock latch then true else false
  | _ => false

/-- LoopDeletion::IsLoopInvariantInst (LoopDeletion.cpp lines 92-104). -/
def IsLoopInvariantInst (fn : Function) (I : Nat) (L : Loop) : Bool :=
  if (fn.instruction I).isPHI && L.contains (fn.instruction I).parent then false
  else (fn.instruction I).operands.all (fun V => L.isLoopInvariant fn V)

/-- The PHI nodes a walk from the beginning of a block meets before the first
instruction that is not one. -/
def leading_phis (fn : Function) (block : Nat) : List Nat :=
  (fn.block block).takeWhile (fun I => (fn.instruction I).isPHI)

/-- LoopDeletion::IsLoopDead (LoopDeletion.cpp lines 109-146); the two blocks are
element 0 of the two vectors the source is handed. -/
def IsLoopDead (fn : Function) (L : Loop) (exitingBlock exitBlock : Nat) : Bool :=
  if (leading_phis fn exitBlock).any (fun P =>
      match (fn.instruction P).incoming exitingBlock with
      | Value.instruction I => !IsLoopInvariantInst fn I L
      | Value.other _ => false) then false
  else if L.blocks.any (fun LI => (fn.block LI).any (fun BI =>
      (fn.instruction BI).mayWriteToMemory
        || ((fn.instruction BI).isLoad && (fn.instruction BI).isVolatile))) then false
  else true

/-- Instruction::moveBefore the terminator of the preheader: the instruction
leaves its block and enters the preheader before its last instruction. -/
def moveBefore (fn : Function) (I preheader : Nat) : Function :=
  let block := Function.update fn.block (fn.instruction I).parent
    ((fn.block (fn.instruction I).parent).erase I)
  let block := Function.update block preheader
    ((block preheader).dropLast ++ [I] ++ ((block preheader).getLast?).toList)
  { fn with
    instruction := Function.update fn.instruction I
      { fn.instruction I with parent := preheader }
    block := block
    edits := fn.edits ++ [Edit.moveBefore I preheader] }

/-- The inner loop that moves invariant instructions of one block out of the
loop (LoopDeletion.cpp lines 207-212). -/
def hoist_instructions (L : Loop) (preheader : Nat) : Function → List Nat → Function
  | fn, [] => fn
  | fn, I :: rest =>
    if (fn.instruction I).numUses > 0 && IsLoopInvariantInst fn I L then
      hoist_instructions L preheader (moveBefore fn I preheader) rest
    else hoist_instructions L preheader fn rest

/-- The outer loop that moves invariant instructions out of the loop
(LoopDeletion.cpp lines 205-212). -/
def hoist_blocks (L : Loop) (preheader : Nat) : Function → List Nat → Function
  | fn, [] => fn
  | fn, LI :: rest =>
    hoist_blocks L preheader (hoist_instructions L preheader fn (fn.block LI)) rest

/-- The removal of the loop (LoopDeletion.cpp lines 194-279), once it is known to
be safe. -/
def remove_loop (fn : Function) (L : Loop) (preheader exitBlock exitingBlock : Nat) :
    Function :=
  let fn := hoist_blocks L preheader fn L.blocks
  let redirect := [Edit.replaceUsesOfWith_terminator preheader L.header exitBlock]
  let phis := (leading_phis fn exitBlock).map
    (fun P => Edit.replaceUsesOfWith_phi P exitingBlock preheader)
  let dominators := L.blocks.flatMap (fun LI =>
    [Edit.changeImmediateDominator_children LI preheader, Edit.eraseNode LI]
      ++ (fn.block LI).map Edit.dropAllReferences_instruction
      ++ [Edit.dropAllReferences_block LI])
  let erased := L.blocks.map Edit.eraseFromParent
  let removed := L.blocks.eraseDups.map Edit.removeBlock
  { fn with
    edits := fn.edits ++ redirect ++ phis ++ dominators ++ erased ++ removed
      ++ [Edit.deleteLoopFromQueue, Edit.NumDeleted] }

/-- LoopDeletion::runOnLoop (LoopDeletion.cpp lines 155-280): the value returned
and the state afterwards. -/
def runOnLoop (fn : Function) (L : Loop) : Bool × Function :=
  let exitingBlocks := L.exitingBlocks
  match L.uniqueExitBlocks with
  | [exitBlock] =>
    match L.preheader with
    | none => (false, fn)
    | some preheader =>
      if L.subloops ≠ [] then (false, fn)
      else if L.tripCount.isNone then (false, fn)
      else if !SingleDominatingExit fn L exitingBlocks then (false, fn)
      else
        match exitingBlocks with
        | [] => (false, fn)
        | exitingBlock :: _ =>
          if !IsLoopDead fn L exitingBlock exitBlock then (false, fn)
          else (true, remove_loop fn L preheader exitBlock exitingBlock)
  | _ => (false, fn)

/-- A function with a loop of one block.  Block 0 is the preheader, block 1 the
loop (its header, latch and exiting block at once), block 2 the exit block.
Instruction 10 ends the preheader; 11 is the PHI node of the counter, 12 its
increment and 13 the branch of the loop; 14 is a PHI node of the exit block
that receives a constant from the loop and 15 returns it. -/
def counting : Function :=
  { instruction := fun I =>
      if I = 10 then { parent := 0, operands := [Value.other 1] }
      else if I = 11 then
        { isPHI := true, parent := 1, operands := [Value.other 0, Value.instruction 12],
          incoming := fun b => if b = 0 then Value.other 0 else Value.instruction 12,
          numUses := 1 }
      else if I = 12 then
        { parent := 1, operands := [Value.instruction 11, Value.other 1], numUses := 2 }
      else if I = 13 then
        { parent := 1, operands := [Value.instruction 12, Value.other 1, Value.other 2] }
      else if I = 14 then
        { isPHI := true, parent := 2, operands := [Value.other 7],
          incoming := fun _ => Value.other 7, numUses := 1 }
      else if I = 15 then { parent := 2, operands := [Value.instruction 14] }
      else {}
    block := fun b =>
      if b = 0 then [10] else if b = 1 then [11, 12, 13] else if b = 2 then [14, 15] else []
    dominates := fun a b => decide (a ≤ b) }

/-- The loop of `counting`, with a known trip count. -/
def counting_loop : Loop :=
  { blocks := [1], header := 1, exitingBlocks := [1], uniqueExitBlocks := [2],
    preheader := some 0, latch := some 1, tripCount := some (Value.other 100) }

/-- The function `counting` with a volatile load in place of the increment. -/
def spinning : Function :=
  { counting with
    instruction := fun I =>
      if I = 12 then
        { parent := 1, operands := [Value.other 3], isLoad := true, isVolatile := true,
          numUses := 2 }
      else counting.instruction I }

end LoopDeletion

end llvm

/-!
# Rubinius VM helpers: constant lookup and method installation

A shallow embedding of `vm/helpers.cpp`.  Heap objects are addressed by natural
numbers, one table per C++ class; a reference is either the immediate `Qnil`
or the address of an object.  Loops that follow heap pointers take a fuel
argument, and calling a member function through `Qnil` is a fault.
-/

namespace rubinius

/-- Object reference: the immediate nil value or the address of a heap object. -/
inductive Oop where
  | Qnil
  | ref (addr : Nat)
deriving DecidableEq, Repr

/-- Symbols are interned, so a symbol is its identity. -/
abbrev Symbol := Nat

/-- Ways in which a run of the embedded code can fail to produce a value. -/
inductive Fault where
  | nil_dereference
  | out_of_fuel
deriving DecidableEq, Repr

deriving instance DecidableEq for Except

/-- Slots of a StaticScope object: module and parent. -/
structure StaticScope where
  module : Oop := Oop.Qnil
  parent : Oop := Oop.Qnil

/-- Slots of a LookupTableAssociation object. -/
structure LookupTableAssociation where
  key : Symbol := 0
  value : Oop := Oop.Qnil

/-- The symbol a module is named by: the plain symbol given to `name`, or the
symbol that set_name builds for `name` inside the module `under`. -/
inductive ModuleName where
  | plain (name : Symbol)
  | scoped (under : Nat) (name : Symbol)
deriving DecidableEq, Repr

/-- The object types named in the sources (the enumeration itself is declared in
a header that is not among them). -/
inductive object_type where
  | InvalidType
  | ObjectType
  | VariableScopeType
  | StaticScopeType
  | CompiledMethodType
deriving DecidableEq, Repr

/-- Slots of a Module (or Class) object.  The constant table maps a name to the
address of its association, the method table maps a name to the address of the
stored executable.  For a Class, `is_class` holds and `instance_type` is the
native value of its instance type.  The module table is total: `is_module` is
false at an address whose object is not a Module at all.  `name` is `none` for
a nil name slot. -/
structure Module where
  superclass : Oop := Oop.Qnil
  constants : Symbol → Option Nat := fun _ => none
  method_table : Symbol → Option Nat := fun _ => none
  is_class : Bool := false
  instance_type : Nat := 0
  is_module : Bool := true
  name : Option ModuleName := none

/-- Slots of a CompiledMethod object used by the helpers: the scope slot and the
serial slot inherited from Executable. -/
structure CompiledMethod where
  scope : Oop := Oop.Qnil
  serial : Int := 0

/-- Fields of a VariableScope, stack resident or on the heap: the object type of
its header, the four reference slots, the count of locals and the local slots
that follow the object. -/
structure VariableScope where
  obj_type : object_type := object_type.VariableScopeType
  parent : Oop := Oop.Qnil
  self : Oop := Oop.Qnil
  module : Oop := Oop.Qnil
  block : Oop := Oop.Qnil
  number_of_locals : Nat := 0
  locals : Nat → Oop := fun _ => Oop.Qnil

/-- Fields of an ObjectHeader written or read by the routines of oop.cpp.  The
flags are one-bit fields; `zone` is the field the comment in initialize_copy
says must be maintained.  The declaration itself is in oop.hpp, which is not
among the sources. -/
structure ObjectHeader where
  obj_type : object_type := object_type.ObjectType
  zone : Nat := 0
  age : Nat := 0
  bytes : Nat := 0
  klass : Oop := Oop.Qnil
  ivars : Oop := Oop.Qnil
  Forwarded : Bool := false
  ForeverYoung : Bool := false
  StoresBytes : Bool := false
  RequiresCleanup : Bool := false
  IsBlockContext : Bool := false
  IsMeta : Bool := false
  IsTainted : Bool := false
  IsFrozen : Bool := false
  RefsAreWeak : Bool := false
deriving DecidableEq, Repr

/-- A call frame refers to the compiled method it runs. -/
structure CallFrame where
  cm : Nat

/-- One entry of the effect trace: a statement of a helper taking effect. -/
inductive Event where
  | method_scope (method : Nat) (scope : Oop)
  | method_serial (method : Nat) (serial : Int)
  | method_table_store (mod : Nat) (name : Symbol) (method : Nat)
  | global_cache_clear (mod : Nat) (name : Symbol)
  | formalize (method : Nat) (ondemand : Bool)
  | specialize (method : Nat) (ti : Nat)
deriving DecidableEq, Repr

/-- The VM state threaded through every helper: the address of the root Object
class (`G(object)`), the heap tables, the type-info table of the object memory
(`none` is a NULL entry), and the trace of effects performed so far.  The table
`variable_scope` holds the variable scopes by address, stack resident ones
included, `om_next` is the address the object memory hands out next, and
`header` holds the object headers by address.  `body` holds the body fields of
an object by address and index (`none` is the null pointer 0), `metaclass`
gives the address of the metaclass of an object, and `method_visibility` is
`some m` at the address of a MethodVisibility wrapper whose method slot holds
`m`. -/
structure VM where
  object : Nat := 0
  module : Nat → Module := fun _ => {}
  staticscope : Nat → StaticScope := fun _ => {}
  association : Nat → LookupTableAssociation := fun _ => {}
  compiledmethod : Nat → CompiledMethod := fun _ => {}
  type_info : Nat → Option Nat := fun _ => none
  events : List Event := []
  variable_scope : Nat → VariableScope := fun _ => {}
  om_next : Nat := 0
  header : Nat → ObjectHeader := fun _ => {}
  body : Nat → Nat → Option Oop := fun _ _ => none
  metaclass : Oop → Nat := fun _ => 0
  method_visibility : Nat → Option Oop := fun _ => none

/-- The reference `G(object)`. -/
def G_object (state : VM) : Oop := Oop.ref state.object

/-- Modelled from the spec: Module::get_const_association lives in
builtin/module.cpp, which is not among the sources.  It consults the own
constant table of the module only: a bound name yields its association with
found set, an unbound name yields nil with found cleared. -/
def Module.get_const_association (state : VM) (mod : Nat) (name : Symbol) : Oop × Bool :=
  match (state.module mod).constants name with
  | some a => (Oop.ref a, true)
  | none => (Oop.Qnil, false)

/-- Writes the scope slot of a compiled method (`method->scope(state, scope)`). -/
def CompiledMethod.set_scope (state : VM) (method : Nat) (scope : Oop) : VM :=
  { state with
    compiledmethod := Function.update state.compiledmethod method
      { state.compiledmethod method with scope := scope }
    events := state.events ++ [Event.method_scope method scope] }

/-- Writes the serial slot of an executable (`method->serial(state, serial)`). -/
def CompiledMethod.set_serial (state : VM) (method : Nat) (serial : Int) : VM :=
  { state with
    compiledmethod := Function.update state.compiledmethod method
      { state.compiledmethod method with serial := serial }
    events := state.events ++ [Event.method_serial method serial] }

/-- Modelled from the spec: MethodTable::store is not among the sources.  It
binds `name` to `method` in the method table of `mod` and leaves every other
binding alone. -/
def MethodTable.store (state : VM) (mod : Nat) (name : Symbol) (method : Nat) : VM :=
  { state with
    module := Function.update state.module mod
      { state.module mod with
        method_table := Function.update (state.module mod).method_table name (some method) }
    events := state.events ++ [Event.method_table_store mod name method] }

/-- Modelled from the spec: GlobalCache::clear is declared in global_cache.hpp,
which is not among the sources.  The call is recorded in the effect trace; the
cache contents are not modelled. -/
def GlobalCache.clear (state : VM) (mod : Nat) (name : Symbol) : VM :=
  { state with events := state.events ++ [Event.global_cache_clear mod name] }

/-- Modelled from the spec: CompiledMethod::formalize is only declared in
compiledmethod.hpp.  It builds the backend form of the method; the call is
recorded in the effect trace and no modelled slot changes. -/
def CompiledMethod.formalize (state : VM) (method : Nat) (ondemand : Bool) : VM :=
  { state with events := state.events ++ [Event.formalize method ondemand] }

/-- Modelled from the spec: CompiledMethod::specialize is only declared in
compiledmethod.hpp.  It tunes the backend form for one type info; the call is
recorded in the effect trace and no modelled slot changes. -/
def CompiledMethod.specialize (state : VM) (method : Nat) (ti : Nat) : VM :=
  { state with events := state.events ++ [Event.specialize method ti] }

/-- Writes the fields of the variable scope at address `scope`. -/
def VM.write_variable_scope (state : VM) (scope : Nat) (vs : VariableScope) : VM :=
  { state with variable_scope := Function.update state.variable_scope scope vs }

/-- Modelled from the spec: VariableScope::get_local is declared in
variable_scope.hpp, which is not among the sources.  It reads local slot
`pos` of the scope. -/
def VariableScope.get_local (state : VM) (this pos : Nat) : Oop :=
  (state.variable_scope this).locals pos

/-- Modelled from the spec: VariableScope::set_local is declared in
variable_scope.hpp, which is not among the sources.  It writes local slot
`pos` of the scope. -/
def VariableScope.set_local (state : VM) (this pos : Nat) (val : Oop) : VM :=
  state.write_variable_scope this
    { state.variable_scope this with
      locals := Function.update (state.variable_scope this).locals pos val }

/-- The call `state->new_struct<VariableScope>(G(variable_scope), bytes)` (vm.hpp
lines 160-165).  new_object_typed is not among the sources: the object memory
hands out its next address and stamps the object type; the other fields of the
new object hold whatever the memory held. -/
def VM.new_struct_VariableScope (state : VM) : VM × Nat :=
  ({ state with
      variable_scope := Function.update state.variable_scope state.om_next
        { state.variable_scope state.om_next with
          obj_type := object_type.VariableScopeType }
      om_next := state.om_next + 1 },
    state.om_next)

/-- The copy loop of promote (variable_scope.cpp lines 34-36) for the slots below
the bound, in increasing order. -/
def VariableScope.promote_locals (this scope : Nat) : Nat → VM → VM
  | 0, state => state
  | n + 1, state =>
    let state := VariableScope.promote_locals this scope n state
    VariableScope.set_local state scope n ((state.variable_scope this).locals n)

/-- VariableScope::promote (variable_scope.cpp lines 24-39) called on the scope at
address `this`: the new state and the address of the returned scope. -/
def VariableScope.promote (state : VM) (this : Nat) : VM × Nat :=
  let allocated := VM.new_struct_VariableScope state
  let state := allocated.1
  let scope := allocated.2
  let state := state.write_variable_scope scope
    { state.variable_scope scope with parent := (state.variable_scope this).parent }
  let state := state.write_variable_scope scope
    { state.variable_scope scope with self := (state.variable_scope this).self }
  let state := state.write_variable_scope scope
    { state.variable_scope scope with module := (state.variable_scope this).module }
  let state := state.write_variable_scope scope
    { state.variable_scope scope with block := (state.variable_scope this).block }
  let state := state.write_variable_scope scope
    { state.variable_scope scope with
      number_of_locals := (state.variable_scope this).number_of_locals }
  let state := VariableScope.promote_locals this scope
    (state.variable_scope this).number_of_locals state
  (state, scope)

/-- The state of promote before its copy loop (variable_scope.cpp lines 25-32):
the new scope is allocated and its five fields are written. -/
def VariableScope.promote_fields (state : VM) (this : Nat) : VM :=
  let allocated := VM.new_struct_VariableScope state
  let state := allocated.1
  let scope := allocated.2
  let state := state.write_variable_scope scope
    { state.variable_scope scope with parent := (state.variable_scope this).parent }
  let state := state.write_variable_scope scope
    { state.variable_scope scope with self := (state.variable_scope this).self }
  let state := state.write_variable_scope scope
    { state.variable_scope scope with module := (state.variable_scope this).module }
  let state := state.write_variable_scope scope
    { state.variable_scope scope with block := (state.variable_scope this).block }
  state.write_variable_scope scope
    { state.variable_scope scope with
      number_of_locals := (state.variable_scope this).number_of_locals }

/-- The clearing loop of setup_as_block (variable_scope.cpp lines 49-51) for the
slots below the bound, in increasing order. -/
def VariableScope.setup_as_block_locals (this : Nat) : Nat → VM → VM
  | 0, state => state
  | n + 1, state =>
    let state := VariableScope.setup_as_block_locals this n state
    state.write_variable_scope this
      { state.variable_scope this with
        locals := Function.update (state.variable_scope this).locals n Oop.Qnil }

/-- VariableScope::setup_as_block (variable_scope.cpp lines 41-52) called on the
scope at address `this`. -/
def VariableScope.setup_as_block (state : VM) (this top : Nat) (parent : Oop) (num : Nat) :
    VM :=
  let state := state.write_variable_scope this
    { state.variable_scope this with obj_type := object_type.InvalidType }
  let state := state.write_variable_scope this
    { state.variable_scope this with parent := parent }
  let state := state.write_variable_scope this
    { state.variable_scope this with self := (state.variable_scope top).self }
  let state := state.write_variable_scope this
    { state.variable_scope this with module := (state.variable_scope top).module }
  let state := state.write_variable_scope this
    { state.variable_scope this with block := (state.variable_scope top).block }
  let state := state.write_variable_scope this
    { state.variable_scope this with number_of_locals := num }
  VariableScope.setup_as_block_locals this num state

/-- The state of setup_as_block before its clearing loop (variable_scope.cpp
lines 42-47): the six fields are written. -/
def VariableScope.setup_as_block_fields (state : VM) (this top : Nat) (parent : Oop)
    (num : Nat) : VM :=
  let state := state.write_variable_scope this
    { state.variable_scope this with obj_type := object_type.InvalidType }
  let state := state.write_variable_scope this
    { state.variable_scope this with parent := parent }
  let state := state.write_variable_scope this
    { state.variable_scope this with self := (state.variable_scope top).self }
  let state := state.write_variable_scope this
    { state.variable_scope this with module := (state.variable_scope top).module }
  let state := state.write_variable_scope this
    { state.variable_scope this with block := (state.variable_scope top).block }
  state.write_variable_scope this
    { state.variable_scope this with number_of_locals := num }

/-- What a slot holds after the mark callback answered: the relocated reference,
or the old one when the callback answered NULL (`none`). -/
def relocated (call : Oop → Option Oop) (o : Oop) : Oop :=
  (call o).getD o

/-- Modelled from the spec: auto_mark is generated code that is not among the
sources.  It passes the parent, self, module and block references of the scope
to the mark callback and accepts each relocated reference in place.  The
second component lists the arguments of the callback, in call order. -/
def VariableScope.Info.auto_mark (call : Oop → Option Oop) (state : VM) (obj : Nat) :
    VM × List Oop :=
  (state.write_variable_scope obj
      { state.variable_scope obj with
        parent := relocated call (state.variable_scope obj).parent
        self := relocated call (state.variable_scope obj).self
        module := relocated call (state.variable_scope obj).module
        block := relocated call (state.variable_scope obj).block },
    [(state.variable_scope obj).parent, (state.variable_scope obj).self,
      (state.variable_scope obj).module, (state.variable_scope obj).block])

/-- The loop of VariableScope::Info::mark (variable_scope.cpp lines 18-21) for the
slots below the bound, in increasing order.  The list grows by the argument of
each call of the mark callback. -/
def VariableScope.Info.mark_locals (call : Oop → Option Oop) (vs : Nat) :
    Nat → VM × List Oop → VM × List Oop
  | 0, acc => acc
  | n + 1, acc =>
    let acc := VariableScope.Info.mark_locals call vs n acc
    match call (VariableScope.get_local acc.1 vs n) with
    | some tmp =>
      (VariableScope.set_local acc.1 vs n tmp, acc.2 ++ [VariableScope.get_local acc.1 vs n])
    | none => (acc.1, acc.2 ++ [VariableScope.get_local acc.1 vs n])

/-- VariableScope::Info::mark (variable_scope.cpp lines 11-22) for the variable
scope at address `obj` and the mark callback `call`: the new state and the
arguments of all calls of the callback, in call order. -/
def VariableScope.Info.mark (call : Oop → Option Oop) (state : VM) (obj : Nat) :
    VM × List Oop :=
  let marked := VariableScope.Info.auto_mark call state obj
  VariableScope.Info.mark_locals call obj (marked.1.variable_scope obj).number_of_locals marked

/-- Writes the header at address `this`. -/
def VM.write_header (state : VM) (this : Nat) (h : ObjectHeader) : VM :=
  { state with header := Function.update state.header this h }

/-- ObjectHeader::initialize_copy (oop.cpp lines 7-30) called on the header at
address `this` with the source object at address `other`.  The field `age` is
a bit-field whose width is declared in oop.hpp, which is not among the
sources; the width is the parameter `age_bits`. -/
def ObjectHeader.initialize_copy (age_bits : Nat) (state : VM) (this other : Nat)
    (new_age : Nat) : VM :=
  let state := state.write_header this
    { state.header this with obj_type := (state.header other).obj_type }
  let state := state.write_header this
    { state.header this with age := new_age % 2 ^ age_bits }
  let state := state.write_header this
    { state.header this with bytes := (state.header other).bytes }
  let state := state.write_header this
    { state.header this with klass := (state.header other).klass }
  let state := state.write_header this
    { state.header this with ivars := (state.header other).ivars }
  let state := state.write_header this { state.header this with Forwarded := false }
  let state := state.write_header this
    { state.header this with ForeverYoung := (state.header other).ForeverYoung }
  let state := state.write_header this
    { state.header this with StoresBytes := (state.header other).StoresBytes }
  let state := state.write_header this
    { state.header this with RequiresCleanup := (state.header other).RequiresCleanup }
  let state := state.write_header this
    { state.header this with IsBlockContext := (state.header other).IsBlockContext }
  let state := state.write_header this
    { state.header this with IsMeta := (state.header other).IsMeta }
  let state := state.write_header this
    { state.header this with IsTainted := (state.header other).IsTainted }
  let state := state.write_header this { state.header this with IsFrozen := false }
  state.write_header this
    { state.header this with RefsAreWeak := (state.header other).RefsAreWeak }

/-- An error raised while a helper runs: the type error of check_superclass for a
superclass mismatch (the superclass given and the one previously set), or the
type error raised by a checked cast applied to `object`. -/
inductive Raised where
  | superclass_mismatch (given : Oop) (previously : Nat)
  | cast_failure (object : Oop)
deriving DecidableEq, Repr

/-- How a call ends: it returns a class, it raises an error (and returns no
class), or it faults. -/
inductive Completion where
  | returned (cls : Nat)
  | raised (e : Raised)
  | fault (f : Fault)
deriving DecidableEq, Repr

/-- Modelled from the spec: the checked cast `as<Class>` is defined in
object_utils.hpp, which is not among the sources.  It yields the object when
it is a Class; `none` stands for the type error it raises otherwise (nil is
not a Class). -/
def as_Class (state : VM) : Oop → Option Nat
  | Oop.Qnil => none
  | Oop.ref a => if (state.module a).is_module && (state.module a).is_class then some a else none

/-- Modelled from the spec: the checked cast `as<Module>` is defined in
object_utils.hpp, which is not among the sources.  It yields the object when
it is a Module (a Class is one); `none` stands for the type error it raises
otherwise. -/
def as_Module (state : VM) : Oop → Option Nat
  | Oop.Qnil => none
  | Oop.ref a => if (state.module a).is_module then some a else none

/-- Modelled from the spec: Module::get_const lives in builtin/module.cpp, which
is not among the sources.  It consults the own constant table of the module
only: a bound name yields the value of its association with found set, an
unbound name yields nil with found cleared. -/
def Module.get_const (state : VM) (mod : Nat) (name : Symbol) : Oop × Bool :=
  match (state.module mod).constants name with
  | some a => ((state.association a).value, true)
  | none => (Oop.Qnil, false)

/-- Modelled from the spec: Module::set_const lives in builtin/module.cpp, which
is not among the sources.  It binds `name` to `val` in the own constant table
of `mod`: the association of a bound name gets the new value, an unbound name
gets a newly allocated association. -/
def Module.set_const (state : VM) (mod : Nat) (name : Symbol) (val : Oop) : VM :=
  match (state.module mod).constants name with
  | some a =>
    { state with
      association := Function.update state.association a { key := name, value := val } }
  | none =>
    { state with
      association := Function.update state.association state.om_next
        { key := name, value := val }
      module := Function.update state.module mod
        { state.module mod with
          constants := Function.update (state.module mod).constants name (some state.om_next) }
      om_next := state.om_next + 1 }

/-- Writes the name slot of a module (`cls->name(state, name)`). -/
def Module.set_name_slot (state : VM) (mod : Nat) (name : Symbol) : VM :=
  { state with
    module := Function.update state.module mod
      { state.module mod with name := some (ModuleName.plain name) } }

/-- Modelled from the spec: Module::set_name lives in builtin/module.cpp, which
is not among the sources.  It names the module by the symbol built for `name`
inside `under`. -/
def Module.set_name (state : VM) (mod under : Nat) (name : Symbol) : VM :=
  { state with
    module := Function.update state.module mod
      { state.module mod with name := some (ModuleName.scoped under name) } }

/-- Modelled from the spec: Class::create lives in builtin/class.cpp, which is
not among the sources.  It allocates a new Class at the address the object
memory hands out next, with the given superclass, the instance type of that
superclass, empty tables and a nil name. -/
def Class.create (state : VM) (super : Nat) : VM × Nat :=
  ({ state with
      module := Function.update state.module state.om_next
        { superclass := Oop.ref super, is_class := true, is_module := true
          instance_type := (state.module super).instance_type }
      om_next := state.om_next + 1 },
    state.om_next)

/-- Modelled from the spec: Class::direct_superclass lives in builtin/class.cpp,
which is not among the sources.  Included modules are not part of this model,
so the direct superclass of a class is its superclass slot. -/
def Class.direct_superclass (state : VM) (cls : Nat) : Oop :=
  (state.module cls).superclass

/-- Modelled from the spec: Object::metaclass is not among the sources.  It
answers the metaclass of the receiver; the model looks it up and allocates
nothing. -/
def Object.metaclass (state : VM) (recv : Oop) : Nat :=
  state.metaclass recv

/-- StaticScope::create (staticscope.cpp lines 12-14).  new_object_typed is not
among the sources: the object memory hands out its next address; the fields of
the new object hold whatever the memory held. -/
def StaticScope.create (state : VM) : VM × Nat :=
  ({ state with om_next := state.om_next + 1 }, state.om_next)

/-- Writes the module slot of a static scope (`ss->module(state, mod)`). -/
def StaticScope.set_module (state : VM) (ss : Nat) (mod : Oop) : VM :=
  { state with
    staticscope := Function.update state.staticscope ss
      { state.staticscope ss with module := mod } }

/-- Writes the parent slot of a static scope (`ss->parent(state, parent)`). -/
def StaticScope.set_parent (state : VM) (ss : Nat) (parent : Oop) : VM :=
  { state with
    staticscope := Function.update state.staticscope ss
      { state.staticscope ss with parent := parent } }

/-- Modelled from the spec: Module::create lives in builtin/module.cpp, which is
not among the sources.  It allocates a new Module, not a Class, at the address
the object memory hands out next, with empty tables, no superclass and a nil
name. -/
def Module.create (state : VM) : VM × Nat :=
  ({ state with
      module := Function.update state.module state.om_next { is_module := true }
      om_next := state.om_next + 1 },
    state.om_next)

/-- Writes body field `i` of the object at address `this`. -/
def VM.write_body (state : VM) (this i : Nat) (v : Option Oop) : VM :=
  { state with body := Function.update state.body this (Function.update (state.body this) i v) }

/-- The number of body fields of the object at `this`.  num_fields is declared in
oop.hpp, which is not among the sources; it is determined by the byte size of
the object, through the parameter `fields_of_bytes`. -/
def ObjectHeader.num_fields (fields_of_bytes : Nat → Nat) (state : VM) (this : Nat) : Nat :=
  fields_of_bytes (state.header this).bytes

/-- The loop of copy_body (oop.cpp lines 39-41) for the fields below the bound, in
increasing order. -/
def ObjectHeader.copy_body_fields (this other : Nat) : Nat → VM → VM
  | 0, state => state
  | n + 1, state =>
    let state := ObjectHeader.copy_body_fields this other n state
    state.write_body this n (state.body other n)

/-- ObjectHeader::copy_body (oop.cpp lines 32-42); `none` when the assertion on
the byte sizes fails. -/
def ObjectHeader.copy_body (fields_of_bytes : Nat → Nat) (state : VM) (this other : Nat) :
    Option VM :=
  if (state.header this).bytes = (state.header other).bytes then
    some (ObjectHeader.copy_body_fields this other
      (ObjectHeader.num_fields fields_of_bytes state this) state)
  else none

/-- The loops of clear_fields (oop.cpp lines 54-56) and clear_body_to_null (lines
63-65): every field below the bound gets the value `v`, in increasing order. -/
def ObjectHeader.fill_body_fields (this : Nat) (v : Option Oop) : Nat → VM → VM
  | 0, state => state
  | n + 1, state =>
    let state := ObjectHeader.fill_body_fields this v n state
    state.write_body this n v

/-- ObjectHeader::clear_fields (oop.cpp lines 45-57). -/
def ObjectHeader.clear_fields (fields_of_bytes : Nat → Nat) (state : VM) (this : Nat) : VM :=
  let state := state.write_header this { state.header this with ivars := Oop.Qnil }
  ObjectHeader.fill_body_fields this (some Oop.Qnil)
    (ObjectHeader.num_fields fields_of_bytes state this) state

/-- ObjectHeader::clear_body_to_null (oop.cpp lines 59-67). -/
def ObjectHeader.clear_body_to_null (fields_of_bytes : Nat → Nat) (state : VM) (this : Nat) :
    VM :=
  ObjectHeader.fill_body_fields this none
    (ObjectHeader.num_fields fields_of_bytes state this) state

/-- The objects the marshal tests build: nil, true, false, integers (Fixnum or
Bignum), strings, symbols, arrays and tuples. -/
inductive MarshalObject where
  | Qnil
  | Qtrue
  | Qfalse
  | fixnum (n : Int)
  | bignum (n : Int)
  | string (bytes : String)
  | symbol (str : String)
  | array (elements : List MarshalObject)
  | tuple (elements : List MarshalObject)

mutual

/-- Modelled from the spec: Marshaller::marshal lives in marshal.cpp, which is not
among the sources, and the spec leaves the serialization format to the tests;
the model follows the expectations of test_marshal.hpp.  Every object emits a
tag line; an integer then emits its decimal value on a line; a string or symbol
its length on a line and then its bytes and a newline; an array or tuple its
element count on a line and then what each element emits, in index order. -/
def Marshaller.marshal : MarshalObject → String
  | MarshalObject.Qnil => "n\n"
  | MarshalObject.Qtrue => "t\n"
  | MarshalObject.Qfalse => "f\n"
  | MarshalObject.fixnum n => "I\n" ++ toString n ++ "\n"
  | MarshalObject.bignum n => "I\n" ++ toString n ++ "\n"
  | MarshalObject.string bytes => "s\n" ++ toString bytes.length ++ "\n" ++ bytes ++ "\n"
  | MarshalObject.symbol str => "x\n" ++ toString str.length ++ "\n" ++ str ++ "\n"
  | MarshalObject.array elements =>
    "A\n" ++ toString elements.length ++ "\n" ++ Marshaller.marshal_each elements
  | MarshalObject.tuple elements =>
    "p\n" ++ toString elements.length ++ "\n" ++ Marshaller.marshal_each elements

/-- What the elements of an array or tuple emit, one after the other in index
order. -/
def Marshaller.marshal_each : List MarshalObject → String
  | [] => ""
  | x :: rest => Marshaller.marshal x ++ Marshaller.marshal_each rest

end

/-- The array of test_array: the integers 1, 2, 3. -/
def test_array_value : MarshalObject :=
  MarshalObject.array [MarshalObject.fixnum 1, MarshalObject.fixnum 2, MarshalObject.fixnum 3]

/-- The array of test_array_with_inner_array: the array of test_array and the
integer 4. -/
def test_inner_array_value : MarshalObject :=
  MarshalObject.array [test_array_value, MarshalObject.fixnum 4]

/-- A heap for the body routines: object 7 has two body fields holding the objects
31 and 32; the count of body fields is half the byte size. -/
def bodies : VM :=
  { header := fun a => if a = 7 then { bytes := 4, IsTainted := true } else { bytes := 4 }
    body := fun a i =>
      if a = 7 then (if i = 0 then some (Oop.ref 31) else if i = 1 then some (Oop.ref 32) else none)
      else none }

/-- A heap for the variable scope routines.  Scope 5 is the scope of a method
activation with three locals (the objects 31, 32, 33), self 20, module 21,
block 22 and no parent; scope 6 is another scope whose parent is scope 5.  The
object memory hands out address 300 next. -/
def activation : VM :=
  { variable_scope := fun a =>
      if a = 5 then
        { self := Oop.ref 20, module := Oop.ref 21, block := Oop.ref 22, number_of_locals := 3
          locals := fun i =>
            if i = 0 then Oop.ref 31 else if i = 1 then Oop.ref 32
            else if i = 2 then Oop.ref 33 else Oop.Qnil }
      else if a = 6 then
        { parent := Oop.ref 5, self := Oop.ref 40, module := Oop.ref 41, block := Oop.ref 42
          number_of_locals := 1, locals := fun _ => Oop.ref 43 }
      else {}
    header := fun a =>
      if a = 7 then { IsTainted := true, IsFrozen := true, bytes := 16, klass := Oop.ref 1 }
      else {}
    om_next := 300 }

/-- A mark callback that relocates object 32 to address 132 and leaves every
other reference where it is. -/
def relocate_one (o : Oop) : Option Oop :=
  if o = Oop.ref 32 then some (Oop.ref 132) else none

namespace Helpers

/-- Helpers::add_method (helpers.cpp lines 21-36).  `mod` and `method` are the
addresses of a Module and a CompiledMethod. -/
def add_method (state : VM) (call_frame : CallFrame) (mod : Nat) (name : Symbol)
    (method : Nat) : VM :=
  let state := CompiledMethod.set_scope state method (state.compiledmethod call_frame.cm).scope
  let state := CompiledMethod.set_serial state method 0
  let state := MethodTable.store state mod name method
  let state := GlobalCache.clear state mod name
  if (state.module mod).is_class then
    let state := CompiledMethod.formalize state method false
    match state.type_info (state.module mod).instance_type with
    | some ti => CompiledMethod.specialize state method ti
    | none => state
  else state

/-- The lexical loop of const_get_association (helpers.cpp lines 85-92), started
at `cur`.  `some result` means the function returned `result` with found set;
`none` means the loop was left (end of chain or the break at Object). -/
def lexical_walk (state : VM) (name : Symbol) : Nat → Oop → Except Fault (Option Oop)
  | _, Oop.Qnil => Except.ok none
  | 0, Oop.ref _ => Except.error Fault.out_of_fuel
  | fuel + 1, Oop.ref cur =>
    if (state.staticscope cur).module = G_object state then Except.ok none
    else
      match (state.staticscope cur).module with
      | Oop.Qnil => Except.error Fault.nil_dereference
      | Oop.ref m =>
        match Module.get_const_association state m name with
        | (result, true) => Except.ok (some result)
        | (_, false) => lexical_walk state name fuel (state.staticscope cur).parent

/-- The superclass loop of const_get_association (helpers.cpp lines 95-100),
started at `mod`. -/
def superclass_walk (state : VM) (name : Symbol) : Nat → Oop → Except Fault (Option Oop)
  | _, Oop.Qnil => Except.ok none
  | 0, Oop.ref _ => Except.error Fault.out_of_fuel
  | fuel + 1, Oop.ref m =>
    match Module.get_const_association state m name with
    | (result, true) => Except.ok (some result)
    | (_, false) => superclass_walk state name fuel (state.module m).superclass

/-- Helpers::const_get_association (helpers.cpp lines 77-107).  The pair is the
returned reference and the final value of the found flag. -/
def const_get_association (fuel : Nat) (state : VM) (call_frame : CallFrame) (name : Symbol) :
    Except Fault (Oop × Bool) :=
  match lexical_walk state name fuel (state.compiledmethod call_frame.cm).scope with
  | Except.error e => Except.error e
  | Except.ok (some result) => Except.ok (result, true)
  | Except.ok none =>
    match (state.compiledmethod call_frame.cm).scope with
    | Oop.Qnil => Except.error Fault.nil_dereference
    | Oop.ref s =>
      match superclass_walk state name fuel (state.staticscope s).module with
      | Except.error e => Except.error e
      | Except.ok (some result) => Except.ok (result, true)
      | Except.ok none =>
        match Module.get_const_association state state.object name with
        | (result, true) => Except.ok (result, true)
        | (_, false) => Except.ok (Oop.Qnil, false)

/-- Helpers::const_get on a call frame (helpers.cpp lines 68-75). -/
def const_get (fuel : Nat) (state : VM) (call_frame : CallFrame) (name : Symbol) :
    Except Fault (Oop × Bool) :=
  match const_get_association fuel state call_frame name with
  | Except.error e => Except.error e
  | Except.ok (Oop.ref assoc, true) => Except.ok ((state.association assoc).value, true)
  | Except.ok (Oop.Qnil, true) => Except.error Fault.nil_dereference
  | Except.ok (_, false) => Except.ok (Oop.Qnil, false)

/-- What open_class leaves behind: the state, the value of the flag `created`
and how the call ended. -/
structure OpenResult where
  state : VM
  created : Bool
  completion : Completion

/-- The static function add_class (helpers.cpp lines 144-157). -/
def add_class (state : VM) (under : Nat) (super : Oop) (name : Symbol) : VM × Completion :=
  let super := if super = Oop.Qnil then G_object state else super
  match as_Class state super with
  | none => (state, Completion.raised (Raised.cast_failure super))
  | some sup =>
    let created := Class.create state sup
    let state := created.1
    let cls := created.2
    let state :=
      if under = state.object then Module.set_name_slot state cls name
      else Module.set_name state cls under name
    let state := Module.set_const state under name (Oop.ref cls)
    (state, Completion.returned cls)

/-- The static function check_superclass (helpers.cpp lines 159-172).  Building
the message casts `super` to a Module (line 164) and reads the name of the
direct superclass of `cls` (line 166), a call through nil when that superclass
is nil; both operands are evaluated before the error is raised, and when both
fail the model reports the cast.  The text of the message is not modelled.
The type error ends the call without a class. -/
def check_superclass (state : VM) (cls : Nat) (super : Oop) : Completion :=
  if super = Oop.Qnil then Completion.returned cls
  else if Class.direct_superclass state cls ≠ super then
    match as_Module state super with
    | none => Completion.raised (Raised.cast_failure super)
    | some _ =>
      match Class.direct_superclass state cls with
      | Oop.Qnil => Completion.fault Fault.nil_dereference
      | Oop.ref previous => Completion.raised (Raised.superclass_mismatch super previous)
  else Completion.returned cls

/-- Helpers::open_class on a module `under` (helpers.cpp lines 174-184). -/
def open_class (state : VM) (under : Nat) (super : Oop) (name : Symbol) : OpenResult :=
  match Module.get_const state under name with
  | (obj, true) =>
    match as_Class state obj with
    | none =>
      { state := state, created := false
        completion := Completion.raised (Raised.cast_failure obj) }
    | some cls =>
      { state := state, created := false, completion := check_superclass state cls super }
  | (_, false) =>
    { state := (add_class state under super name).1, created := true
      completion := (add_class state under super name).2 }

/-- The fields of a Message that locate_method_on sets or reads; `caller` is
`none` for the NULL passed to set_caller. -/
structure Message where
  recv : Oop := Oop.Qnil
  lookup_from : Oop := Oop.Qnil
  name : Symbol := 0
  priv : Bool := false
  caller : Option Nat := none
  method : Oop := Oop.Qnil
  module : Oop := Oop.Qnil

/-- An argument that may be one of the immediates true and false or any other
object. -/
inductive Value where
  | Qtrue
  | Qfalse
  | object (o : Oop)
deriving DecidableEq, Repr

/-- What locate_method_on returns: nil, or a tuple with the given fields. -/
inductive Located where
  | nil
  | tuple (fields : List Oop)
deriving DecidableEq, Repr

/-- The cast `try_as<MethodVisibility>`: the method slot of the wrapper when the
object is a MethodVisibility, `none` (NULL) otherwise. -/
def try_as_MethodVisibility (state : VM) : Oop → Option Oop
  | Oop.Qnil => none
  | Oop.ref a => state.method_visibility a

/-- The message locate_method_on hands to the resolver (helpers.cpp lines
110-116).  Object::lookup_begin is not among the sources and is the parameter
`lookup_begin`. -/
def locate_message (lookup_begin : VM → Oop → Oop) (state : VM) (recv : Oop) (name : Symbol)
    (priv : Value) : Message :=
  { recv := recv
    lookup_from := lookup_begin state recv
    name := name
    priv := decide (priv = Value.Qtrue)
    caller := none }

/-- Helpers::locate_method_on (helpers.cpp lines 109-130).  GlobalCacheResolver is
not among the sources: `resolve` is a parameter that answers whether it
succeeded and the message as it left it. -/
def locate_method_on (lookup_begin : VM → Oop → Oop) (resolve : VM → Message → Bool × Message)
    (state : VM) (recv : Oop) (name : Symbol) (priv : Value) : Located :=
  match resolve state (locate_message lookup_begin state recv name priv) with
  | (false, _) => Located.nil
  | (true, msg) =>
    match try_as_MethodVisibility state msg.method with
    | some wrapped => Located.tuple [wrapped, msg.module]
    | none => Located.tuple [msg.method, msg.module]

/-- Helpers::attach_method (helpers.cpp lines 38-50). -/
def attach_method (state : VM) (call_frame : CallFrame) (recv : Oop) (name : Symbol)
    (method : Nat) : VM :=
  let state :=
    match as_Module state recv with
    | some mod =>
      let created := StaticScope.create state
      let state := created.1
      let ss := created.2
      let state := StaticScope.set_module state ss (Oop.ref mod)
      let state := StaticScope.set_parent state ss (state.compiledmethod method).scope
      CompiledMethod.set_scope state method (Oop.ref ss)
    | none =>
      CompiledMethod.set_scope state method (state.compiledmethod call_frame.cm).scope
  add_method state call_frame (Object.metaclass state recv) name method

/-- Helpers::const_get on a module (helpers.cpp lines 52-66), started at `mod`. -/
def const_get_module (state : VM) (name : Symbol) : Nat → Oop → Except Fault (Oop × Bool)
  | _, Oop.Qnil => Except.ok (Oop.Qnil, false)
  | 0, Oop.ref _ => Except.error Fault.out_of_fuel
  | fuel + 1, Oop.ref mod =>
    match Module.get_const state mod name with
    | (res, true) => Except.ok (res, true)
    | (_, false) =>
      if Oop.ref mod = G_object state then Except.ok (Oop.Qnil, false)
      else const_get_module state name fuel (state.module mod).superclass

/-- Helpers::open_module on a module `under` (helpers.cpp lines 196-212): the
state left behind and how the call ended. -/
def open_module (fuel : Nat) (state : VM) (under : Nat) (name : Symbol) :
    Except Fault (VM × Completion) :=
  match const_get_module state name fuel (Oop.ref under) with
  | Except.error e => Except.error e
  | Except.ok (obj, true) =>
    match as_Module state obj with
    | some m => Except.ok (state, Completion.returned m)
    | none => Except.ok (state, Completion.raised (Raised.cast_failure obj))
  | Except.ok (_, false) =>
    let created := Module.create state
    let state := created.1
    let module := created.2
    let state := Module.set_name state module under name
    let state := Module.set_const state under name (Oop.ref module)
    Except.ok (state, Completion.returned module)

/-- The modules that const_get on a module consults, started at `mod`: the
superclass chain up to and including Object, or up to its end in nil. -/
def SearchChain (state : VM) : Oop → List Nat → Prop
  | Oop.Qnil, [] => True
  | Oop.Qnil, _ :: _ => False
  | Oop.ref _, [] => False
  | Oop.ref m, p :: rest =>
    m = p ∧ (if m = state.object then rest = []
      else SearchChain state (state.module m).superclass rest)

/-- The answer of a value lookup whose search order found the binding `b`. -/
def lookup_value (state : VM) : Option Nat → Oop × Bool
  | some a => ((state.association a).value, true)
  | none => (Oop.Qnil, false)

/-- The whole parent chain started at `cur`, which ends in nil: the scopes in
order, innermost first. -/
def ScopeChain (state : VM) : Oop → List Nat → Prop
  | Oop.Qnil, [] => True
  | Oop.Qnil, _ :: _ => False
  | Oop.ref _, [] => False
  | Oop.ref s, p :: rest => s = p ∧ ScopeChain state (state.staticscope s).parent rest

/-- The lexical loop of const_get_association with a count of the table queries
it performs (the calls of get_const_association). -/
def lexical_walk_counted (state : VM) (name : Symbol) :
    Nat → Oop → Except Fault (Option Oop) × Nat
  | _, Oop.Qnil => (Except.ok none, 0)
  | 0, Oop.ref _ => (Except.error Fault.out_of_fuel, 0)
  | fuel + 1, Oop.ref cur =>
    if (state.staticscope cur).module = G_object state then (Except.ok none, 0)
    else
      match (state.staticscope cur).module with
      | Oop.Qnil => (Except.error Fault.nil_dereference, 0)
      | Oop.ref m =>
        match Module.get_const_association state m name with
        | (result, true) => (Except.ok (some result), 1)
        | (_, false) =>
          ((lexical_walk_counted state name fuel (state.staticscope cur).parent).1,
            (lexical_walk_counted state name fuel (state.staticscope cur).parent).2 + 1)

/-- The superclass loop of const_get_association with a count of the table
queries it performs. -/
def superclass_walk_counted (state : VM) (name : Symbol) :
    Nat → Oop → Except Fault (Option Oop) × Nat
  | _, Oop.Qnil => (Except.ok none, 0)
  | 0, Oop.ref _ => (Except.error Fault.out_of_fuel, 0)
  | fuel + 1, Oop.ref m =>
    match Module.get_const_association state m name with
    | (result, true) => (Except.ok (some result), 1)
    | (_, false) =>
      ((superclass_walk_counted state name fuel (state.module m).superclass).1,
        (superclass_walk_counted state name fuel (state.module m).superclass).2 + 1)

/-- Helpers::const_get_association with a count of the table queries it
performs. -/
def const_get_association_counted (fuel : Nat) (state : VM) (call_frame : CallFrame)
    (name : Symbol) : Except Fault (Oop × Bool) × Nat :=
  match lexical_walk_counted state name fuel (state.compiledmethod call_frame.cm).scope with
  | (Except.error e, n) => (Except.error e, n)
  | (Except.ok (some result), n) => (Except.ok (result, true), n)
  | (Except.ok none, n) =>
    match (state.compiledmethod call_frame.cm).scope with
    | Oop.Qnil => (Except.error Fault.nil_dereference, n)
    | Oop.ref s =>
      match superclass_walk_counted state name fuel (state.staticscope s).module with
      | (Except.error e, k) => (Except.error e, n + k)
      | (Except.ok (some result), k) => (Except.ok (result, true), n + k)
      | (Except.ok none, k) =>
        match Module.get_const_association state state.object name with
        | (result, true) => (Except.ok (result, true), n + k + 1)
        | (_, false) => (Except.ok (Oop.Qnil, false), n + k + 1)

/-- Helpers::const_get on a module with a count of the table queries it performs
(the calls of get_const). -/
def const_get_module_counted (state : VM) (name : Symbol) :
    Nat → Oop → Except Fault (Oop × Bool) × Nat
  | _, Oop.Qnil => (Except.ok (Oop.Qnil, false), 0)
  | 0, Oop.ref _ => (Except.error Fault.out_of_fuel, 0)
  | fuel + 1, Oop.ref mod =>
    match Module.get_const state mod name with
    | (res, true) => (Except.ok (res, true), 1)
    | (_, false) =>
      if Oop.ref mod = G_object state then (Except.ok (Oop.Qnil, false), 1)
      else
        ((const_get_module_counted state name fuel (state.module mod).superclass).1,
          (const_get_module_counted state name fuel (state.module mod).superclass).2 + 1)

/-- The state in which add_class binds the constant: the new class exists and
has its name. -/
def add_class_named (state : VM) (under : Nat) (name : Symbol) (sup : Nat) : VM :=
  if under = (Class.create state sup).1.object then
    Module.set_name_slot (Class.create state sup).1 (Class.create state sup).2 name
  else Module.set_name (Class.create state sup).1 (Class.create state sup).2 under name

/-- The superclass reached from `o` after `k` steps along superclass slots (nil
once the chain has ended). -/
def nth_superclass (state : VM) : Nat → Oop → Oop
  | 0, o => o
  | _ + 1, Oop.Qnil => Oop.Qnil
  | k + 1, Oop.ref m => nth_superclass state k (state.module m).superclass

/-- The superclass relation has no cycle: no module is reached again from itself
by one or more superclass steps. -/
def Acyclic (state : VM) : Prop :=
  ∀ m k, 0 < k → nth_superclass state k (Oop.ref m) ≠ Oop.ref m

/-- The object memory hands out an address that nothing refers to yet: no
superclass slot holds the address handed out next. -/
def FreshSuperclasses (state : VM) : Prop :=
  ∀ m, (state.module m).superclass ≠ Oop.ref state.om_next

/-- Walking from `cur` through parent links visits the scopes `before`, in this
order, and then arrives at the scope `s`. -/
def ScopePath (state : VM) : Oop → List Nat → Nat → Prop
  | cur, [], s => cur = Oop.ref s
  | cur, p :: rest, s =>
    cur = Oop.ref p ∧ ScopePath state (state.staticscope p).parent rest s

/-- Walking from `mod` through superclass links visits the modules `before`, in
this order, and then arrives at the module `m`. -/
def SuperclassPath (state : VM) : Oop → List Nat → Nat → Prop
  | mod, [], m => mod = Oop.ref m
  | mod, p :: rest, m =>
    mod = Oop.ref p ∧ SuperclassPath state (state.module p).superclass rest m

/-- The list `lex` holds, innermost first, the modules of the lexical scopes that
precede the first scope whose module is Object, on the parent chain started at
`cur`; the chain ends in nil when no scope has module Object. -/
def LexicalModules (state : VM) : Oop → List Nat → Prop
  | Oop.Qnil, [] => True
  | Oop.Qnil, _ :: _ => False
  | Oop.ref s, [] => (state.staticscope s).module = G_object state
  | Oop.ref s, m :: rest =>
    (state.staticscope s).module = Oop.ref m ∧ m ≠ state.object ∧
      LexicalModules state (state.staticscope s).parent rest

/-- The list `sup` holds the whole superclass chain started at `mod`, which ends
in nil. -/
def SuperclassChain (state : VM) : Oop → List Nat → Prop
  | Oop.Qnil, [] => True
  | Oop.Qnil, _ :: _ => False
  | Oop.ref _, [] => False
  | Oop.ref m, p :: rest =>
    m = p ∧ SuperclassChain state (state.module m).superclass rest

/-- The own constant table of module `m` has no binding for `name`. -/
def Undefined (state : VM) (name : Symbol) (m : Nat) : Prop :=
  (state.module m).constants name = none

/-- The first association bound to `name` in the own constant tables of the
modules `mods`, taken in list order. -/
def first_binding (state : VM) (name : Symbol) (mods : List Nat) : Option Nat :=
  mods.findSome? (fun m => (state.module m).constants name)

/-- The answer of a lookup whose search order found the binding `b`. -/
def lookup_answer : Option Nat → Oop × Bool
  | some a => (Oop.ref a, true)
  | none => (Oop.Qnil, false)

/-- Removal of `name` from the own constant table of module `mod`; every other
table and every other name is left alone. -/
def remove_const (state : VM) (mod : Nat) (name : Symbol) : VM :=
  { state with
    module := Function.update state.module mod
      { state.module mod with
        constants := Function.update (state.module mod).constants name none } }

/-- The effects performed by one call of add_method, in order: the part of the
trace that the call appends. -/
def add_method_effects (state : VM) (call_frame : CallFrame) (mod : Nat) (name : Symbol)
    (method : Nat) : List Event :=
  (add_method state call_frame mod name method).events.drop state.events.length

/-- Both events occur in the trace and the first occurrence of `e₁` precedes the
first occurrence of `e₂`. -/
def happens_before (trace : List Event) (e₁ e₂ : Event) : Prop :=
  e₁ ∈ trace ∧ e₂ ∈ trace ∧ trace.indexOf e₁ < trace.indexOf e₂

instance (trace : List Event) (e₁ e₂ : Event) : Decidable (happens_before trace e₁ e₂) := by
  unfold happens_before
  infer_instance

/-- Recognises a call of the global cache clear. -/
def Event.is_global_cache_clear : Event → Bool
  | Event.global_cache_clear _ _ => true
  | _ => false

/-- Recognises a store into a method table. -/
def Event.is_method_table_store : Event → Bool
  | Event.method_table_store _ _ _ => true
  | _ => false

/-- Recognises a call of formalize. -/
def Event.is_formalize : Event → Bool
  | Event.formalize _ _ => true
  | _ => false

/-- Recognises a call of specialize. -/
def Event.is_specialize : Event → Bool
  | Event.specialize _ _ => true
  | _ => false

/-! ## Concrete heaps used to exercise the theorems

Names: 0 is X, 1 is Y, 2 is Z, 3 is W.  Modules: 1 is Object, 2 is the class
Animal below Object, 3 is the class Dog below Animal, 4 is the module Outer. -/

/-- A heap with the lexical chain Dog, Outer, Object (scopes 0, 1, 2) as the scope
of compiled method 0.  X is bound in Object, Animal and Outer; Y in Dog and
Outer; Z in Object and Animal; W nowhere. -/
def zoo : VM :=
  { object := 1
    module := fun a =>
      if a = 1 then
        { is_class := true
          constants := fun n => if n = 0 then some 10 else if n = 2 then some 12 else none }
      else if a = 2 then
        { superclass := Oop.ref 1, is_class := true, instance_type := 7
          constants := fun n => if n = 0 then some 20 else if n = 2 then some 22 else none }
      else if a = 3 then
        { superclass := Oop.ref 2, is_class := true
          constants := fun n => if n = 1 then some 31 else none }
      else if a = 4 then
        { constants := fun n => if n = 0 then some 40 else if n = 1 then some 41 else none }
      else {}
    staticscope := fun a =>
      if a = 0 then { module := Oop.ref 3, parent := Oop.ref 1 }
      else if a = 1 then { module := Oop.ref 4, parent := Oop.ref 2 }
      else if a = 2 then { module := Oop.ref 1 }
      else {}
    association := fun a => { key := a % 10, value := Oop.ref (100 + a) }
    compiledmethod := fun a => if a = 0 then { scope := Oop.ref 0 } else {}
    type_info := fun t => if t = 7 then some 70 else none }

/-- The zoo heap after method 8 has been installed under name 5 in the class
Animal (module 2) by add_method. -/
def zoo_installed : VM := add_method zoo (CallFrame.mk 0) 2 5 8

/-- A heap with nested scopes B (scope 0, inner) and A (scope 1, outer) where the
module of B is Object (module 1) and the module of A is Outer (module 4); both
bind X. -/
def inner_is_object : VM :=
  { object := 1
    module := fun a =>
      if a = 1 then { is_class := true, constants := fun n => if n = 0 then some 10 else none }
      else if a = 4 then { constants := fun n => if n = 0 then some 40 else none }
      else {}
    staticscope := fun a =>
      if a = 0 then { module := Oop.ref 1, parent := Oop.ref 1 }
      else if a = 1 then { module := Oop.ref 4 }
      else {}
    compiledmethod := fun _ => { scope := Oop.ref 0 } }

/-- A heap with nested scopes B (scope 0, inner) and A (scope 1, outer) where the
module of B is the class Dog (module 3) and the module of A is Object (module
1); both bind X, and so does Animal (module 2), the superclass of Dog. -/
def outer_is_object : VM :=
  { object := 1
    module := fun a =>
      if a = 1 then { is_class := true, constants := fun n => if n = 0 then some 10 else none }
      else if a = 2 then
        { superclass := Oop.ref 1, is_class := true
          constants := fun n => if n = 0 then some 20 else none }
      else if a = 3 then
        { superclass := Oop.ref 2, is_class := true
          constants := fun n => if n = 0 then some 30 else none }
      else {}
    staticscope := fun a =>
      if a = 0 then { module := Oop.ref 3, parent := Oop.ref 1 }
      else if a = 1 then { module := Oop.ref 1 }
      else {}
    compiledmethod := fun _ => { scope := Oop.ref 0 } }

/-- The zoo heap with an object memory that hands out address 200 next and with
address 60 as the metaclass of every object. -/
def zoo_heap : VM :=
  { zoo with om_next := 200, metaclass := fun _ => 60 }

/-- A resolver that finds, for the name 5, the entry 70 in module 2 and fails for
every other name. -/
def resolve_five (_ : VM) (msg : Message) : Bool × Message :=
  if msg.name = 5 then (true, { msg with method := Oop.ref 70, module := Oop.ref 2 })
  else (false, msg)

/-- A heap in which object 70 is a MethodVisibility wrapper around method 71. -/
def wrapped_heap : VM :=
  { method_visibility := fun a => if a = 70 then some (Oop.ref 71) else none }

/-- The zoo heap with class constants.  Names: 10 is Object, 11 is Animal, 12 is
Dog, 13 is Seven, 14 is Cat.  The constant table of Object binds Object,
Animal and Dog to the classes 1, 2 and 3 and Seven to the object 90, which is
not a module; Cat is unbound.  The object memory hands out address 200 next. -/
def kennel : VM :=
  { object := 1
    module := fun a =>
      if a = 1 then
        { is_class := true, name := some (ModuleName.plain 10)
          constants := fun n =>
            if n = 10 then some 50 else if n = 11 then some 51
            else if n = 12 then some 52 else if n = 13 then some 53 else none }
      else if a = 2 then
        { superclass := Oop.ref 1, is_class := true, instance_type := 7
          name := some (ModuleName.plain 11) }
      else if a = 3 then
        { superclass := Oop.ref 2, is_class := true, name := some (ModuleName.plain 12) }
      else if a = 4 then { name := some (ModuleName.plain 15) }
      else if a = 90 then { is_module := false }
      else {}
    association := fun a =>
      if a = 50 then { key := 10, value := Oop.ref 1 }
      else if a = 51 then { key := 11, value := Oop.ref 2 }
      else if a = 52 then { key := 12, value := Oop.ref 3 }
      else if a = 53 then { key := 13, value := Oop.ref 90 }
      else {}
    om_next := 200 }

/-! ## Stepping lemmas for the two loops -/

theorem lexical_walk_nil (state : VM) (name : Symbol) (fuel : Nat) :
    lexical_walk state name fuel Oop.Qnil = Except.ok none := by
  cases fuel <;> rfl

theorem lexical_walk_object (state : VM) (name : Symbol) (fuel s : Nat)
    (hm : (state.staticscope s).module = G_object state) :
    lexical_walk state name (fuel + 1) (Oop.ref s) = Except.ok none := by
  simp [lexical_walk, hm]

theorem lexical_walk_hit (state : VM) (name : Symbol) (fuel s m a : Nat)
    (hm : (state.staticscope s).module = Oop.ref m) (hobj : m ≠ state.object)
    (hdef : (state.module m).constants name = some a) :
    lexical_walk state name (fuel + 1) (Oop.ref s) = Except.ok (some (Oop.ref a)) := by
  simp [lexical_walk, hm, G_object, hobj, Module.get_const_association, hdef]

theorem lexical_walk_skip (state : VM) (name : Symbol) (fuel s m : Nat)
    (hm : (state.staticscope s).module = Oop.ref m) (hobj : m ≠ state.object)
    (hnone : (state.module m).constants name = none) :
    lexical_walk state name (fuel + 1) (Oop.ref s)
      = lexical_walk state name fuel (state.staticscope s).parent := by
  simp [lexical_walk, hm, G_object, hobj, Module.get_const_association, hnone]

theorem superclass_walk_nil (state : VM) (name : Symbol) (fuel : Nat) :
    superclass_walk state name fuel Oop.Qnil = Except.ok none := by
  cases fuel <;> rfl

theorem superclass_walk_hit (state : VM) (name : Symbol) (fuel m a : Nat)
    (hdef : (state.module m).constants name = some a) :
    superclass_walk state name (fuel + 1) (Oop.ref m) = Except.ok (some (Oop.ref a)) := by
  simp [superclass_walk, Module.get_const_association, hdef]

theorem superclass_walk_skip (state : VM) (name : Symbol) (fuel m : Nat)
    (hnone : (state.module m).constants name = none) :
    superclass_walk state name (fuel + 1) (Oop.ref m)
      = superclass_walk state name fuel (state.module m).superclass := by
  simp [superclass_walk, Module.get_const_association, hnone]

/-- The lexical loop returns the association of the first defining scope on a
path whose earlier scopes have modules other than Object that do not define
the name. -/
theorem lexical_walk_path_hit (state : VM) (name : Symbol) (s m a : Nat)
    (hs : (state.staticscope s).module = Oop.ref m) (hobj : m ≠ state.object)
    (hdef : (state.module m).constants name = some a) :
    ∀ (before : List Nat) (cur : Oop) (fuel : Nat),
      ScopePath state cur before s →
      (∀ p ∈ before, ∃ mp, (state.staticscope p).module = Oop.ref mp ∧
        mp ≠ state.object ∧ Undefined state name mp) →
      before.length < fuel →
      lexical_walk state name fuel cur = Except.ok (some (Oop.ref a)) := by
  intro before
  induction before with
  | nil =>
    intro cur fuel hpath _ hfuel
    obtain ⟨k, rfl⟩ : ∃ k, fuel = k + 1 := ⟨fuel - 1, by simp at hfuel; omega⟩
    simp only [ScopePath] at hpath
    subst hpath
    exact lexical_walk_hit state name k s m a hs hobj hdef
  | cons p rest ih =>
    intro cur fuel hpath hbefore hfuel
    obtain ⟨k, rfl⟩ : ∃ k, fuel = k + 1 := ⟨fuel - 1, by simp at hfuel; omega⟩
    simp only [ScopePath] at hpath
    obtain ⟨hcur, hrest⟩ := hpath
    subst hcur
    obtain ⟨mp, hmp, hmpobj, hundef⟩ := hbefore p (List.mem_cons_self p rest)
    rw [lexical_walk_skip state name k p mp hmp hmpobj hundef]
    exact ih _ k hrest (fun q hq => hbefore q (List.mem_cons_of_mem p hq))
      (by simp at hfuel; omega)

theorem first_binding_nil (state : VM) (name : Symbol) :
    first_binding state name [] = none := rfl

theorem first_binding_cons_none (state : VM) (name : Symbol) (m : Nat) (rest : List Nat)
    (h : (state.module m).constants name = none) :
    first_binding state name (m :: rest) = first_binding state name rest := by
  simp [first_binding, List.findSome?, h]

theorem first_binding_cons_some (state : VM) (name : Symbol) (m a : Nat) (rest : List Nat)
    (h : (state.module m).constants name = some a) :
    first_binding state name (m :: rest) = some a := by
  simp [first_binding, List.findSome?, h]

theorem first_binding_append (state : VM) (name : Symbol) (l₁ l₂ : List Nat) :
    first_binding state name (l₁ ++ l₂)
      = (first_binding state name l₁).or (first_binding state name l₂) := by
  induction l₁ with
  | nil => simp [first_binding]
  | cons m rest ih =>
    cases h : (state.module m).constants name with
    | none =>
      rw [List.cons_append, first_binding_cons_none state name m _ h,
        first_binding_cons_none state name m _ h, ih]
    | some a =>
      rw [List.cons_append, first_binding_cons_some state name m a _ h,
        first_binding_cons_some state name m a _ h]
      rfl

theorem first_binding_eq_none_iff (state : VM) (name : Symbol) (mods : List Nat) :
    first_binding state name mods = none ↔ ∀ m ∈ mods, Undefined state name m := by
  simp [first_binding, Undefined]

/-- The lexical loop computes the first binding among the modules of the
consulted scopes. -/
theorem lexical_walk_modules (state : VM) (name : Symbol) :
    ∀ (lex : List Nat) (cur : Oop) (fuel : Nat),
      LexicalModules state cur lex → lex.length < fuel →
      lexical_walk state name fuel cur
        = Except.ok ((first_binding state name lex).map Oop.ref) := by
  intro lex
  induction lex with
  | nil =>
    intro cur fuel hlex hfuel
    obtain ⟨k, rfl⟩ : ∃ k, fuel = k + 1 := ⟨fuel - 1, by simp at hfuel; omega⟩
    cases cur with
    | Qnil => exact lexical_walk_nil state name _
    | ref s => exact lexical_walk_object state name k s hlex
  | cons m rest ih =>
    intro cur fuel hlex hfuel
    obtain ⟨k, rfl⟩ : ∃ k, fuel = k + 1 := ⟨fuel - 1, by simp at hfuel; omega⟩
    cases cur with
    | Qnil => exact absurd hlex (by simp [LexicalModules])
    | ref s =>
      simp only [LexicalModules] at hlex
      obtain ⟨hm, hobj, hrest⟩ := hlex
      cases h : (state.module m).constants name with
      | none =>
        rw [lexical_walk_skip state name k s m hm hobj h,
          first_binding_cons_none state name m rest h]
        exact ih _ k hrest (by simp at hfuel; omega)
      | some a =>
        rw [lexical_walk_hit state name k s m a hm hobj h,
          first_binding_cons_some state name m a rest h]
        rfl

/-- The superclass loop computes the first binding along the superclass chain. -/
theorem superclass_walk_chain (state : VM) (name : Symbol) :
    ∀ (sup : List Nat) (mod : Oop) (fuel : Nat),
      SuperclassChain state mod sup → sup.length ≤ fuel →
      superclass_walk state name fuel mod
        = Except.ok ((first_binding state name sup).map Oop.ref) := by
  intro sup
  induction sup with
  | nil =>
    intro mod fuel hsup _
    cases mod with
    | Qnil => exact superclass_walk_nil state name _
    | ref m => exact absurd hsup (by simp [SuperclassChain])
  | cons p rest ih =>
    intro mod fuel hsup hfuel
    obtain ⟨k, rfl⟩ : ∃ k, fuel = k + 1 := ⟨fuel - 1, by simp at hfuel; omega⟩
    cases mod with
    | Qnil => exact absurd hsup (by simp [SuperclassChain])
    | ref m =>
      simp only [SuperclassChain] at hsup
      obtain ⟨hmp, hrest⟩ := hsup
      subst hmp
      cases h : (state.module m).constants name with
      | none =>
        rw [superclass_walk_skip state name k m h,
          first_binding_cons_none state name m rest h]
        exact ih _ k hrest (by simp at hfuel; omega)
      | some a =>
        rw [superclass_walk_hit state name k m a h,
          first_binding_cons_some state name m a rest h]
        rfl

/-- On a well-formed heap const_get_association is the first binding in the search
order: consulted lexical modules, then the superclass chain of the innermost
module, then Object. -/
theorem const_get_association_search_order (fuel : Nat) (state : VM)
    (call_frame : CallFrame) (name : Symbol) (s₀ : Nat) (lex sup : List Nat)
    (hscope : (state.compiledmethod call_frame.cm).scope = Oop.ref s₀)
    (hlex : LexicalModules state (Oop.ref s₀) lex)
    (hsup : SuperclassChain state (state.staticscope s₀).module sup)
    (hfuel₁ : lex.length < fuel) (hfuel₂ : sup.length ≤ fuel) :
    const_get_association fuel state call_frame name
      = Except.ok (lookup_answer (first_binding state name (lex ++ sup ++ [state.object]))) := by
  unfold const_get_association
  rw [hscope, lexical_walk_modules state name lex _ fuel hlex hfuel₁,
    first_binding_append, first_binding_append]
  cases h₁ : first_binding state name lex with
  | some a => rfl
  | none =>
    simp only [Option.map_none', Option.none_or]
    rw [superclass_walk_chain state name sup _ fuel hsup hfuel₂]
    cases h₂ : first_binding state name sup with
    | some a => rfl
    | none =>
      simp only [Option.map_none', Option.none_or]
      cases h₃ : (state.module state.object).constants name with
      | none =>
        simp [Module.get_const_association, h₃, first_binding, lookup_answer]
      | some a =>
        simp [Module.get_const_association, h₃, first_binding, lookup_answer]

/-! ## Facts about removing a constant -/

theorem remove_const_module_same (state : VM) (mod : Nat) (name : Symbol) :
    ((remove_const state mod name).module mod).constants name = none := by
  simp [remove_const]

theorem remove_const_module_other (state : VM) (mod m : Nat) (name : Symbol) (h : m ≠ mod) :
    (remove_const state mod name).module m = state.module m := by
  simp [remove_const, Function.update_noteq h]

/-- The lexical loop on a path whose scopes all have a module other than Object,
and whose last scope defines the name, returns the association of one of the
scopes of the path. -/
theorem lexical_walk_path_some (state : VM) (name : Symbol) (s m a : Nat)
    (hs : (state.staticscope s).module = Oop.ref m) (hobj : m ≠ state.object)
    (hdef : (state.module m).constants name = some a) :
    ∀ (path : List Nat) (cur : Oop) (fuel : Nat),
      ScopePath state cur path s →
      (∀ p ∈ path, ∃ mp, (state.staticscope p).module = Oop.ref mp ∧ mp ≠ state.object) →
      path.length < fuel →
      ∃ o ∈ path ++ [s], ∃ mo ao, (state.staticscope o).module = Oop.ref mo ∧
        (state.module mo).constants name = some ao ∧
        lexical_walk state name fuel cur = Except.ok (some (Oop.ref ao)) := by
  intro path
  induction path with
  | nil =>
    intro cur fuel hpath _ hfuel
    refine ⟨s, by simp, m, a, hs, hdef, ?_⟩
    exact lexical_walk_path_hit state name s m a hs hobj hdef [] cur fuel hpath
      (fun p hp => absurd hp (List.not_mem_nil p)) hfuel
  | cons p rest ih =>
    intro cur fuel hpath hreal hfuel
    obtain ⟨k, rfl⟩ : ∃ k, fuel = k + 1 := ⟨fuel - 1, by simp at hfuel; omega⟩
    simp only [ScopePath] at hpath
    obtain ⟨hcur, hrest⟩ := hpath
    subst hcur
    obtain ⟨mp, hmp, hmpobj⟩ := hreal p (List.mem_cons_self p rest)
    cases h : (state.module mp).constants name with
    | some ap =>
      exact ⟨p, by simp, mp, ap, hmp, h, lexical_walk_hit state name k p mp ap hmp hmpobj h⟩
    | none =>
      obtain ⟨o, ho, mo, ao, hmo, hao, hwalk⟩ :=
        ih _ k hrest (fun q hq => hreal q (List.mem_cons_of_mem p hq))
          (by simp at hfuel; omega)
      refine ⟨o, by simp at ho ⊢; tauto, mo, ao, hmo, hao, ?_⟩
      rw [lexical_walk_skip state name k p mp hmp hmpobj h]
      exact hwalk

/-- When Object binds the name and every other listed module leaves it unbound,
the first binding of the list followed by Object is the binding of Object. -/
theorem first_binding_object_last (state : VM) (name : Symbol) (o : Nat)
    (hobj : (state.module state.object).constants name = some o) :
    ∀ mods : List Nat, (∀ m ∈ mods, m ≠ state.object → Undefined state name m) →
      first_binding state name (mods ++ [state.object]) = some o := by
  intro mods
  induction mods with
  | nil => intro _; exact first_binding_cons_some state name _ o [] hobj
  | cons m rest ih =>
    intro h
    by_cases hm : m = state.object
    · subst hm
      exact first_binding_cons_some state name _ o _ hobj
    · rw [List.cons_append, first_binding_cons_none state name m _
        (h m (List.mem_cons_self m rest) hm)]
      exact ih (fun q hq => h q (List.mem_cons_of_mem m hq))

/-! ## Constant lookup -/

/-- C1: const_get_association resolves in lexical order, innermost first.  When
walking from the method scope of the frame through parent links reaches the
scope `s` after the scopes `before`, every scope in `before` has a module other
than Object that does not define the name, and the module of `s` is not Object
and binds the name to the association `a`, then the lookup returns `a` with
found set, whatever outer scopes, ancestors or Object define. -/
theorem const_get_association_lexical_first (fuel : Nat) (state : VM)
    (call_frame : CallFrame) (name : Symbol) (before : List Nat) (s m a : Nat)
    (hpath : ScopePath state (state.compiledmethod call_frame.cm).scope before s)
    (hbefore : ∀ p ∈ before, ∃ mp, (state.staticscope p).module = Oop.ref mp ∧
      mp ≠ state.object ∧ Undefined state name mp)
    (hs : (state.staticscope s).module = Oop.ref m) (hobj : m ≠ state.object)
    (hdef : (state.module m).constants name = some a)
    (hfuel : before.length < fuel) :
    const_get_association fuel state call_frame name = Except.ok (Oop.ref a, true) := by
  unfold const_get_association
  rw [lexical_walk_path_hit state name s m a hs hobj hdef before _ fuel hpath hbefore hfuel]

/-- Witness for C1: in the zoo heap, looking X up from the scope of Dog skips Dog
and answers with the binding of Outer, although Animal and Object bind X too. -/
theorem const_get_association_lexical_first_witness :
    const_get_association 5 zoo (CallFrame.mk 0) 0 = Except.ok (Oop.ref 40, true) :=
  const_get_association_lexical_first 5 zoo (CallFrame.mk 0) 0 [0] 1 4 40
    ⟨rfl, rfl⟩ (by simp [zoo, Undefined]) rfl (by decide) rfl (by decide)

/-- C2 as stated fails on two heaps.  With nested scopes B inside A that both bind
X: when the module of B is Object, removing X from it makes the lookup from B
answer nil with found cleared, not the binding of A (association 40); when the
module of A is Object and the superclass Animal of the module of B binds X, the
lookup after the removal answers with the binding of Animal (association 20),
not the binding of A (association 10). -/
theorem const_get_association_nested_counterexample :
    ((inner_is_object.compiledmethod 0).scope = Oop.ref 0
      ∧ (inner_is_object.staticscope 0).parent = Oop.ref 1
      ∧ (inner_is_object.staticscope 0).module = G_object inner_is_object
      ∧ (inner_is_object.staticscope 1).module = Oop.ref 4
      ∧ (inner_is_object.module 1).constants 0 = some 10
      ∧ (inner_is_object.module 4).constants 0 = some 40
      ∧ ((remove_const inner_is_object 1 0).module 4).constants 0 = some 40
      ∧ const_get_association 5 inner_is_object (CallFrame.mk 0) 0
          = Except.ok (Oop.ref 10, true)
      ∧ const_get_association 5 (remove_const inner_is_object 1 0) (CallFrame.mk 0) 0
          = Except.ok (Oop.Qnil, false))
    ∧ ((outer_is_object.compiledmethod 0).scope = Oop.ref 0
      ∧ (outer_is_object.staticscope 0).parent = Oop.ref 1
      ∧ (outer_is_object.staticscope 0).module = Oop.ref 3
      ∧ (outer_is_object.staticscope 1).module = G_object outer_is_object
      ∧ (outer_is_object.module 3).constants 0 = some 30
      ∧ (outer_is_object.module 1).constants 0 = some 10
      ∧ ((remove_const outer_is_object 3 0).module 1).constants 0 = some 10
      ∧ const_get_association 5 outer_is_object (CallFrame.mk 0) 0
          = Except.ok (Oop.ref 30, true)
      ∧ const_get_association 5 (remove_const outer_is_object 3 0) (CallFrame.mk 0) 0
          = Except.ok (Oop.ref 20, true)) := by
  decide

/-- C2, amended: for nested scopes B (inner, the scope of the frame) and A (the
parent of B) whose distinct modules both bind X, the lookup from B answers
with the binding of B for every choice of the two modules, Object included;
after X is removed from the module of B, the lookup answers with the binding
of A provided neither module is Object. -/
theorem const_get_association_nested (fuel : Nat) (state : VM) (call_frame : CallFrame)
    (X : Symbol) (B A mB mA xB xA : Nat)
    (hscope : (state.compiledmethod call_frame.cm).scope = Oop.ref B)
    (hparent : (state.staticscope B).parent = Oop.ref A)
    (hB : (state.staticscope B).module = Oop.ref mB)
    (hA : (state.staticscope A).module = Oop.ref mA)
    (hne : mA ≠ mB)
    (hxB : (state.module mB).constants X = some xB)
    (hxA : (state.module mA).constants X = some xA)
    (hfuel : 2 ≤ fuel) :
    const_get_association fuel state call_frame X = Except.ok (Oop.ref xB, true)
    ∧ (mB ≠ state.object → mA ≠ state.object →
        const_get_association fuel (remove_const state mB X) call_frame X
          = Except.ok (Oop.ref xA, true)) := by
  obtain ⟨k, rfl⟩ : ∃ k, fuel = k + 2 := ⟨fuel - 2, by omega⟩
  constructor
  · by_cases hobj : mB = state.object
    · unfold const_get_association
      rw [hscope, lexical_walk_object state X (k + 1) B (by rw [hB, hobj]; rfl)]
      simp only []
      rw [hB, superclass_walk_hit state X (k + 1) mB xB hxB]
    · exact const_get_association_lexical_first (k + 2) state call_frame X [] B mB xB
        hscope (fun p hp => absurd hp (List.not_mem_nil p)) hB hobj hxB (by simp)
  · intro hBobj hAobj
    have hmA : (remove_const state mB X).module mA = state.module mA :=
      remove_const_module_other state mB mA X hne
    exact const_get_association_lexical_first (k + 2) (remove_const state mB X) call_frame X
      [B] A mA xA ⟨hscope, hparent⟩
      (fun p hp => by
        rw [List.mem_singleton] at hp
        subst hp
        exact ⟨mB, hB, hBobj, remove_const_module_same state mB X⟩)
      hA hAobj (by rw [hmA]; exact hxA) (by simp)

/-- Witness for C2: in the zoo heap B is the scope of Dog and A the scope of
Outer, both binding Y; the lookup answers with the binding of Dog and, after
Y is removed from Dog, with the binding of Outer. -/
theorem const_get_association_nested_witness :
    const_get_association 5 zoo (CallFrame.mk 0) 1 = Except.ok (Oop.ref 31, true)
    ∧ const_get_association 5 (remove_const zoo 3 1) (CallFrame.mk 0) 1
        = Except.ok (Oop.ref 41, true) :=
  ⟨(const_get_association_nested 5 zoo (CallFrame.mk 0) 1 0 1 3 4 31 41
      rfl rfl rfl rfl (by decide) rfl rfl (by decide)).1,
   (const_get_association_nested 5 zoo (CallFrame.mk 0) 1 0 1 3 4 31 41
      rfl rfl rfl rfl (by decide) rfl rfl (by decide)).2 (by decide) (by decide)⟩

/-- C3: lexical scopes take precedence over the class hierarchy.  The innermost
scope s₀ has a module m₀ that leaves the name unbound, an outer scope `s` is
reached through the scopes `mid` with no module Object on the way, the module
of `s` binds the name, and so does a superclass `S` of m₀.  Then the lookup
answers with the association bound by the module of an outer lexical scope
(one of `mid` or `s`, the first that binds the name), and with the association
of `s` itself when no scope of `mid` binds the name; the superclass is never
asked. -/
theorem const_get_association_lexical_over_superclass (fuel : Nat) (state : VM)
    (call_frame : CallFrame) (name : Symbol) (s₀ : Nat) (mid : List Nat)
    (s m₀ m a : Nat) (supers : List Nat) (S aS : Nat)
    (hpath : ScopePath state (state.compiledmethod call_frame.cm).scope (s₀ :: mid) s)
    (hm₀ : (state.staticscope s₀).module = Oop.ref m₀) (hobj₀ : m₀ ≠ state.object)
    (hundef : Undefined state name m₀)
    (hmid : ∀ p ∈ mid, ∃ mp, (state.staticscope p).module = Oop.ref mp ∧ mp ≠ state.object)
    (hs : (state.staticscope s).module = Oop.ref m) (hobj : m ≠ state.object)
    (hdef : (state.module m).constants name = some a)
    (hsuper : SuperclassPath state (state.module m₀).superclass supers S)
    (hS : (state.module S).constants name = some aS)
    (hfuel : mid.length + 1 < fuel) :
    (∃ o ∈ mid ++ [s], ∃ mo ao, (state.staticscope o).module = Oop.ref mo ∧
        (state.module mo).constants name = some ao ∧
        const_get_association fuel state call_frame name = Except.ok (Oop.ref ao, true))
    ∧ ((∀ p ∈ mid, ∀ mp, (state.staticscope p).module = Oop.ref mp → Undefined state name mp) →
        const_get_association fuel state call_frame name = Except.ok (Oop.ref a, true)) := by
  -- the binding of the superclass describes the scenario and plays no part in the answer
  have _scenario := And.intro hsuper hS
  obtain ⟨k, rfl⟩ : ∃ k, fuel = k + 1 := ⟨fuel - 1, by omega⟩
  obtain ⟨hcur, hrest⟩ := hpath
  constructor
  · obtain ⟨o, ho, mo, ao, hmo, hao, hwalk⟩ :=
      lexical_walk_path_some state name s m a hs hobj hdef mid _ k hrest hmid (by omega)
    refine ⟨o, ho, mo, ao, hmo, hao, ?_⟩
    unfold const_get_association
    rw [hcur, lexical_walk_skip state name k s₀ m₀ hm₀ hobj₀ hundef, hwalk]
  · intro hnone
    refine const_get_association_lexical_first (k + 1) state call_frame name (s₀ :: mid) s m a
      ⟨hcur, hrest⟩ ?_ hs hobj hdef (by simp; omega)
    intro p hp
    rcases List.mem_cons.mp hp with rfl | hp
    · exact ⟨m₀, hm₀, hobj₀, hundef⟩
    · obtain ⟨mp, hmp, hmpobj⟩ := hmid p hp
      exact ⟨mp, hmp, hmpobj, hnone p hp mp hmp⟩

/-- Witness for C3: in the zoo heap Dog leaves X unbound, the outer scope of Outer
binds it to association 40 and the superclass Animal binds it to association
20; the lookup answers 40. -/
theorem const_get_association_lexical_over_superclass_witness :
    const_get_association 5 zoo (CallFrame.mk 0) 0 = Except.ok (Oop.ref 40, true) :=
  (const_get_association_lexical_over_superclass 5 zoo (CallFrame.mk 0) 0 0 [] 1 3 4 40
    [] 2 20 ⟨rfl, rfl⟩ rfl (by decide) rfl
    (fun p hp => absurd hp (List.not_mem_nil p)) rfl (by decide) rfl rfl rfl
    (by decide)).2 (fun p hp => absurd hp (List.not_mem_nil p))

/-- C4: constant lookup failure is a typed absence.  On a heap where the frame has
a scope s₀, `lex` lists the modules of the lexical scopes before the first
scope on Object and `sup` is the superclass chain of the module of s₀, the
lookup never faults: it answers nil with found cleared exactly when the name is
unbound in every module of `lex`, in every module of `sup` and in Object, and
otherwise an association with found set; const_get answers the value of that
association with found set, and nil with found cleared on absence. -/
theorem const_get_typed_absence (fuel : Nat) (state : VM) (call_frame : CallFrame)
    (name : Symbol) (s₀ : Nat) (lex sup : List Nat)
    (hscope : (state.compiledmethod call_frame.cm).scope = Oop.ref s₀)
    (hlex : LexicalModules state (Oop.ref s₀) lex)
    (hsup : SuperclassChain state (state.staticscope s₀).module sup)
    (hfuel₁ : lex.length < fuel) (hfuel₂ : sup.length ≤ fuel) :
    (const_get_association fuel state call_frame name = Except.ok (Oop.Qnil, false)
      ↔ ((∀ m ∈ lex, Undefined state name m) ∧ (∀ m ∈ sup, Undefined state name m)
          ∧ Undefined state name state.object))
    ∧ (const_get_association fuel state call_frame name = Except.ok (Oop.Qnil, false)
        ∨ ∃ a, const_get_association fuel state call_frame name = Except.ok (Oop.ref a, true))
    ∧ (∀ a, const_get_association fuel state call_frame name = Except.ok (Oop.ref a, true) →
        const_get fuel state call_frame name = Except.ok ((state.association a).value, true))
    ∧ (const_get_association fuel state call_frame name = Except.ok (Oop.Qnil, false) →
        const_get fuel state call_frame name = Except.ok (Oop.Qnil, false)) := by
  have hchar := const_get_association_search_order fuel state call_frame name s₀ lex sup
    hscope hlex hsup hfuel₁ hfuel₂
  refine ⟨?_, ?_, ?_, ?_⟩
  · rw [hchar]
    cases hb : first_binding state name (lex ++ sup ++ [state.object]) with
    | none =>
      have hall := (first_binding_eq_none_iff state name _).mp hb
      simp only [lookup_answer, true_iff]
      exact ⟨fun m hm => hall m (by simp [hm]), fun m hm => hall m (by simp [hm]),
        hall _ (by simp)⟩
    | some a =>
      simp only [lookup_answer]
      constructor
      · intro h
        cases h
      · rintro ⟨h₁, h₂, h₃⟩
        have hnone : first_binding state name (lex ++ sup ++ [state.object]) = none := by
          rw [first_binding_eq_none_iff]
          intro m hm
          simp only [List.mem_append, List.mem_singleton] at hm
          rcases hm with (hm | hm) | rfl
          · exact h₁ m hm
          · exact h₂ m hm
          · exact h₃
        rw [hnone] at hb
        cases hb
  · rw [hchar]
    cases first_binding state name (lex ++ sup ++ [state.object]) with
    | none => exact Or.inl rfl
    | some a => exact Or.inr ⟨a, rfl⟩
  · intro a h
    simp only [const_get, h]
  · intro h
    simp only [const_get, h]

/-- Witness for C4: in the zoo heap W is unbound in Dog, Outer, Animal and Object,
and the lookup answers nil with found cleared. -/
theorem const_get_typed_absence_witness :
    const_get_association 5 zoo (CallFrame.mk 0) 3 = Except.ok (Oop.Qnil, false) :=
  (const_get_typed_absence 5 zoo (CallFrame.mk 0) 3 0 [3, 4] [3, 2, 1] rfl
    ⟨rfl, by decide, rfl, by decide, rfl⟩ ⟨rfl, rfl, rfl, trivial⟩
    (by decide) (by decide)).1.mpr
    ⟨by simp [zoo, Undefined], by simp [zoo, Undefined], by simp [zoo, Undefined]⟩

/-- C5: the lexical walk stops before Object.  The consulted lexical modules `lex`
leave the name unbound, the superclass chain of the innermost module is
`before`, then `S`, then `after`, with `before` not empty and unbound, `S`
other than Object binding the name to `a`, and Object binding it too.  Then the
lookup answers `a`.  Moreover Object is the last resort: a name bound by Object
and by no other module of `lex` or of the superclass chain is answered with
the binding of Object. -/
theorem const_get_association_object_last (fuel : Nat) (state : VM)
    (call_frame : CallFrame) (name : Symbol) (s₀ : Nat) (lex before : List Nat) (S : Nat)
    (after : List Nat) (a aObj : Nat)
    (hscope : (state.compiledmethod call_frame.cm).scope = Oop.ref s₀)
    (hlex : LexicalModules state (Oop.ref s₀) lex)
    (hsup : SuperclassChain state (state.staticscope s₀).module (before ++ S :: after))
    (hproper : before ≠ [])
    (hlexundef : ∀ m ∈ lex, Undefined state name m)
    (hbefore : ∀ m ∈ before, Undefined state name m)
    (hS : (state.module S).constants name = some a) (hSobj : S ≠ state.object)
    (hObj : (state.module state.object).constants name = some aObj)
    (hfuel₁ : lex.length < fuel) (hfuel₂ : (before ++ S :: after).length ≤ fuel) :
    const_get_association fuel state call_frame name = Except.ok (Oop.ref a, true)
    ∧ (∀ n o, (∀ m ∈ lex, Undefined state n m) →
        (∀ m ∈ before ++ S :: after, m ≠ state.object → Undefined state n m) →
        (state.module state.object).constants n = some o →
        const_get_association fuel state call_frame n = Except.ok (Oop.ref o, true)) := by
  -- that S is a proper superclass other than Object, and that Object binds the name,
  -- describe the scenario; the answer does not depend on them
  have _scenario := And.intro hproper (And.intro hSobj hObj)
  constructor
  · rw [const_get_association_search_order fuel state call_frame name s₀ lex _
      hscope hlex hsup hfuel₁ hfuel₂, first_binding_append, first_binding_append,
      first_binding_append,
      (first_binding_eq_none_iff state name lex).mpr hlexundef,
      (first_binding_eq_none_iff state name before).mpr hbefore,
      first_binding_cons_some state name S a after hS]
    rfl
  · intro n o hl hs ho
    rw [const_get_association_search_order fuel state call_frame n s₀ lex _
      hscope hlex hsup hfuel₁ hfuel₂, List.append_assoc, first_binding_append,
      (first_binding_eq_none_iff state n lex).mpr hl,
      first_binding_object_last state n o ho _ hs]
    rfl

/-- Witness for C5: in the zoo heap Z is bound by Object and by Animal, the
superclass of Dog, and by no lexical scope; the lookup from the scope of Dog
answers with the binding of Animal. -/
theorem const_get_association_object_last_witness :
    const_get_association 5 zoo (CallFrame.mk 0) 2 = Except.ok (Oop.ref 22, true) :=
  (const_get_association_object_last 5 zoo (CallFrame.mk 0) 2 0 [3, 4] [3] 2 [1] 22 12 rfl
    ⟨rfl, by decide, rfl, by decide, rfl⟩ ⟨rfl, rfl, rfl, trivial⟩ (by decide)
    (by simp [zoo, Undefined]) (by simp [zoo, Undefined]) rfl (by decide) rfl
    (by decide) (by decide)).1

/-! ## Method installation -/

/-- The effects of add_method: the four unconditional statements, then formalize
for a class, then specialize when the type info entry is not NULL. -/
theorem add_method_effects_eq (state : VM) (call_frame : CallFrame) (mod : Nat)
    (name : Symbol) (method : Nat) :
    add_method_effects state call_frame mod name method
      = [Event.method_scope method (state.compiledmethod call_frame.cm).scope,
          Event.method_serial method 0,
          Event.method_table_store mod name method,
          Event.global_cache_clear mod name]
        ++ (if (state.module mod).is_class then
              Event.formalize method false ::
                (match state.type_info (state.module mod).instance_type with
                  | some ti => [Event.specialize method ti]
                  | none => [])
            else []) := by
  unfold add_method_effects add_method
  cases hc : (state.module mod).is_class <;>
    cases ht : state.type_info (state.module mod).instance_type <;>
    simp [CompiledMethod.set_scope, CompiledMethod.set_serial, MethodTable.store,
      GlobalCache.clear, CompiledMethod.formalize, CompiledMethod.specialize, hc, ht]

/-- The module table after add_method: only the method table of `mod` changes, at
`name`. -/
theorem add_method_module (state : VM) (call_frame : CallFrame) (mod : Nat)
    (name : Symbol) (method : Nat) :
    (add_method state call_frame mod name method).module
      = Function.update state.module mod
          { state.module mod with
            method_table := Function.update (state.module mod).method_table name (some method) } := by
  unfold add_method
  cases hc : (state.module mod).is_class <;>
    cases ht : state.type_info (state.module mod).instance_type <;>
    simp [CompiledMethod.set_scope, CompiledMethod.set_serial, MethodTable.store,
      GlobalCache.clear, CompiledMethod.formalize, CompiledMethod.specialize, hc, ht]

/-- The compiled methods after add_method: only `method` changes, in its scope and
serial slots. -/
theorem add_method_compiledmethod (state : VM) (call_frame : CallFrame) (mod : Nat)
    (name : Symbol) (method : Nat) :
    (add_method state call_frame mod name method).compiledmethod
      = Function.update state.compiledmethod method
          { scope := (state.compiledmethod call_frame.cm).scope, serial := 0 } := by
  unfold add_method
  cases hc : (state.module mod).is_class <;>
    cases ht : state.type_info (state.module mod).instance_type <;>
    simp [CompiledMethod.set_scope, CompiledMethod.set_serial, MethodTable.store,
      GlobalCache.clear, CompiledMethod.formalize, CompiledMethod.specialize, hc, ht]

/-- C6: postcondition of add_method.  Afterwards the scope of the method is the
scope of the compiled method of the call frame (as it was before the call and
as it is after it), the method table of `mod` maps `name` to the method, and
every other name maps to what it mapped to before. -/
theorem add_method_postcondition (state : VM) (call_frame : CallFrame) (mod : Nat)
    (name : Symbol) (method : Nat) :
    ((add_method state call_frame mod name method).compiledmethod method).scope
        = (state.compiledmethod call_frame.cm).scope
    ∧ ((add_method state call_frame mod name method).compiledmethod method).scope
        = ((add_method state call_frame mod name method).compiledmethod call_frame.cm).scope
    ∧ ((add_method state call_frame mod name method).module mod).method_table name
        = some method
    ∧ (∀ n, n ≠ name →
        ((add_method state call_frame mod name method).module mod).method_table n
          = (state.module mod).method_table n) := by
  rw [add_method_module, add_method_compiledmethod]
  refine ⟨by simp, ?_, by simp, ?_⟩
  · by_cases h : call_frame.cm = method
    · rw [h]
    · simp [Function.update_noteq h]
  · intro n hn
    simp [Function.update_noteq hn]

/-- C7 as stated fails: installing method 9 under name 5 in the class Animal of the
zoo heap performs the store into the method table third and the cache clear
fourth, so the clear does not happen before the store, and after the first
three effects the store has happened while the clear has not. -/
theorem add_method_invalidate_order_counterexample :
    add_method_effects zoo (CallFrame.mk 0) 2 5 9
        = [Event.method_scope 9 (Oop.ref 0), Event.method_serial 9 0,
            Event.method_table_store 2 5 9, Event.global_cache_clear 2 5,
            Event.formalize 9 false, Event.specialize 9 70]
    ∧ ¬ happens_before (add_method_effects zoo (CallFrame.mk 0) 2 5 9)
          (Event.global_cache_clear 2 5) (Event.method_table_store 2 5 9)
    ∧ Event.method_table_store 2 5 9 ∈ (add_method_effects zoo (CallFrame.mk 0) 2 5 9).take 3
    ∧ Event.global_cache_clear 2 5 ∉ (add_method_effects zoo (CallFrame.mk 0) 2 5 9).take 3 := by
  decide

/-- C7, amended: add_method publishes, then invalidates.  In the sequence of its
effects the store of the method into the method table of `mod` is the third
effect and the cache clear for the same module and name is the fourth, directly
after it; the store happens before the clear and never after it, and nothing
else of the call lies between the two. -/
theorem add_method_publish_then_invalidate (state : VM) (call_frame : CallFrame) (mod : Nat)
    (name : Symbol) (method : Nat) :
    (add_method_effects state call_frame mod name method).get? 2
        = some (Event.method_table_store mod name method)
    ∧ (add_method_effects state call_frame mod name method).get? 3
        = some (Event.global_cache_clear mod name)
    ∧ happens_before (add_method_effects state call_frame mod name method)
        (Event.method_table_store mod name method) (Event.global_cache_clear mod name)
    ∧ ¬ happens_before (add_method_effects state call_frame mod name method)
        (Event.global_cache_clear mod name) (Event.method_table_store mod name method) := by
  rw [add_method_effects_eq]
  refine ⟨rfl, rfl, ?_, ?_⟩
  · refine ⟨by simp, by simp, ?_⟩
    simp [List.indexOf_cons]
  · rintro ⟨_, _, h⟩
    simp [List.indexOf_cons] at h

/-- C8: every call of add_method clears the global cache exactly once, for the
module and name it stored under, on every path: among the effects of the call
there is exactly one cache clear, for `mod` and `name`, and exactly one
method-table store, under the same `mod` and `name`. -/
theorem add_method_clears_cache_once (state : VM) (call_frame : CallFrame) (mod : Nat)
    (name : Symbol) (method : Nat) :
    (add_method_effects state call_frame mod name method).filter Event.is_global_cache_clear
        = [Event.global_cache_clear mod name]
    ∧ (add_method_effects state call_frame mod name method).filter Event.is_method_table_store
        = [Event.method_table_store mod name method] := by
  rw [add_method_effects_eq]
  cases (state.module mod).is_class <;>
    cases state.type_info (state.module mod).instance_type <;>
    simp [List.filter, Event.is_global_cache_clear, Event.is_method_table_store]

/-- C9 as stated fails: in the zoo heap method 8 is installed under name 5 in the
class Animal, then method 9 is installed under the same name.  The second call
replaces method 8, and the serial of method 9 is 0, equal to the serial of the
method it replaces and not strictly greater. -/
theorem add_method_serial_counterexample :
    (zoo_installed.module 2).method_table 5 = some 8
    ∧ ((add_method zoo_installed (CallFrame.mk 0) 2 5 9).module 2).method_table 5 = some 9
    ∧ ((add_method zoo_installed (CallFrame.mk 0) 2 5 9).compiledmethod 9).serial = 0
    ∧ ((add_method zoo_installed (CallFrame.mk 0) 2 5 9).compiledmethod 8).serial = 0
    ∧ ¬ (((add_method zoo_installed (CallFrame.mk 0) 2 5 9).compiledmethod 8).serial
          < ((add_method zoo_installed (CallFrame.mk 0) 2 5 9).compiledmethod 9).serial) := by
  decide

/-- C9, amended: add_method stamps the serial 0 on the method it installs and
leaves the serial of every other method alone; so when the name already has a
method whose serial is not negative, the serial of the newly installed method
is not strictly greater than the serial of the method it replaces. -/
theorem add_method_serial_zero (state : VM) (call_frame : CallFrame) (mod : Nat)
    (name : Symbol) (method : Nat) :
    ((add_method state call_frame mod name method).compiledmethod method).serial = 0
    ∧ (∀ other, other ≠ method →
        ((add_method state call_frame mod name method).compiledmethod other).serial
          = (state.compiledmethod other).serial)
    ∧ (∀ old, (state.module mod).method_table name = some old →
        0 ≤ (state.compiledmethod old).serial →
        ¬ (((add_method state call_frame mod name method).compiledmethod old).serial
            < ((add_method state call_frame mod name method).compiledmethod method).serial)) := by
  rw [add_method_compiledmethod]
  refine ⟨by simp, ?_, ?_⟩
  · intro other h
    simp [Function.update_noteq h]
  · intro old _ hserial
    by_cases h : old = method
    · subst h
      simp
    · simp only [Function.update_same, Function.update_noteq h]
      omega

/-- Witness for C9: method 8 sits under name 5 in Animal with serial 0; after
method 9 is installed under the same name the serial of 8 is not below the
serial of 9. -/
theorem add_method_serial_zero_witness :
    ¬ (((add_method zoo_installed (CallFrame.mk 0) 2 5 9).compiledmethod 8).serial
        < ((add_method zoo_installed (CallFrame.mk 0) 2 5 9).compiledmethod 9).serial) :=
  (add_method_serial_zero zoo_installed (CallFrame.mk 0) 2 5 9).2.2 8 (by decide) (by decide)

/-- C10 as stated fails: Dog (module 3) is a Class whose instance type has no type
info entry; installing method 9 under name 5 in it formalizes the method but
never calls specialize. -/
theorem add_method_specialize_counterexample :
    (zoo.module 3).is_class = true
    ∧ zoo.type_info (zoo.module 3).instance_type = none
    ∧ add_method_effects zoo (CallFrame.mk 0) 3 5 9
        = [Event.method_scope 9 (Oop.ref 0), Event.method_serial 9 0,
            Event.method_table_store 3 5 9, Event.global_cache_clear 3 5,
            Event.formalize 9 false]
    ∧ (add_method_effects zoo (CallFrame.mk 0) 3 5 9).filter Event.is_specialize = [] := by
  decide

/-- C10, amended: for a Class add_method formalizes the method and then calls
specialize with the type info of the instance type of the class exactly when
that type info entry exists; with no entry specialize is not called.  For a
Module that is not a Class neither formalize nor specialize is called.  In
every case the method-table store and the cache clear come first, in this
order, so the later steps cannot prevent installation. -/
theorem add_method_specialize_for_classes (state : VM) (call_frame : CallFrame) (mod : Nat)
    (name : Symbol) (method : Nat) :
    (∀ ti, (state.module mod).is_class = true →
        state.type_info (state.module mod).instance_type = some ti →
        add_method_effects state call_frame mod name method
          = [Event.method_scope method (state.compiledmethod call_frame.cm).scope,
              Event.method_serial method 0, Event.method_table_store mod name method,
              Event.global_cache_clear mod name, Event.formalize method false,
              Event.specialize method ti])
    ∧ ((state.module mod).is_class = true →
        state.type_info (state.module mod).instance_type = none →
        add_method_effects state call_frame mod name method
          = [Event.method_scope method (state.compiledmethod call_frame.cm).scope,
              Event.method_serial method 0, Event.method_table_store mod name method,
              Event.global_cache_clear mod name, Event.formalize method false])
    ∧ ((state.module mod).is_class = false →
        add_method_effects state call_frame mod name method
          = [Event.method_scope method (state.compiledmethod call_frame.cm).scope,
              Event.method_serial method 0, Event.method_table_store mod name method,
              Event.global_cache_clear mod name]) := by
  rw [add_method_effects_eq]
  refine ⟨?_, ?_, ?_⟩
  · intro ti hc ht
    simp [hc, ht]
  · intro hc ht
    simp [hc, ht]
  · intro hc
    simp [hc]

/-- Witness for C10: Animal (module 2) is a Class whose instance type 7 has the type
info 70, and installing method 9 in it ends with formalize and specialize for
that type info; Dog (module 3) is a Class without type info and is formalized
only; Outer (module 4) is not a Class and gets neither. -/
theorem add_method_specialize_for_classes_witness :
    add_method_effects zoo (CallFrame.mk 0) 2 5 9
        = [Event.method_scope 9 (Oop.ref 0), Event.method_serial 9 0,
            Event.method_table_store 2 5 9, Event.global_cache_clear 2 5,
            Event.formalize 9 false, Event.specialize 9 70]
    ∧ add_method_effects zoo (CallFrame.mk 0) 3 5 9
        = [Event.method_scope 9 (Oop.ref 0), Event.method_serial 9 0,
            Event.method_table_store 3 5 9, Event.global_cache_clear 3 5,
            Event.formalize 9 false]
    ∧ add_method_effects zoo (CallFrame.mk 0) 4 5 9
        = [Event.method_scope 9 (Oop.ref 0), Event.method_serial 9 0,
            Event.method_table_store 4 5 9, Event.global_cache_clear 4 5] :=
  ⟨(add_method_specialize_for_classes zoo (CallFrame.mk 0) 2 5 9).1 70 rfl rfl,
   (add_method_specialize_for_classes zoo (CallFrame.mk 0) 3 5 9).2.1 rfl rfl,
   (add_method_specialize_for_classes zoo (CallFrame.mk 0) 4 5 9).2.2 rfl⟩

/-! ## Facts about class creation -/

theorem set_const_module_fields (state : VM) (mod : Nat) (name : Symbol) (val : Oop) (m : Nat) :
    ((Module.set_const state mod name val).module m).superclass = (state.module m).superclass
    ∧ ((Module.set_const state mod name val).module m).is_class = (state.module m).is_class
    ∧ ((Module.set_const state mod name val).module m).is_module = (state.module m).is_module := by
  unfold Module.set_const
  split
  · exact ⟨rfl, rfl, rfl⟩
  · by_cases h : m = mod
    · subst h
      simp
    · simp [Function.update_noteq h]

theorem set_const_get_const (state : VM) (mod : Nat) (name : Symbol) (val : Oop) :
    Module.get_const (Module.set_const state mod name val) mod name = (val, true) := by
  unfold Module.set_const
  split
  · next a h => simp [Module.get_const, h]
  · next h => simp [Module.get_const]

theorem set_const_object (state : VM) (mod : Nat) (name : Symbol) (val : Oop) :
    (Module.set_const state mod name val).object = state.object := by
  unfold Module.set_const
  split <;> rfl

theorem set_const_om_next (state : VM) (mod : Nat) (name : Symbol) (val : Oop) :
    state.om_next ≤ (Module.set_const state mod name val).om_next := by
  unfold Module.set_const
  split <;> simp

theorem set_name_module_fields (state : VM) (mod under : Nat) (name : Symbol) (m : Nat) :
    ((Module.set_name state mod under name).module m).superclass = (state.module m).superclass
    ∧ ((Module.set_name state mod under name).module m).is_class = (state.module m).is_class
    ∧ ((Module.set_name state mod under name).module m).is_module = (state.module m).is_module := by
  by_cases h : m = mod
  · subst h
    simp [Module.set_name]
  · simp [Module.set_name, Function.update_noteq h]

theorem set_name_slot_module_fields (state : VM) (mod : Nat) (name : Symbol) (m : Nat) :
    ((Module.set_name_slot state mod name).module m).superclass = (state.module m).superclass
    ∧ ((Module.set_name_slot state mod name).module m).is_class = (state.module m).is_class
    ∧ ((Module.set_name_slot state mod name).module m).is_module = (state.module m).is_module := by
  by_cases h : m = mod
  · subst h
    simp [Module.set_name_slot]
  · simp [Module.set_name_slot, Function.update_noteq h]

theorem add_class_cast_failure (state : VM) (under : Nat) (super : Oop) (name : Symbol)
    (h : as_Class state (if super = Oop.Qnil then G_object state else super) = none) :
    add_class state under super name
      = (state, Completion.raised
          (Raised.cast_failure (if super = Oop.Qnil then G_object state else super))) := by
  simp only [add_class, h]

theorem add_class_eq (state : VM) (under : Nat) (super : Oop) (name : Symbol) (sup : Nat)
    (h : as_Class state (if super = Oop.Qnil then G_object state else super) = some sup) :
    add_class state under super name
      = (Module.set_const (add_class_named state under name sup) under name
          (Oop.ref state.om_next), Completion.returned state.om_next) := by
  simp only [add_class, h, add_class_named]
  rfl

theorem add_class_named_fields (state : VM) (under : Nat) (name : Symbol) (sup m : Nat) :
    ((add_class_named state under name sup).module m).superclass
        = (if m = state.om_next then Oop.ref sup else (state.module m).superclass)
    ∧ ((add_class_named state under name sup).module m).is_class
        = (if m = state.om_next then true else (state.module m).is_class)
    ∧ ((add_class_named state under name sup).module m).is_module
        = (if m = state.om_next then true else (state.module m).is_module) := by
  unfold add_class_named
  split
  · rw [(set_name_slot_module_fields _ _ _ m).1, (set_name_slot_module_fields _ _ _ m).2.1,
      (set_name_slot_module_fields _ _ _ m).2.2]
    by_cases h : m = state.om_next
    · subst h
      simp [Class.create]
    · simp [Class.create, Function.update_noteq h, h]
  · rw [(set_name_module_fields _ _ _ _ m).1, (set_name_module_fields _ _ _ _ m).2.1,
      (set_name_module_fields _ _ _ _ m).2.2]
    by_cases h : m = state.om_next
    · subst h
      simp [Class.create]
    · simp [Class.create, Function.update_noteq h, h]

theorem add_class_named_om_next (state : VM) (under : Nat) (name : Symbol) (sup : Nat) :
    (add_class_named state under name sup).om_next = state.om_next + 1 := by
  unfold add_class_named
  split <;> rfl

theorem open_class_found (state : VM) (under : Nat) (super : Oop) (name : Symbol) (a : Nat)
    (h : (state.module under).constants name = some a) :
    open_class state under super name
      = match as_Class state (state.association a).value with
        | none =>
          { state := state, created := false
            completion := Completion.raised (Raised.cast_failure (state.association a).value) }
        | some cls =>
          { state := state, created := false, completion := check_superclass state cls super } := by
  simp only [open_class, Module.get_const, h]

theorem open_class_absent (state : VM) (under : Nat) (super : Oop) (name : Symbol)
    (h : (state.module under).constants name = none) :
    open_class state under super name
      = { state := (add_class state under super name).1, created := true
          completion := (add_class state under super name).2 } := by
  simp only [open_class, Module.get_const, h]

theorem open_class_found_state (state : VM) (under : Nat) (super : Oop) (name : Symbol) (a : Nat)
    (h : (state.module under).constants name = some a) :
    (open_class state under super name).state = state
    ∧ (open_class state under super name).created = false := by
  rw [open_class_found state under super name a h]
  cases as_Class state (state.association a).value <;> exact ⟨rfl, rfl⟩

/-- On the reopen path the superclass-mismatch error is raised for a class whose
direct superclass is a class other than the Module `super`. -/
theorem open_class_superclass_mismatch (state : VM) (under : Nat) (name : Symbol)
    (s a c d : Nat)
    (hbound : (state.module under).constants name = some a)
    (hclass : as_Class state (state.association a).value = some c)
    (hsuper : as_Module state (Oop.ref s) = some s)
    (hdirect : Class.direct_superclass state c = Oop.ref d) (hne : d ≠ s) :
    (open_class state under (Oop.ref s) name).completion
        = Completion.raised (Raised.superclass_mismatch (Oop.ref s) d)
    ∧ (open_class state under (Oop.ref s) name).created = false
    ∧ (open_class state under (Oop.ref s) name).state = state := by
  rw [open_class_found state under _ name a hbound, hclass]
  refine ⟨?_, rfl, rfl⟩
  simp [check_superclass, hdirect, hne, hsuper]

/-- The superclass-mismatch error is raised in no other case: `super` is not nil
and the name is bound to a class whose direct superclass differs from it. -/
theorem open_class_mismatch_only (state : VM) (under : Nat) (super : Oop) (name : Symbol)
    (g : Oop) (p : Nat)
    (h : (open_class state under super name).completion
          = Completion.raised (Raised.superclass_mismatch g p)) :
    super ≠ Oop.Qnil ∧ ∃ a c, (state.module under).constants name = some a
      ∧ as_Class state (state.association a).value = some c
      ∧ Class.direct_superclass state c ≠ super := by
  cases hb : (state.module under).constants name with
  | none =>
    rw [open_class_absent state under super name hb] at h
    simp only [add_class] at h
    split at h <;> simp at h
  | some a =>
    rw [open_class_found state under super name a hb] at h
    cases hc : as_Class state (state.association a).value with
    | none => rw [hc] at h; simp at h
    | some c =>
      rw [hc] at h
      simp only [check_superclass] at h
      by_cases hs : super = Oop.Qnil
      · simp [hs] at h
      · by_cases hd : Class.direct_superclass state c = super
        · simp [hs, hd] at h
        · exact ⟨hs, a, c, rfl, hc, hd⟩

/-- C11, failing input: in the kennel heap the constant Object of Object is bound
to the root class Object, whose direct superclass is nil, and `super` is the
class Animal, which is not nil and differs from that direct superclass.
open_class does not raise the superclass-mismatch error: it faults while it
builds the message, reading the name of the nil direct superclass. -/
theorem open_class_mismatch_root_class_faults :
    (kennel.module 1).constants 10 = some 50
    ∧ as_Class kennel (kennel.association 50).value = some 1
    ∧ Class.direct_superclass kennel 1 = Oop.Qnil
    ∧ as_Class kennel (Oop.ref 2) = some 2
    ∧ (open_class kennel 1 (Oop.ref 2) 10).completion = Completion.fault Fault.nil_dereference
    ∧ (open_class kennel 1 (Oop.ref 2) 10).created = false := by
  decide

/-- C12 as stated fails: in the kennel heap the name Cat is unbound in Object and
`super` is module 4, which is not a Class.  open_class sets created, but the
cast of `super` raises a type error: no class is returned and Cat stays
unbound. -/
theorem open_class_creates_counterexample :
    (kennel.module 1).constants 14 = none
    ∧ as_Module kennel (Oop.ref 4) = some 4
    ∧ as_Class kennel (Oop.ref 4) = none
    ∧ (open_class kennel 1 (Oop.ref 4) 14).created = true
    ∧ (open_class kennel 1 (Oop.ref 4) 14).completion
        = Completion.raised (Raised.cast_failure (Oop.ref 4))
    ∧ ((open_class kennel 1 (Oop.ref 4) 14).state.module 1).constants 14 = none
    ∧ (open_class kennel 1 (Oop.ref 4) 14).state.om_next = kennel.om_next := by
  decide

/-- C12, amended: open_class sets created exactly when the own constant table of
`under` had no binding for the name.  In that case, when `super` (or Object
when `super` is nil) is a Class, the returned class is new (it sits at the
address the object memory handed out, and the allocation pointer has moved on),
its superclass is `super` (or Object), and the constant table of `under` binds
the name to it afterwards, so that an immediately repeated open_class returns
the same class with created cleared and changes nothing. -/
theorem open_class_creates_iff_absent (state : VM) (under : Nat) (super : Oop)
    (name : Symbol) :
    ((open_class state under super name).created = true
      ↔ (state.module under).constants name = none)
    ∧ (∀ sup, (state.module under).constants name = none →
        as_Class state (if super = Oop.Qnil then G_object state else super) = some sup →
        (open_class state under super name).completion = Completion.returned state.om_next
        ∧ state.om_next < (open_class state under super name).state.om_next
        ∧ ((open_class state under super name).state.module state.om_next).superclass
            = (if super = Oop.Qnil then G_object state else super)
        ∧ Module.get_const (open_class state under super name).state under name
            = (Oop.ref state.om_next, true)
        ∧ (open_class (open_class state under super name).state under super name).completion
            = Completion.returned state.om_next
        ∧ (open_class (open_class state under super name).state under super name).created
            = false
        ∧ (open_class (open_class state under super name).state under super name).state
            = (open_class state under super name).state) := by
  constructor
  · cases hb : (state.module under).constants name with
    | none => simp [open_class_absent state under super name hb]
    | some a => simp [(open_class_found_state state under super name a hb).2]
  · intro sup hb hsup
    have hsuper : (if super = Oop.Qnil then G_object state else super) = Oop.ref sup := by
      cases hx : (if super = Oop.Qnil then G_object state else super) with
      | Qnil => rw [hx] at hsup; simp [as_Class] at hsup
      | ref x =>
        rw [hx] at hsup
        simp only [as_Class] at hsup
        split at hsup
        · simp at hsup; rw [hsup]
        · simp at hsup
    have hstate : (open_class state under super name).state
        = Module.set_const (add_class_named state under name sup) under name
            (Oop.ref state.om_next) := by
      rw [open_class_absent state under super name hb,
        add_class_eq state under super name sup hsup]
    have hcompl : (open_class state under super name).completion
        = Completion.returned state.om_next := by
      rw [open_class_absent state under super name hb,
        add_class_eq state under super name sup hsup]
    rw [hstate, hcompl]
    have hget := set_const_get_const (add_class_named state under name sup) under name
      (Oop.ref state.om_next)
    have hfields := fun m => set_const_module_fields (add_class_named state under name sup)
      under name (Oop.ref state.om_next) m
    have hnamed := add_class_named_fields state under name sup state.om_next
    have hbound : ∃ b, ((Module.set_const (add_class_named state under name sup) under name
        (Oop.ref state.om_next)).module under).constants name = some b
        ∧ ((Module.set_const (add_class_named state under name sup) under name
            (Oop.ref state.om_next)).association b).value = Oop.ref state.om_next := by
      simp only [Module.get_const] at hget
      split at hget
      · next b hbb => exact ⟨b, hbb, by simpa using hget⟩
      · simp at hget
    obtain ⟨b, hb₁, hb₂⟩ := hbound
    have hcast : as_Class (Module.set_const (add_class_named state under name sup) under name
        (Oop.ref state.om_next)) (Oop.ref state.om_next) = some state.om_next := by
      simp [as_Class, (hfields state.om_next).2.1, (hfields state.om_next).2.2, hnamed.2.1,
        hnamed.2.2]
    have hsc : ((Module.set_const (add_class_named state under name sup) under name
        (Oop.ref state.om_next)).module state.om_next).superclass = Oop.ref sup := by
      rw [(hfields state.om_next).1, hnamed.1]
      simp
    have hagain : open_class (Module.set_const (add_class_named state under name sup)
        under name (Oop.ref state.om_next)) under super name
        = { state := Module.set_const (add_class_named state under name sup) under name
              (Oop.ref state.om_next)
            created := false
            completion := check_superclass (Module.set_const
              (add_class_named state under name sup) under name (Oop.ref state.om_next))
              state.om_next super } := by
      rw [open_class_found _ under super name b hb₁, hb₂, hcast]
    have hcheck : check_superclass (Module.set_const (add_class_named state under name sup)
        under name (Oop.ref state.om_next)) state.om_next super
        = Completion.returned state.om_next := by
      unfold check_superclass
      by_cases hs : super = Oop.Qnil
      · simp [hs]
      · have hsr : super = Oop.ref sup := by simpa [hs] using hsuper
        simp [hs, Class.direct_superclass, hsc, hsr]
    refine ⟨rfl, ?_, hsc.trans hsuper.symm, hget, ?_, ?_, ?_⟩
    · have h₁ := set_const_om_next (add_class_named state under name sup) under name
        (Oop.ref state.om_next)
      rw [add_class_named_om_next] at h₁
      omega
    · rw [hagain, hcheck]
    · rw [hagain]
    · rw [hagain]

/-- Witness for C12: in the kennel heap Cat is unbound in Object and Animal is a
Class, so open_class creates the class at the fresh address 200 below Animal
and binds Cat to it; opening it again returns the same class. -/
theorem open_class_creates_iff_absent_witness :
    (open_class kennel 1 (Oop.ref 2) 14).completion = Completion.returned 200
    ∧ ((open_class kennel 1 (Oop.ref 2) 14).state.module 200).superclass = Oop.ref 2
    ∧ (open_class (open_class kennel 1 (Oop.ref 2) 14).state 1 (Oop.ref 2) 14).created = false :=
  ⟨((open_class_creates_iff_absent kennel 1 (Oop.ref 2) 14).2 2 rfl rfl).1,
   ((open_class_creates_iff_absent kennel 1 (Oop.ref 2) 14).2 2 rfl rfl).2.2.1,
   ((open_class_creates_iff_absent kennel 1 (Oop.ref 2) 14).2 2 rfl rfl).2.2.2.2.2.1⟩

/-- Superclass steps taken from anything but `c` never reach `c` and are the same
in two states that agree on every superclass slot except that of `c`, as long
as no superclass slot of the first state holds `c`. -/
theorem nth_superclass_agree (state state₂ : VM) (c : Nat)
    (hfresh : ∀ m, (state.module m).superclass ≠ Oop.ref c)
    (hsame : ∀ m, m ≠ c → (state₂.module m).superclass = (state.module m).superclass) :
    ∀ (k : Nat) (o : Oop), o ≠ Oop.ref c →
      nth_superclass state₂ k o = nth_superclass state k o
      ∧ nth_superclass state k o ≠ Oop.ref c := by
  intro k
  induction k with
  | zero => intro o ho; exact ⟨rfl, ho⟩
  | succ k ih =>
    intro o ho
    cases o with
    | Qnil => exact ⟨rfl, by simp [nth_superclass]⟩
    | ref m =>
      have hm : m ≠ c := fun h => ho (by rw [h])
      simp only [nth_superclass]
      rw [hsame m hm]
      exact ih _ (hfresh m)

/-- A state that differs from an acyclic one only in the superclass slot of an
address that no superclass slot holds, pointing it at another address, is
acyclic. -/
theorem acyclic_extend (state state₂ : VM) (c : Nat) (sup : Oop)
    (hacyc : Acyclic state)
    (hfresh : ∀ m, (state.module m).superclass ≠ Oop.ref c)
    (hsame : ∀ m, m ≠ c → (state₂.module m).superclass = (state.module m).superclass)
    (hnew : (state₂.module c).superclass = sup) (hsup : sup ≠ Oop.ref c) :
    Acyclic state₂ := by
  intro m k hk
  by_cases hm : m = c
  · subst hm
    obtain ⟨j, rfl⟩ : ∃ j, k = j + 1 := ⟨k - 1, by omega⟩
    simp only [nth_superclass]
    rw [hnew, (nth_superclass_agree state state₂ m hfresh hsame j sup hsup).1]
    exact (nth_superclass_agree state state₂ m hfresh hsame j sup hsup).2
  · have ho : Oop.ref m ≠ Oop.ref c := fun h => hm (by injection h)
    rw [(nth_superclass_agree state state₂ c hfresh hsame k _ ho).1]
    exact hacyc m k hk

/-- C13: class creation keeps the hierarchy acyclic.  When the superclass relation
is acyclic before open_class, and the address the object memory hands out next
is fresh (no superclass slot holds it, and it is neither `super` nor Object),
then the relation is acyclic afterwards however the call ends (creation,
successful reopen, raised error or fault), and the superclass slot of every
already existing module is what it was. -/
theorem open_class_keeps_acyclic (state : VM) (under : Nat) (super : Oop) (name : Symbol)
    (hacyc : Acyclic state) (hfresh : FreshSuperclasses state)
    (hsuper : super ≠ Oop.ref state.om_next) (hobject : state.object ≠ state.om_next) :
    Acyclic (open_class state under super name).state
    ∧ (∀ m, m ≠ state.om_next →
        ((open_class state under super name).state.module m).superclass
          = (state.module m).superclass) := by
  cases hb : (state.module under).constants name with
  | some a =>
    rw [(open_class_found_state state under super name a hb).1]
    exact ⟨hacyc, fun _ _ => rfl⟩
  | none =>
    rw [open_class_absent state under super name hb]
    simp only []
    cases hc : as_Class state (if super = Oop.Qnil then G_object state else super) with
    | none =>
      rw [add_class_cast_failure state under super name hc]
      exact ⟨hacyc, fun _ _ => rfl⟩
    | some sup =>
      rw [add_class_eq state under super name sup hc]
      simp only []
      have hsame : ∀ m, m ≠ state.om_next →
          ((Module.set_const (add_class_named state under name sup) under name
            (Oop.ref state.om_next)).module m).superclass = (state.module m).superclass := by
        intro m hm
        rw [(set_const_module_fields _ under name _ m).1,
          (add_class_named_fields state under name sup m).1]
        simp [hm]
      have hnew : ((Module.set_const (add_class_named state under name sup) under name
            (Oop.ref state.om_next)).module state.om_next).superclass = Oop.ref sup := by
        rw [(set_const_module_fields _ under name _ _).1,
          (add_class_named_fields state under name sup _).1]
        simp
      have hsupne : Oop.ref sup ≠ Oop.ref state.om_next := by
        have hx : (if super = Oop.Qnil then G_object state else super) = Oop.ref sup := by
          cases hx : (if super = Oop.Qnil then G_object state else super) with
          | Qnil => rw [hx] at hc; simp [as_Class] at hc
          | ref x =>
            rw [hx] at hc
            simp only [as_Class] at hc
            split at hc
            · simp at hc; rw [hc]
            · simp at hc
        rw [← hx]
        by_cases hs : super = Oop.Qnil
        · simp only [hs, if_true, G_object]
          exact fun h => hobject (by injection h)
        · simpa [hs] using hsuper
      exact ⟨acyclic_extend state _ state.om_next (Oop.ref sup) hacyc hfresh hsame hnew hsupne,
        hsame⟩

/-- A heap whose superclass slots all point to smaller addresses has no cycle. -/
theorem acyclic_of_decreasing (state : VM)
    (h : ∀ m p, (state.module m).superclass = Oop.ref p → p < m) : Acyclic state := by
  have key : ∀ (k : Nat) (m : Nat), 0 < k →
      nth_superclass state k (Oop.ref m) = Oop.Qnil
      ∨ ∃ p, p < m ∧ nth_superclass state k (Oop.ref m) = Oop.ref p := by
    intro k
    induction k with
    | zero => intro m hk; omega
    | succ k ih =>
      intro m _
      simp only [nth_superclass]
      cases hs : (state.module m).superclass with
      | Qnil => left; cases k <;> rfl
      | ref q =>
        have hq := h m q hs
        cases k with
        | zero => right; exact ⟨q, hq, rfl⟩
        | succ j =>
          rcases ih q (by omega) with h₁ | ⟨p, hp, h₂⟩
          · left; exact h₁
          · right; exact ⟨p, by omega, h₂⟩
  intro m k hk heq
  rcases key k m hk with h₁ | ⟨p, hp, h₂⟩
  · rw [h₁] at heq; cases heq
  · rw [h₂] at heq
    injection heq with heq
    omega

theorem kennel_superclass (m : Nat) :
    (kennel.module m).superclass
      = if m = 2 then Oop.ref 1 else if m = 3 then Oop.ref 2 else Oop.Qnil := by
  unfold kennel
  simp only []
  split_ifs <;> first | rfl | omega

/-- Witness for C13: the kennel heap is acyclic and address 200 is fresh; after
the class Cat is created below Animal the heap is still acyclic. -/
theorem open_class_keeps_acyclic_witness :
    Acyclic (open_class kennel 1 (Oop.ref 2) 14).state :=
  (open_class_keeps_acyclic kennel 1 (Oop.ref 2) 14
    (acyclic_of_decreasing kennel (fun m p h => by
      rw [kennel_superclass] at h
      split_ifs at h <;> (injection h; omega)))
    (fun m h => by
      rw [kennel_superclass] at h
      split_ifs at h <;> cases h)
    (by decide) (by decide)).1

/-! ## Attaching methods and opening modules -/

theorem set_scope_compiledmethod_other (state : VM) (method other : Nat) (scope : Oop)
    (h : other ≠ method) :
    (CompiledMethod.set_scope state method scope).compiledmethod other
      = state.compiledmethod other := by
  simp [CompiledMethod.set_scope, Function.update_noteq h]

/-- When the compiled method of the call frame is not the method being attached,
attach_method leaves the method with the scope of the compiled method of the
call frame, whatever the receiver is: add_method writes the scope slot last. -/
theorem attach_method_scope (state : VM) (call_frame : CallFrame) (recv : Oop)
    (name : Symbol) (method : Nat) (hne : call_frame.cm ≠ method) :
    ((attach_method state call_frame recv name method).compiledmethod method).scope
      = (state.compiledmethod call_frame.cm).scope := by
  unfold attach_method
  simp only []
  rw [add_method_compiledmethod]
  simp only [Function.update_same]
  cases as_Module state recv with
  | none => simp only [set_scope_compiledmethod_other _ _ _ _ hne]
  | some mod =>
    simp only [set_scope_compiledmethod_other _ _ _ _ hne]
    rfl

/-- The method is installed under the name in the method table of the metaclass of
the receiver. -/
theorem attach_method_installs (state : VM) (call_frame : CallFrame) (recv : Oop)
    (name : Symbol) (method : Nat) :
    ((attach_method state call_frame recv name method).module
        (Object.metaclass state recv)).method_table name = some method := by
  unfold attach_method
  simp only []
  rw [add_method_module]
  cases as_Module state recv <;>
    simp [Object.metaclass, CompiledMethod.set_scope, StaticScope.set_parent,
      StaticScope.set_module, StaticScope.create]

/-- C26, failing input: in the zoo heap the receiver is the module Outer (module 4)
and method 9, whose scope is nil, is attached under name 5 from a frame that
runs compiled method 0.  attach_method creates the static scope 200 with
module Outer and the old scope of the method as parent, but afterwards the
scope of the method is scope 0, the scope of the compiled method of the call
frame, not the new static scope: add_method overwrites it.  The method is
installed in the metaclass (module 60). -/
theorem attach_method_module_scope_overwritten :
    as_Module zoo_heap (Oop.ref 4) = some 4
    ∧ (zoo_heap.compiledmethod 9).scope = Oop.Qnil
    ∧ (zoo_heap.compiledmethod 0).scope = Oop.ref 0
    ∧ ((attach_method zoo_heap (CallFrame.mk 0) (Oop.ref 4) 5 9).staticscope 200).module
        = Oop.ref 4
    ∧ ((attach_method zoo_heap (CallFrame.mk 0) (Oop.ref 4) 5 9).staticscope 200).parent
        = Oop.Qnil
    ∧ ((attach_method zoo_heap (CallFrame.mk 0) (Oop.ref 4) 5 9).compiledmethod 9).scope
        = Oop.ref 0
    ∧ ((attach_method zoo_heap (CallFrame.mk 0) (Oop.ref 4) 5 9).compiledmethod 9).scope
        ≠ Oop.ref 200
    ∧ ((attach_method zoo_heap (CallFrame.mk 0) (Oop.ref 4) 5 9).module 60).method_table 5
        = some 9 := by
  decide

theorem const_get_module_nil (state : VM) (name : Symbol) (fuel : Nat) :
    const_get_module state name fuel Oop.Qnil = Except.ok (Oop.Qnil, false) := by
  cases fuel <;> rfl

/-- const_get on a module answers the value of the first binding along the search
chain: first match wins, and nothing past Object is consulted. -/
theorem const_get_module_search (state : VM) (name : Symbol) :
    ∀ (mods : List Nat) (mod : Oop) (fuel : Nat),
      SearchChain state mod mods → mods.length ≤ fuel →
      const_get_module state name fuel mod
        = Except.ok (lookup_value state (first_binding state name mods)) := by
  intro mods
  induction mods with
  | nil =>
    intro mod fuel hchain _
    cases mod with
    | Qnil => exact const_get_module_nil state name fuel
    | ref m => exact absurd hchain (by simp [SearchChain])
  | cons p rest ih =>
    intro mod fuel hchain hfuel
    obtain ⟨k, rfl⟩ : ∃ k, fuel = k + 1 := ⟨fuel - 1, by simp at hfuel; omega⟩
    cases mod with
    | Qnil => exact absurd hchain (by simp [SearchChain])
    | ref m =>
      simp only [SearchChain] at hchain
      obtain ⟨hmp, hrest⟩ := hchain
      subst hmp
      cases h : (state.module m).constants name with
      | some a =>
        rw [first_binding_cons_some state name m a rest h]
        simp [const_get_module, Module.get_const, h, lookup_value]
      | none =>
        rw [first_binding_cons_none state name m rest h]
        by_cases hobj : m = state.object
        · rw [if_pos hobj] at hrest
          subst hrest
          subst hobj
          simp [const_get_module, Module.get_const, h, G_object, lookup_value,
            first_binding]
        · rw [if_neg hobj] at hrest
          have hne : Oop.ref m ≠ G_object state := by
            intro hx
            apply hobj
            simp only [G_object] at hx
            injection hx
          simp only [const_get_module, Module.get_const, h, if_neg hne]
          exact ih _ k hrest (by simp at hfuel; omega)

/-- C27: open_module returns an existing module or creates and registers one.
With `mods` the superclass chain of `under` up to and including Object, const_get
on `under` answers the value of the first binding along `mods`.  When there is
one, open_module returns that object as a Module (the checked cast, which raises
for an object that is not a Module) and leaves the state as it was, wherever on
the chain the binding lives.  When there is none, it creates a new module at the
address the object memory hands out, names it inside `under`, binds it in the own
constant table of `under`, and an immediately repeated open_module returns the
same module and changes nothing. -/
theorem open_module_opens_or_creates (fuel : Nat) (state : VM) (under : Nat) (name : Symbol)
    (mods : List Nat) (hchain : SearchChain state (Oop.ref under) mods)
    (hfuel : mods.length ≤ fuel) :
    const_get_module state name fuel (Oop.ref under)
        = Except.ok (lookup_value state (first_binding state name mods))
    ∧ (∀ a, first_binding state name mods = some a →
        open_module fuel state under name
          = Except.ok (state,
              match as_Module state (state.association a).value with
              | some m => Completion.returned m
              | none => Completion.raised (Raised.cast_failure (state.association a).value)))
    ∧ (first_binding state name mods = none →
        ∃ created : VM,
          open_module fuel state under name
            = Except.ok (created, Completion.returned state.om_next)
          ∧ state.om_next < created.om_next
          ∧ (created.module state.om_next).is_module = true
          ∧ (created.module state.om_next).is_class = false
          ∧ (created.module state.om_next).name = some (ModuleName.scoped under name)
          ∧ Module.get_const created under name = (Oop.ref state.om_next, true)
          ∧ open_module fuel created under name
              = Except.ok (created, Completion.returned state.om_next)) := by
  have hsearch := const_get_module_search state name mods (Oop.ref under) fuel hchain hfuel
  refine ⟨hsearch, ?_, ?_⟩
  · intro a ha
    unfold open_module
    rw [hsearch, ha]
    simp only [lookup_value]
    cases as_Module state (state.association a).value <;> rfl
  · intro hnone
    have hcreate : open_module fuel state under name
        = Except.ok (Module.set_const
            (Module.set_name (Module.create state).1 (Module.create state).2 under name)
            under name (Oop.ref (Module.create state).2),
          Completion.returned (Module.create state).2) := by
      unfold open_module
      rw [hsearch, hnone]
      rfl
    have hnew : (Module.create state).2 = state.om_next := rfl
    rw [hnew] at hcreate
    refine ⟨_, hcreate, ?_, ?_, ?_, ?_, ?_, ?_⟩
    · have h₁ := set_const_om_next
        (Module.set_name (Module.create state).1 state.om_next under name) under name
        (Oop.ref state.om_next)
      have h₂ : (Module.set_name (Module.create state).1 state.om_next under name).om_next
          = state.om_next + 1 := rfl
      omega
    · rw [(set_const_module_fields _ under name _ _).2.2,
        (set_name_module_fields _ _ under name _).2.2]
      simp [Module.create]
    · rw [(set_const_module_fields _ under name _ _).2.1,
        (set_name_module_fields _ _ under name _).2.1]
      simp [Module.create]
    · unfold Module.set_const
      split
      · simp [Module.set_name]
      · by_cases hu : state.om_next = under
        · subst hu
          simp [Module.set_name]
        · simp [Module.set_name, Function.update_noteq hu]
    · exact set_const_get_const _ under name _
    · obtain ⟨k, rfl⟩ : ∃ k, fuel = k + 1 := by
        cases mods with
        | nil => exact absurd hchain (by simp [SearchChain])
        | cons p rest => exact ⟨fuel - 1, by simp at hfuel; omega⟩
      have hget := set_const_get_const
        (Module.set_name (Module.create state).1 state.om_next under name) under name
        (Oop.ref state.om_next)
      have hmod : as_Module (Module.set_const
          (Module.set_name (Module.create state).1 state.om_next under name) under name
          (Oop.ref state.om_next)) (Oop.ref state.om_next) = some state.om_next := by
        simp only [as_Module]
        rw [(set_const_module_fields _ under name _ _).2.2,
          (set_name_module_fields _ _ under name _).2.2]
        simp [Module.create]
      unfold open_module
      simp only [const_get_module, hget, hmod]

/-- Witness for C27: in the kennel heap the search from Dog reaches Animal and
Object; the name Animal is bound in Object, an ancestor of Dog, and open_module
returns the class Animal without changing the state. -/
theorem open_module_opens_or_creates_witness :
    open_module 5 kennel 3 11 = Except.ok (kennel, Completion.returned 2) :=
  (open_module_opens_or_creates 5 kennel 3 11 [3, 2, 1]
    ⟨rfl, rfl, rfl, rfl⟩ (by decide)).2.1 51 rfl

/-! ## Termination and cost of constant lookup -/

theorem lexical_walk_counted_fst (state : VM) (name : Symbol) :
    ∀ (fuel : Nat) (cur : Oop),
      (lexical_walk_counted state name fuel cur).1 = lexical_walk state name fuel cur := by
  intro fuel
  induction fuel with
  | zero => intro cur; cases cur <;> rfl
  | succ k ih =>
    intro cur
    cases cur with
    | Qnil => rfl
    | ref s =>
      simp only [lexical_walk_counted, lexical_walk]
      split
      · rfl
      · split
        · rfl
        · split
          · rfl
          · exact ih _

theorem superclass_walk_counted_fst (state : VM) (name : Symbol) :
    ∀ (fuel : Nat) (mod : Oop),
      (superclass_walk_counted state name fuel mod).1 = superclass_walk state name fuel mod := by
  intro fuel
  induction fuel with
  | zero => intro mod; cases mod <;> rfl
  | succ k ih =>
    intro mod
    cases mod with
    | Qnil => rfl
    | ref m =>
      simp only [superclass_walk_counted, superclass_walk]
      split
      · rfl
      · exact ih _

theorem const_get_module_counted_fst (state : VM) (name : Symbol) :
    ∀ (fuel : Nat) (mod : Oop),
      (const_get_module_counted state name fuel mod).1 = const_get_module state name fuel mod := by
  intro fuel
  induction fuel with
  | zero => intro mod; cases mod <;> rfl
  | succ k ih =>
    intro mod
    cases mod with
    | Qnil => rfl
    | ref m =>
      simp only [const_get_module_counted, const_get_module]
      split
      · rfl
      · split
        · rfl
        · exact ih _

theorem const_get_association_counted_fst (fuel : Nat) (state : VM) (call_frame : CallFrame)
    (name : Symbol) :
    (const_get_association_counted fuel state call_frame name).1
      = const_get_association fuel state call_frame name := by
  unfold const_get_association_counted const_get_association
  rw [← lexical_walk_counted_fst]
  rcases hl : lexical_walk_counted state name fuel (state.compiledmethod call_frame.cm).scope
    with ⟨r, n⟩
  cases r with
  | error e => rfl
  | ok o =>
    cases o with
    | some result => rfl
    | none =>
      simp only []
      cases hs : (state.compiledmethod call_frame.cm).scope with
      | Qnil => rfl
      | ref s =>
        simp only []
        rw [← superclass_walk_counted_fst]
        rcases hsw : superclass_walk_counted state name fuel (state.staticscope s).module
          with ⟨r₂, k⟩
        cases r₂ with
        | error e => rfl
        | ok o₂ =>
          cases o₂ with
          | some result => rfl
          | none =>
            simp only []
            split <;> rfl

/-- On a finite parent chain whose scopes all have a module, the lexical loop
ends without a fault after at most one table query per scope. -/
theorem lexical_walk_counted_bound (state : VM) (name : Symbol) :
    ∀ (chain : List Nat) (cur : Oop) (fuel : Nat),
      ScopeChain state cur chain →
      (∀ s ∈ chain, (state.staticscope s).module ≠ Oop.Qnil) →
      chain.length ≤ fuel →
      (∃ r, (lexical_walk_counted state name fuel cur).1 = Except.ok r)
      ∧ (lexical_walk_counted state name fuel cur).2 ≤ chain.length := by
  intro chain
  induction chain with
  | nil =>
    intro cur fuel hchain _ _
    cases cur with
    | Qnil => cases fuel <;> exact ⟨⟨none, rfl⟩, Nat.le_refl 0⟩
    | ref s => exact absurd hchain (by simp [ScopeChain])
  | cons p rest ih =>
    intro cur fuel hchain hmods hfuel
    obtain ⟨k, rfl⟩ : ∃ k, fuel = k + 1 := ⟨fuel - 1, by simp at hfuel; omega⟩
    cases cur with
    | Qnil => exact absurd hchain (by simp [ScopeChain])
    | ref s =>
      simp only [ScopeChain] at hchain
      obtain ⟨hsp, hrest⟩ := hchain
      subst hsp
      have hmod := hmods s (List.mem_cons_self s rest)
      obtain ⟨hok, hcount⟩ := ih _ k hrest
        (fun q hq => hmods q (List.mem_cons_of_mem s hq)) (by simp at hfuel; omega)
      simp only [lexical_walk_counted]
      split
      · exact ⟨⟨none, rfl⟩, Nat.zero_le _⟩
      · split
        · next hnil => exact absurd hnil hmod
        · split
          · exact ⟨⟨_, rfl⟩, by simp⟩
          · exact ⟨hok, by simp; omega⟩

/-- On a finite superclass chain the superclass loop ends without a fault after at
most one table query per module. -/
theorem superclass_walk_counted_bound (state : VM) (name : Symbol) :
    ∀ (sup : List Nat) (mod : Oop) (fuel : Nat),
      SuperclassChain state mod sup → sup.length ≤ fuel →
      (∃ r, (superclass_walk_counted state name fuel mod).1 = Except.ok r)
      ∧ (superclass_walk_counted state name fuel mod).2 ≤ sup.length := by
  intro sup
  induction sup with
  | nil =>
    intro mod fuel hchain _
    cases mod with
    | Qnil => cases fuel <;> exact ⟨⟨none, rfl⟩, Nat.le_refl 0⟩
    | ref m => exact absurd hchain (by simp [SuperclassChain])
  | cons p rest ih =>
    intro mod fuel hchain hfuel
    obtain ⟨k, rfl⟩ : ∃ k, fuel = k + 1 := ⟨fuel - 1, by simp at hfuel; omega⟩
    cases mod with
    | Qnil => exact absurd hchain (by simp [SuperclassChain])
    | ref m =>
      simp only [SuperclassChain] at hchain
      obtain ⟨hmp, hrest⟩ := hchain
      subst hmp
      obtain ⟨hok, hcount⟩ := ih _ k hrest (by simp at hfuel; omega)
      simp only [superclass_walk_counted]
      split
      · exact ⟨⟨_, rfl⟩, by simp⟩
      · exact ⟨hok, by simp; omega⟩

/-- On a finite superclass chain const_get on a module ends without a fault after
at most one table query per module. -/
theorem const_get_module_counted_bound (state : VM) (name : Symbol) :
    ∀ (sup : List Nat) (mod : Oop) (fuel : Nat),
      SuperclassChain state mod sup → sup.length ≤ fuel →
      (∃ r, (const_get_module_counted state name fuel mod).1 = Except.ok r)
      ∧ (const_get_module_counted state name fuel mod).2 ≤ sup.length := by
  intro sup
  induction sup with
  | nil =>
    intro mod fuel hchain _
    cases mod with
    | Qnil => cases fuel <;> exact ⟨⟨_, rfl⟩, Nat.le_refl 0⟩
    | ref m => exact absurd hchain (by simp [SuperclassChain])
  | cons p rest ih =>
    intro mod fuel hchain hfuel
    obtain ⟨k, rfl⟩ : ∃ k, fuel = k + 1 := ⟨fuel - 1, by simp at hfuel; omega⟩
    cases mod with
    | Qnil => exact absurd hchain (by simp [SuperclassChain])
    | ref m =>
      simp only [SuperclassChain] at hchain
      obtain ⟨hmp, hrest⟩ := hchain
      subst hmp
      obtain ⟨hok, hcount⟩ := ih _ k hrest (by simp at hfuel; omega)
      simp only [const_get_module_counted]
      split
      · exact ⟨⟨_, rfl⟩, by simp⟩
      · split
        · exact ⟨⟨_, rfl⟩, by simp⟩
        · exact ⟨hok, by simp; omega⟩

/-- C28: constant lookup terminates and never dereferences nil under the
structural preconditions.  The frame has a scope, the parent chain `chain` of
that scope is finite, ends in nil and every scope on it has a module, and the
superclass chains `sup` of the innermost module and `msup` of the module `mod`
are finite and end in nil.  Then, with fuel for the longest chain,
const_get_association ends with an answer (no fault, fuel not exhausted) after at
most `chain.length + sup.length + 1` table queries, and const_get on `mod` ends
with an answer after at most `msup.length` table queries; the counted runs give
the answers of the plain functions.  Both lookups only read the state. -/
theorem const_lookup_terminates (fuel : Nat) (state : VM) (call_frame : CallFrame)
    (name : Symbol) (s₀ mod : Nat) (chain sup msup : List Nat)
    (hscope : (state.compiledmethod call_frame.cm).scope = Oop.ref s₀)
    (hchain : ScopeChain state (Oop.ref s₀) chain)
    (hmods : ∀ s ∈ chain, (state.staticscope s).module ≠ Oop.Qnil)
    (hsup : SuperclassChain state (state.staticscope s₀).module sup)
    (hmsup : SuperclassChain state (Oop.ref mod) msup)
    (hfuel₁ : chain.length ≤ fuel) (hfuel₂ : sup.length ≤ fuel) (hfuel₃ : msup.length ≤ fuel) :
    (∃ r, const_get_association fuel state call_frame name = Except.ok r)
    ∧ (const_get_association_counted fuel state call_frame name).1
        = const_get_association fuel state call_frame name
    ∧ (const_get_association_counted fuel state call_frame name).2
        ≤ chain.length + sup.length + 1
    ∧ (∃ r, const_get_module state name fuel (Oop.ref mod) = Except.ok r)
    ∧ (const_get_module_counted state name fuel (Oop.ref mod)).1
        = const_get_module state name fuel (Oop.ref mod)
    ∧ (const_get_module_counted state name fuel (Oop.ref mod)).2 ≤ msup.length := by
  obtain ⟨⟨rl, hl⟩, hln⟩ := lexical_walk_counted_bound state name chain (Oop.ref s₀) fuel
    hchain hmods hfuel₁
  obtain ⟨⟨rs, hs⟩, hsn⟩ := superclass_walk_counted_bound state name sup
    (state.staticscope s₀).module fuel hsup hfuel₂
  obtain ⟨⟨rm, hm⟩, hmn⟩ := const_get_module_counted_bound state name msup (Oop.ref mod) fuel
    hmsup hfuel₃
  have hcounted : (∃ r, (const_get_association_counted fuel state call_frame name).1
        = Except.ok r)
      ∧ (const_get_association_counted fuel state call_frame name).2
        ≤ chain.length + sup.length + 1 := by
    unfold const_get_association_counted
    rw [hscope]
    rcases hlw : lexical_walk_counted state name fuel (Oop.ref s₀) with ⟨r, n⟩
    rw [hlw] at hl hln
    simp only at hl hln
    subst hl
    cases rl with
    | some result => exact ⟨⟨_, rfl⟩, by simp only; omega⟩
    | none =>
      simp only []
      rcases hsw : superclass_walk_counted state name fuel (state.staticscope s₀).module
        with ⟨r₂, k⟩
      rw [hsw] at hs hsn
      simp only at hs hsn
      subst hs
      cases rs with
      | some result => exact ⟨⟨_, rfl⟩, by simp only; omega⟩
      | none =>
        simp only []
        split
        · exact ⟨⟨_, rfl⟩, by simp only; omega⟩
        · exact ⟨⟨_, rfl⟩, by simp only; omega⟩
  rw [const_get_association_counted_fst] at hcounted
  rw [const_get_module_counted_fst] at hm
  exact ⟨hcounted.1, const_get_association_counted_fst fuel state call_frame name,
    hcounted.2, ⟨rm, hm⟩, const_get_module_counted_fst state name fuel (Oop.ref mod), hmn⟩

/-- Witness for C28: in the zoo heap the parent chain of the frame is 0, 1, 2, the
superclass chain of Dog is 3, 2, 1; looking W up performs 6 table queries, at
most 3 + 3 + 1. -/
theorem const_lookup_terminates_witness :
    (const_get_association_counted 5 zoo (CallFrame.mk 0) 3).2 ≤ 3 + 3 + 1 :=
  (const_lookup_terminates 5 zoo (CallFrame.mk 0) 3 0 3 [0, 1, 2] [3, 2, 1] [3, 2, 1] rfl
    ⟨rfl, rfl, rfl, trivial⟩ (by simp [zoo]) ⟨rfl, rfl, rfl, trivial⟩
    ⟨rfl, rfl, rfl, trivial⟩ (by decide) (by decide) (by decide)).2.2.1

/-- C21: locate_method_on reports absence as a value and unwraps visibility.  The
resolver is started on a message whose lookup_from is the lookup_begin class of
the receiver and whose priv flag is set exactly when the argument priv is the
immediate true.  When the resolver fails the result is nil; when it succeeds
the result is a tuple of two fields, the second the module the resolver
resolved, the first the method slot of the wrapper when the resolved entry is
a MethodVisibility and the resolved entry itself otherwise. -/
theorem locate_method_on_reports (lookup_begin : VM → Oop → Oop)
    (resolve : VM → Message → Bool × Message) (state : VM) (recv : Oop) (name : Symbol)
    (priv : Value) :
    (locate_message lookup_begin state recv name priv).recv = recv
    ∧ (locate_message lookup_begin state recv name priv).name = name
    ∧ (locate_message lookup_begin state recv name priv).lookup_from = lookup_begin state recv
    ∧ ((locate_message lookup_begin state recv name priv).priv = true ↔ priv = Value.Qtrue)
    ∧ ((resolve state (locate_message lookup_begin state recv name priv)).1 = false →
        locate_method_on lookup_begin resolve state recv name priv = Located.nil)
    ∧ (∀ msg wrapped,
        resolve state (locate_message lookup_begin state recv name priv) = (true, msg) →
        try_as_MethodVisibility state msg.method = some wrapped →
        locate_method_on lookup_begin resolve state recv name priv
          = Located.tuple [wrapped, msg.module])
    ∧ (∀ msg,
        resolve state (locate_message lookup_begin state recv name priv) = (true, msg) →
        try_as_MethodVisibility state msg.method = none →
        locate_method_on lookup_begin resolve state recv name priv
          = Located.tuple [msg.method, msg.module]) := by
  refine ⟨rfl, rfl, rfl, by simp [locate_message], ?_, ?_, ?_⟩
  · intro h
    unfold locate_method_on
    rcases hr : resolve state (locate_message lookup_begin state recv name priv) with ⟨b, m⟩
    rw [hr] at h
    simp only at h
    subst h
    rfl
  · intro msg wrapped hr hw
    simp only [locate_method_on, hr, hw]
  · intro msg hr hw
    simp only [locate_method_on, hr, hw]

/-- Witness for C21: the resolver finds the wrapper 70 in module 2 for the name 5,
and the tuple holds the wrapped method 71 and module 2; for the name 6 the
resolver fails and the result is nil. -/
theorem locate_method_on_reports_witness :
    locate_method_on (fun _ _ => Oop.ref 3) resolve_five wrapped_heap (Oop.ref 9) 5 Value.Qtrue
        = Located.tuple [Oop.ref 71, Oop.ref 2]
    ∧ locate_method_on (fun _ _ => Oop.ref 3) resolve_five wrapped_heap (Oop.ref 9) 6
        Value.Qtrue = Located.nil :=
  ⟨(locate_method_on_reports (fun _ _ => Oop.ref 3) resolve_five wrapped_heap (Oop.ref 9) 5
      Value.Qtrue).2.2.2.2.2.1 _ (Oop.ref 71) rfl rfl,
   (locate_method_on_reports (fun _ _ => Oop.ref 3) resolve_five wrapped_heap (Oop.ref 9) 6
      Value.Qtrue).2.2.2.2.1 rfl⟩

end Helpers

/-! ## Variable scopes -/

@[simp] theorem write_variable_scope_same (state : VM) (a : Nat) (vs : VariableScope) :
    (state.write_variable_scope a vs).variable_scope a = vs := by
  simp [VM.write_variable_scope]

theorem write_variable_scope_other (state : VM) (a b : Nat) (vs : VariableScope) (h : b ≠ a) :
    (state.write_variable_scope a vs).variable_scope b = state.variable_scope b := by
  simp [VM.write_variable_scope, Function.update_noteq h]

@[simp] theorem write_variable_scope_om_next (state : VM) (a : Nat) (vs : VariableScope) :
    (state.write_variable_scope a vs).om_next = state.om_next := rfl

/-- The copy loop of promote changes nothing but local slots of the target: slot
`i` below the bound holds local `i` of the source, the other slots and all other
fields and scopes are what they were. -/
theorem promote_locals_spec (this scope : Nat) :
    ∀ (n : Nat) (state : VM),
      (∀ b, b ≠ scope →
        (VariableScope.promote_locals this scope n state).variable_scope b
          = state.variable_scope b)
      ∧ (VariableScope.promote_locals this scope n state).variable_scope scope
          = { state.variable_scope scope with
              locals := fun i =>
                if i < n then (state.variable_scope this).locals i
                else (state.variable_scope scope).locals i }
      ∧ (VariableScope.promote_locals this scope n state).om_next = state.om_next := by
  intro n
  induction n with
  | zero =>
    intro state
    exact ⟨fun _ _ => rfl, by simp [VariableScope.promote_locals], rfl⟩
  | succ n ih =>
    intro state
    obtain ⟨h₁, h₂, h₃⟩ := ih state
    refine ⟨?_, ?_, ?_⟩
    · intro b hb
      simp only [VariableScope.promote_locals, VariableScope.set_local]
      rw [write_variable_scope_other _ _ _ _ hb]
      exact h₁ b hb
    · simp only [VariableScope.promote_locals, VariableScope.set_local,
        write_variable_scope_same]
      have hsrc : ((VariableScope.promote_locals this scope n state).variable_scope this).locals n
          = (state.variable_scope this).locals n := by
        by_cases ht : this = scope
        · subst ht
          rw [h₂]
          simp
        · rw [h₁ this ht]
      rw [hsrc, h₂]
      congr 1
      funext i
      by_cases hi : i = n
      · subst hi
        simp
      · rw [Function.update_noteq hi]
        have : (i < n + 1) = (i < n) := by
          apply propext
          omega
        simp only [this]
    · simp only [VariableScope.promote_locals, VariableScope.set_local,
        write_variable_scope_om_next]
      exact h₃

theorem promote_result (state : VM) (this : Nat) :
    (VariableScope.promote state this).2 = state.om_next := rfl

theorem promote_eq (state : VM) (this : Nat) :
    VariableScope.promote state this
      = (VariableScope.promote_locals this state.om_next
          ((VariableScope.promote_fields state this).variable_scope this).number_of_locals
          (VariableScope.promote_fields state this), state.om_next) := rfl

/-- Before the copy loop the new scope has the five fields of the source and the
locals the memory held; nothing else in the table of scopes has changed. -/
theorem promote_fields_spec (state : VM) (this : Nat) :
    (VariableScope.promote_fields state this).variable_scope state.om_next
        = { obj_type := object_type.VariableScopeType
            parent := (state.variable_scope this).parent
            self := (state.variable_scope this).self
            module := (state.variable_scope this).module
            block := (state.variable_scope this).block
            number_of_locals := (state.variable_scope this).number_of_locals
            locals := (state.variable_scope state.om_next).locals }
    ∧ (∀ b, b ≠ state.om_next →
        (VariableScope.promote_fields state this).variable_scope b = state.variable_scope b)
    ∧ (VariableScope.promote_fields state this).om_next = state.om_next + 1 := by
  refine ⟨?_, ?_, rfl⟩
  · by_cases ht : this = state.om_next
    · subst ht
      simp [VariableScope.promote_fields, VM.new_struct_VariableScope, VM.write_variable_scope]
    · simp [VariableScope.promote_fields, VM.new_struct_VariableScope, VM.write_variable_scope,
        Function.update_noteq ht]
  · intro b hb
    simp [VariableScope.promote_fields, VM.new_struct_VariableScope, VM.write_variable_scope,
      Function.update_noteq hb]

/-- The new scope after promote: a copy of the fields of the source, with the
locals below the count copied and the slots above left as the memory held
them; nothing else in the table of scopes changes. -/
theorem promote_spec (state : VM) (this : Nat) :
    (VariableScope.promote state this).1.variable_scope state.om_next
        = { obj_type := object_type.VariableScopeType
            parent := (state.variable_scope this).parent
            self := (state.variable_scope this).self
            module := (state.variable_scope this).module
            block := (state.variable_scope this).block
            number_of_locals := (state.variable_scope this).number_of_locals
            locals := fun i =>
              if i < (state.variable_scope this).number_of_locals then
                (state.variable_scope this).locals i
              else (state.variable_scope state.om_next).locals i }
    ∧ (∀ b, b ≠ state.om_next →
        (VariableScope.promote state this).1.variable_scope b = state.variable_scope b)
    ∧ (VariableScope.promote state this).1.om_next = state.om_next + 1 := by
  obtain ⟨hf₁, hf₂, hf₃⟩ := promote_fields_spec state this
  have hcount : ((VariableScope.promote_fields state this).variable_scope this).number_of_locals
      = (state.variable_scope this).number_of_locals := by
    by_cases ht : this = state.om_next
    · have h := hf₁
      rw [← ht] at h
      rw [h]
    · rw [hf₂ this ht]
  have hlocals : ∀ i, ((VariableScope.promote_fields state this).variable_scope this).locals i
      = (state.variable_scope this).locals i := by
    intro i
    by_cases ht : this = state.om_next
    · have h := hf₁
      rw [← ht] at h
      rw [h]
    · rw [hf₂ this ht]
  rw [promote_eq, hcount]
  obtain ⟨hl₁, hl₂, hl₃⟩ := promote_locals_spec this state.om_next
    (state.variable_scope this).number_of_locals (VariableScope.promote_fields state this)
  refine ⟨?_, ?_, ?_⟩
  · show (VariableScope.promote_locals this state.om_next _ _).variable_scope state.om_next = _
    rw [hl₂, hf₁]
    simp only [hlocals]
  · intro b hb
    show (VariableScope.promote_locals this state.om_next _ _).variable_scope b = _
    rw [hl₁ b hb, hf₂ b hb]
  · show (VariableScope.promote_locals this state.om_next _ _).om_next = _
    rw [hl₃, hf₃]

/-- C14: promote returns a faithful copy.  The returned heap scope has the self,
module, block and parent of the source scope and its count of locals, and every
local below that count equals the local of the source. -/
theorem promote_faithful_copy (state : VM) (this : Nat) :
    ((VariableScope.promote state this).1.variable_scope
        (VariableScope.promote state this).2).self = (state.variable_scope this).self
    ∧ ((VariableScope.promote state this).1.variable_scope
        (VariableScope.promote state this).2).module = (state.variable_scope this).module
    ∧ ((VariableScope.promote state this).1.variable_scope
        (VariableScope.promote state this).2).block = (state.variable_scope this).block
    ∧ ((VariableScope.promote state this).1.variable_scope
        (VariableScope.promote state this).2).parent = (state.variable_scope this).parent
    ∧ ((VariableScope.promote state this).1.variable_scope
        (VariableScope.promote state this).2).number_of_locals
          = (state.variable_scope this).number_of_locals
    ∧ (∀ i, i < (state.variable_scope this).number_of_locals →
        VariableScope.get_local (VariableScope.promote state this).1
            (VariableScope.promote state this).2 i
          = VariableScope.get_local state this i) := by
  rw [promote_result, (promote_spec state this).1]
  refine ⟨rfl, rfl, rfl, rfl, rfl, ?_⟩
  intro i hi
  simp only [VariableScope.get_local, (promote_spec state this).1, if_pos hi]

/-- C15 as stated fails: two calls of promote on the scope of the same activation
(scope 5) return the two different heap scopes 300 and 301, and the second
call allocates again. -/
theorem promote_twice_counterexample :
    (VariableScope.promote activation 5).2 = 300
    ∧ (VariableScope.promote (VariableScope.promote activation 5).1 5).2 = 301
    ∧ (VariableScope.promote (VariableScope.promote activation 5).1 5).2
        ≠ (VariableScope.promote activation 5).2
    ∧ (VariableScope.promote activation 5).1.om_next = 301
    ∧ (VariableScope.promote (VariableScope.promote activation 5).1 5).1.om_next = 302 := by
  decide

/-- C15, amended: every call of promote allocates.  The returned scope sits at the
address the object memory hands out, which then moves on, so two calls on the
same existing scope return two different heap scopes; the second is again a
copy of the source, equal to the first in self, module, block, parent, count
and locals below the count. -/
theorem promote_allocates_each_time (state : VM) (this : Nat)
    (hthis : this ≠ state.om_next) :
    (VariableScope.promote state this).2 = state.om_next
    ∧ (VariableScope.promote state this).1.om_next = state.om_next + 1
    ∧ (VariableScope.promote (VariableScope.promote state this).1 this).2 = state.om_next + 1
    ∧ (VariableScope.promote (VariableScope.promote state this).1 this).1.om_next
        = state.om_next + 2
    ∧ (VariableScope.promote (VariableScope.promote state this).1 this).2
        ≠ (VariableScope.promote state this).2
    ∧ ((VariableScope.promote (VariableScope.promote state this).1 this).1.variable_scope
        (state.om_next + 1)).self = (state.variable_scope this).self
    ∧ ((VariableScope.promote (VariableScope.promote state this).1 this).1.variable_scope
        (state.om_next + 1)).module = (state.variable_scope this).module
    ∧ ((VariableScope.promote (VariableScope.promote state this).1 this).1.variable_scope
        (state.om_next + 1)).block = (state.variable_scope this).block
    ∧ ((VariableScope.promote (VariableScope.promote state this).1 this).1.variable_scope
        (state.om_next + 1)).parent = (state.variable_scope this).parent
    ∧ ((VariableScope.promote (VariableScope.promote state this).1 this).1.variable_scope
        (state.om_next + 1)).number_of_locals = (state.variable_scope this).number_of_locals
    ∧ (∀ i, i < (state.variable_scope this).number_of_locals →
        ((VariableScope.promote (VariableScope.promote state this).1 this).1.variable_scope
          (state.om_next + 1)).locals i = (state.variable_scope this).locals i) := by
  obtain ⟨_, h₂, h₃⟩ := promote_spec state this
  have hsrc : (VariableScope.promote state this).1.variable_scope this
      = state.variable_scope this := h₂ this hthis
  obtain ⟨k₁, _, k₃⟩ := promote_spec (VariableScope.promote state this).1 this
  rw [h₃] at k₁ k₃
  rw [hsrc] at k₁
  refine ⟨rfl, h₃, ?_, k₃, ?_, ?_, ?_, ?_, ?_, ?_, ?_⟩
  · rw [promote_result, h₃]
  · rw [promote_result, promote_result, h₃]
    omega
  · rw [k₁]
  · rw [k₁]
  · rw [k₁]
  · rw [k₁]
  · rw [k₁]
  · intro i hi
    rw [k₁]
    simp only [if_pos hi]

/-- Witness for C15: scope 5 of the activation heap exists before address 300 is
handed out; promoting it twice gives the scopes 300 and 301. -/
theorem promote_allocates_each_time_witness :
    (VariableScope.promote (VariableScope.promote activation 5).1 5).2
      ≠ (VariableScope.promote activation 5).2 :=
  (promote_allocates_each_time activation 5 (by decide)).2.2.2.2.1

/-- C16 as stated fails: after scope 5 is promoted to the heap scope 300, writing
object 99 to local 1 through the promoted scope is not seen by a read of local
1 through scope 5, which still holds object 32. -/
theorem promote_shares_counterexample :
    (VariableScope.promote activation 5).2 = 300
    ∧ VariableScope.get_local activation 5 1 = Oop.ref 32
    ∧ VariableScope.get_local
        (VariableScope.set_local (VariableScope.promote activation 5).1 300 1 (Oop.ref 99))
        300 1 = Oop.ref 99
    ∧ VariableScope.get_local
        (VariableScope.set_local (VariableScope.promote activation 5).1 300 1 (Oop.ref 99))
        5 1 = Oop.ref 32 := by
  decide

/-- C16, amended: promotion forks the locals.  promote writes only the new heap
scope and leaves the source scope as it was; a later write to local `x` through
the promoted scope is read back through the promoted scope, while a read of
local `x` through the source scope still yields the value from before. -/
theorem promote_forks_locals (state : VM) (this x : Nat) (v : Oop)
    (hthis : this ≠ state.om_next) :
    (VariableScope.promote state this).1.variable_scope this = state.variable_scope this
    ∧ VariableScope.get_local
        (VariableScope.set_local (VariableScope.promote state this).1
          (VariableScope.promote state this).2 x v)
        (VariableScope.promote state this).2 x = v
    ∧ VariableScope.get_local
        (VariableScope.set_local (VariableScope.promote state this).1
          (VariableScope.promote state this).2 x v)
        this x = VariableScope.get_local state this x := by
  have hsrc := (promote_spec state this).2.1 this hthis
  refine ⟨hsrc, ?_, ?_⟩
  · simp [VariableScope.get_local, VariableScope.set_local]
  · rw [promote_result]
    simp only [VariableScope.get_local, VariableScope.set_local]
    rw [write_variable_scope_other _ _ _ _ hthis, hsrc]

/-- Witness for C16: in the activation heap, local 1 of scope 5 still reads object
32 after object 99 is written to local 1 of the promoted scope. -/
theorem promote_forks_locals_witness :
    VariableScope.get_local
        (VariableScope.set_local (VariableScope.promote activation 5).1
          (VariableScope.promote activation 5).2 1 (Oop.ref 99))
        5 1 = VariableScope.get_local activation 5 1 :=
  (promote_forks_locals activation 5 1 (Oop.ref 99) (by decide)).2.2

theorem setup_as_block_eq (state : VM) (this top : Nat) (parent : Oop) (num : Nat) :
    VariableScope.setup_as_block state this top parent num
      = VariableScope.setup_as_block_locals this num
          (VariableScope.setup_as_block_fields state this top parent num) := rfl

/-- The clearing loop of setup_as_block sets the local slots below the bound to nil
and changes nothing else. -/
theorem setup_as_block_locals_spec (this : Nat) :
    ∀ (n : Nat) (state : VM),
      (∀ b, b ≠ this →
        (VariableScope.setup_as_block_locals this n state).variable_scope b
          = state.variable_scope b)
      ∧ (VariableScope.setup_as_block_locals this n state).variable_scope this
          = { state.variable_scope this with
              locals := fun i =>
                if i < n then Oop.Qnil else (state.variable_scope this).locals i } := by
  intro n
  induction n with
  | zero =>
    intro state
    exact ⟨fun _ _ => rfl, by simp [VariableScope.setup_as_block_locals]⟩
  | succ n ih =>
    intro state
    obtain ⟨h₁, h₂⟩ := ih state
    refine ⟨?_, ?_⟩
    · intro b hb
      simp only [VariableScope.setup_as_block_locals]
      rw [write_variable_scope_other _ _ _ _ hb]
      exact h₁ b hb
    · simp only [VariableScope.setup_as_block_locals, write_variable_scope_same]
      rw [h₂]
      congr 1
      funext i
      by_cases hi : i = n
      · subst hi
        simp
      · rw [Function.update_noteq hi]
        have : (i < n + 1) = (i < n) := by
          apply propext
          omega
        simp only [this]

/-- Before the clearing loop the scope has the parent given, the self, module and
block of `top`, and the count given; its locals are untouched. -/
theorem setup_as_block_fields_spec (state : VM) (this top : Nat) (parent : Oop) (num : Nat) :
    (VariableScope.setup_as_block_fields state this top parent num).variable_scope this
      = { obj_type := object_type.InvalidType
          parent := parent
          self := (state.variable_scope top).self
          module := (state.variable_scope top).module
          block := (state.variable_scope top).block
          number_of_locals := num
          locals := (state.variable_scope this).locals } := by
  by_cases ht : top = this
  · subst ht
    simp [VariableScope.setup_as_block_fields, VM.write_variable_scope]
  · simp [VariableScope.setup_as_block_fields, VM.write_variable_scope,
      Function.update_noteq ht]

/-- C17: setup_as_block keeps the two relations distinct.  Afterwards the self,
module and block of the scope are those of `top`, its parent is `parent`, its
count of locals is `num`, and every local slot below `num` is nil. -/
theorem setup_as_block_postcondition (state : VM) (this top : Nat) (parent : Oop)
    (num : Nat) :
    ((VariableScope.setup_as_block state this top parent num).variable_scope this).self
        = (state.variable_scope top).self
    ∧ ((VariableScope.setup_as_block state this top parent num).variable_scope this).module
        = (state.variable_scope top).module
    ∧ ((VariableScope.setup_as_block state this top parent num).variable_scope this).block
        = (state.variable_scope top).block
    ∧ ((VariableScope.setup_as_block state this top parent num).variable_scope this).parent
        = parent
    ∧ ((VariableScope.setup_as_block state this top parent num).variable_scope
        this).number_of_locals = num
    ∧ (∀ i, i < num →
        VariableScope.get_local (VariableScope.setup_as_block state this top parent num) this i
          = Oop.Qnil) := by
  rw [setup_as_block_eq, (setup_as_block_locals_spec this num _).2,
    setup_as_block_fields_spec]
  refine ⟨rfl, rfl, rfl, rfl, rfl, ?_⟩
  intro i hi
  simp only [VariableScope.get_local, setup_as_block_eq,
    (setup_as_block_locals_spec this num _).2, if_pos hi]

/-- The loop of mark passes the locals below the bound to the callback, in index
order, stores each relocated reference in place and changes nothing else. -/
theorem mark_locals_spec (call : Oop → Option Oop) (vs : Nat) :
    ∀ (n : Nat) (acc : VM × List Oop),
      (∀ b, b ≠ vs →
        (VariableScope.Info.mark_locals call vs n acc).1.variable_scope b
          = acc.1.variable_scope b)
      ∧ (VariableScope.Info.mark_locals call vs n acc).1.variable_scope vs
          = { acc.1.variable_scope vs with
              locals := fun i =>
                if i < n then relocated call ((acc.1.variable_scope vs).locals i)
                else (acc.1.variable_scope vs).locals i }
      ∧ (VariableScope.Info.mark_locals call vs n acc).2
          = acc.2 ++ (List.range n).map (fun i => (acc.1.variable_scope vs).locals i) := by
  intro n
  induction n with
  | zero =>
    intro acc
    exact ⟨fun _ _ => rfl, by simp [VariableScope.Info.mark_locals],
      by simp [VariableScope.Info.mark_locals]⟩
  | succ n ih =>
    intro acc
    obtain ⟨h₁, h₂, h₃⟩ := ih acc
    have harg : VariableScope.get_local (VariableScope.Info.mark_locals call vs n acc).1 vs n
        = (acc.1.variable_scope vs).locals n := by
      simp [VariableScope.get_local, h₂]
    simp only [VariableScope.Info.mark_locals]
    rw [harg]
    cases hc : call ((acc.1.variable_scope vs).locals n) with
    | none =>
      have hfun : (fun i => if i < n then relocated call ((acc.1.variable_scope vs).locals i)
            else (acc.1.variable_scope vs).locals i)
          = (fun i => if i < n + 1 then relocated call ((acc.1.variable_scope vs).locals i)
            else (acc.1.variable_scope vs).locals i) := by
        funext i
        by_cases hi : i = n
        · subst hi
          simp [relocated, hc]
        · have : (i < n + 1) = (i < n) := by
            apply propext
            omega
          simp only [this]
      refine ⟨h₁, ?_, ?_⟩
      · show (VariableScope.Info.mark_locals call vs n acc).1.variable_scope vs = _
        rw [h₂, hfun]
      · show (VariableScope.Info.mark_locals call vs n acc).2 ++ _ = _
        rw [h₃, List.range_succ, List.map_append, List.append_assoc]
        rfl
    | some tmp =>
      have hfun : Function.update
            (fun i => if i < n then relocated call ((acc.1.variable_scope vs).locals i)
              else (acc.1.variable_scope vs).locals i) n tmp
          = (fun i => if i < n + 1 then relocated call ((acc.1.variable_scope vs).locals i)
            else (acc.1.variable_scope vs).locals i) := by
        funext i
        by_cases hi : i = n
        · subst hi
          simp [relocated, hc]
        · have : (i < n + 1) = (i < n) := by
            apply propext
            omega
          simp only [Function.update_noteq hi, this]
      refine ⟨?_, ?_, ?_⟩
      · intro b hb
        show (VariableScope.set_local _ vs n tmp).variable_scope b = _
        simp only [VariableScope.set_local]
        rw [write_variable_scope_other _ _ _ _ hb]
        exact h₁ b hb
      · show (VariableScope.set_local _ vs n tmp).variable_scope vs = _
        simp only [VariableScope.set_local, write_variable_scope_same]
        rw [h₂]
        simp only [hfun]
      · show (VariableScope.Info.mark_locals call vs n acc).2 ++ _ = _
        rw [h₃, List.range_succ, List.map_append, List.append_assoc]
        rfl

/-- C18: mark visits every local slot and accepts relocations in place.  After the
four calls of auto_mark, the mark callback is called once per local slot, for
the locals 0 to n-1 in index order; afterwards local `i` below n is the answer
of the callback when that is not NULL and the original value otherwise, and
the count of locals is unchanged. -/
theorem mark_visits_locals (call : Oop → Option Oop) (state : VM) (obj : Nat) :
    (VariableScope.Info.mark call state obj).2
        = [(state.variable_scope obj).parent, (state.variable_scope obj).self,
            (state.variable_scope obj).module, (state.variable_scope obj).block]
          ++ (List.range (state.variable_scope obj).number_of_locals).map
              (fun i => VariableScope.get_local state obj i)
    ∧ (∀ i, i < (state.variable_scope obj).number_of_locals →
        (∀ r, call (VariableScope.get_local state obj i) = some r →
          VariableScope.get_local (VariableScope.Info.mark call state obj).1 obj i = r)
        ∧ (call (VariableScope.get_local state obj i) = none →
          VariableScope.get_local (VariableScope.Info.mark call state obj).1 obj i
            = VariableScope.get_local state obj i))
    ∧ ((VariableScope.Info.mark call state obj).1.variable_scope obj).number_of_locals
        = (state.variable_scope obj).number_of_locals := by
  have hauto : (VariableScope.Info.auto_mark call state obj).1.variable_scope obj
      = { state.variable_scope obj with
          parent := relocated call (state.variable_scope obj).parent
          self := relocated call (state.variable_scope obj).self
          module := relocated call (state.variable_scope obj).module
          block := relocated call (state.variable_scope obj).block } := by
    simp [VariableScope.Info.auto_mark]
  obtain ⟨_, h₂, h₃⟩ := mark_locals_spec call obj
    ((VariableScope.Info.auto_mark call state obj).1.variable_scope obj).number_of_locals
    (VariableScope.Info.auto_mark call state obj)
  have hmark : VariableScope.Info.mark call state obj
      = VariableScope.Info.mark_locals call obj
          ((VariableScope.Info.auto_mark call state obj).1.variable_scope obj).number_of_locals
          (VariableScope.Info.auto_mark call state obj) := rfl
  rw [hmark]
  rw [hauto] at h₂ h₃
  rw [hauto]
  refine ⟨?_, ?_, ?_⟩
  · rw [h₃]
    rfl
  · intro i hi
    simp only [VariableScope.get_local]
    rw [h₂]
    simp only [if_pos hi]
    constructor
    · intro r hr
      simp [relocated, hr]
    · intro hn
      simp [relocated, hn]
  · rw [h₂]

/-- Witness for C18: marking scope 5 of the activation heap with a callback that
relocates object 32 calls it on the four references and then on the locals 31,
32, 33 in this order, and local 1 becomes the relocated object 132. -/
theorem mark_visits_locals_witness :
    (VariableScope.Info.mark relocate_one activation 5).2
        = [Oop.Qnil, Oop.ref 20, Oop.ref 21, Oop.ref 22, Oop.ref 31, Oop.ref 32, Oop.ref 33]
    ∧ VariableScope.get_local (VariableScope.Info.mark relocate_one activation 5).1 5 1
        = Oop.ref 132 :=
  ⟨(mark_visits_locals relocate_one activation 5).1,
   ((mark_visits_locals relocate_one activation 5).2.1 1 (by decide)).1 (Oop.ref 132) rfl⟩

/-! ## Object headers -/

/-- The header of the destination after initialize_copy, also when destination and
source are the same object; no other header changes. -/
theorem initialize_copy_spec (age_bits : Nat) (state : VM) (this other new_age : Nat) :
    (ObjectHeader.initialize_copy age_bits state this other new_age).header this
        = { state.header this with
            obj_type := (state.header other).obj_type
            age := new_age % 2 ^ age_bits
            bytes := (state.header other).bytes
            klass := (state.header other).klass
            ivars := (state.header other).ivars
            Forwarded := false
            ForeverYoung := (state.header other).ForeverYoung
            StoresBytes := (state.header other).StoresBytes
            RequiresCleanup := (state.header other).RequiresCleanup
            IsBlockContext := (state.header other).IsBlockContext
            IsMeta := (state.header other).IsMeta
            IsTainted := (state.header other).IsTainted
            IsFrozen := false
            RefsAreWeak := (state.header other).RefsAreWeak }
    ∧ (∀ b, b ≠ this →
        (ObjectHeader.initialize_copy age_bits state this other new_age).header b
          = state.header b) := by
  constructor
  · by_cases h : other = this
    · subst h
      simp [ObjectHeader.initialize_copy, VM.write_header]
    · simp [ObjectHeader.initialize_copy, VM.write_header, Function.update_noteq h]
  · intro b hb
    simp [ObjectHeader.initialize_copy, VM.write_header, Function.update_noteq hb]

/-- C19: the frozen flag is excluded from automatic copy.  After initialize_copy the
IsFrozen flag of the destination is false, whatever the source and the new age
are. -/
theorem initialize_copy_not_frozen (age_bits : Nat) (state : VM) (this other new_age : Nat) :
    ((ObjectHeader.initialize_copy age_bits state this other new_age).header this).IsFrozen
      = false := by
  rw [(initialize_copy_spec age_bits state this other new_age).1]

/-- C20 as stated fails: header 8 of the activation heap is not tainted; copying
the tainted header 7 into it leaves it tainted, copying the untainted header 9
into it leaves it untainted, so the flag of the copy depends on the flag of
the source. -/
theorem initialize_copy_tainted_counterexample :
    (activation.header 7).IsTainted = true
    ∧ (activation.header 8).IsTainted = false
    ∧ (activation.header 9).IsTainted = false
    ∧ ((ObjectHeader.initialize_copy 4 activation 8 7 0).header 8).IsTainted = true
    ∧ ((ObjectHeader.initialize_copy 4 activation 8 9 0).header 8).IsTainted = false := by
  decide

/-- C20, amended: the tainted flag is part of the automatic copy.  After
initialize_copy the IsTainted flag of the destination equals the IsTainted
flag of the source: a tainted source gives a tainted copy. -/
theorem initialize_copy_copies_tainted (age_bits : Nat) (state : VM)
    (this other new_age : Nat) :
    ((ObjectHeader.initialize_copy age_bits state this other new_age).header this).IsTainted
      = (state.header other).IsTainted := by
  rw [(initialize_copy_spec age_bits state this other new_age).1]

/-! ## Marshalling -/

theorem string_foldl_append (l : List String) :
    ∀ a : String, l.foldl (fun r s => r ++ s) a = a ++ l.foldl (fun r s => r ++ s) "" := by
  induction l with
  | nil => intro a; simp
  | cons x rest ih =>
    intro a
    simp only [List.foldl_cons]
    rw [ih (a ++ x), ih ("" ++ x), String.empty_append, String.append_assoc]

/-- What the elements emit one after the other is the concatenation of what
marshal emits for each element, in index order. -/
theorem marshal_each_eq_join (elements : List MarshalObject) :
    Marshaller.marshal_each elements = String.join (elements.map Marshaller.marshal) := by
  induction elements with
  | nil => simp [Marshaller.marshal_each, String.join]
  | cons x rest ih =>
    rw [Marshaller.marshal_each, ih]
    simp only [String.join, List.map_cons, List.foldl_cons]
    rw [string_foldl_append _ ("" ++ Marshaller.marshal x), String.empty_append]

/-- C22: marshalling an array is compositional.  For every array, marshal emits
the tag line A, the decimal element count on a line of its own, and then the
concatenation, in index order, of what marshal emits for each element; the
integer 1 emits the tag line I and the line 1, as a Fixnum and as a Bignum.
The arrays of test_array and test_array_with_inner_array emit the strings the
tests expect. -/
theorem marshal_array_compositional (elements : List MarshalObject) :
    Marshaller.marshal (MarshalObject.array elements)
        = "A\n" ++ toString elements.length ++ "\n"
          ++ String.join (elements.map Marshaller.marshal)
    ∧ Marshaller.marshal (MarshalObject.fixnum 1) = "I\n1\n"
    ∧ Marshaller.marshal (MarshalObject.bignum 1) = "I\n1\n"
    ∧ Marshaller.marshal test_array_value = "A\n3\nI\n1\nI\n2\nI\n3\n"
    ∧ Marshaller.marshal test_inner_array_value = "A\n2\nA\n3\nI\n1\nI\n2\nI\n3\nI\n4\n" := by
  refine ⟨?_, by decide, by decide, by decide, by decide⟩
  rw [Marshaller.marshal, marshal_each_eq_join]

/-! ## Body fields -/

@[simp] theorem write_body_same (state : VM) (this i : Nat) (v : Option Oop) :
    (state.write_body this i v).body this i = v := by
  simp [VM.write_body]

theorem write_body_other_field (state : VM) (this i j : Nat) (v : Option Oop) (h : j ≠ i) :
    (state.write_body this i v).body this j = state.body this j := by
  simp [VM.write_body, Function.update_noteq h]

theorem write_body_other_object (state : VM) (this b i : Nat) (v : Option Oop) (h : b ≠ this) :
    (state.write_body this i v).body b = state.body b := by
  simp [VM.write_body, Function.update_noteq h]

@[simp] theorem write_body_header (state : VM) (this i : Nat) (v : Option Oop) :
    (state.write_body this i v).header = state.header := rfl

/-- The loop of copy_body copies the fields below the bound and changes nothing
else, also when source and destination are the same object. -/
theorem copy_body_fields_spec (this other : Nat) :
    ∀ (n : Nat) (state : VM),
      (ObjectHeader.copy_body_fields this other n state).header = state.header
      ∧ (∀ b, b ≠ this →
          (ObjectHeader.copy_body_fields this other n state).body b = state.body b)
      ∧ (∀ i, (ObjectHeader.copy_body_fields this other n state).body this i
          = if i < n then state.body other i else state.body this i) := by
  intro n
  induction n with
  | zero => intro state; exact ⟨rfl, fun _ _ => rfl, fun i => by simp [ObjectHeader.copy_body_fields]⟩
  | succ n ih =>
    intro state
    obtain ⟨h₁, h₂, h₃⟩ := ih state
    refine ⟨?_, ?_, ?_⟩
    · simp only [ObjectHeader.copy_body_fields, write_body_header]
      exact h₁
    · intro b hb
      simp only [ObjectHeader.copy_body_fields]
      rw [write_body_other_object _ _ _ _ _ hb]
      exact h₂ b hb
    · intro i
      have hsrc : (ObjectHeader.copy_body_fields this other n state).body other n
          = state.body other n := by
        by_cases ho : other = this
        · subst ho
          rw [h₃ n]
          simp
        · rw [h₂ other ho]
      simp only [ObjectHeader.copy_body_fields]
      by_cases hi : i = n
      · subst hi
        simp [hsrc]
      · rw [write_body_other_field _ _ _ _ _ hi, h₃ i]
        have : (i < n + 1) = (i < n) := by
          apply propext
          omega
        simp only [this]

/-- The filling loop sets the fields below the bound to the value and changes
nothing else. -/
theorem fill_body_fields_spec (this : Nat) (v : Option Oop) :
    ∀ (n : Nat) (state : VM),
      (ObjectHeader.fill_body_fields this v n state).header = state.header
      ∧ (∀ b, b ≠ this →
          (ObjectHeader.fill_body_fields this v n state).body b = state.body b)
      ∧ (∀ i, (ObjectHeader.fill_body_fields this v n state).body this i
          = if i < n then v else state.body this i) := by
  intro n
  induction n with
  | zero => intro state; exact ⟨rfl, fun _ _ => rfl, fun i => by simp [ObjectHeader.fill_body_fields]⟩
  | succ n ih =>
    intro state
    obtain ⟨h₁, h₂, h₃⟩ := ih state
    refine ⟨?_, ?_, ?_⟩
    · simp only [ObjectHeader.fill_body_fields, write_body_header]
      exact h₁
    · intro b hb
      simp only [ObjectHeader.fill_body_fields]
      rw [write_body_other_object _ _ _ _ _ hb]
      exact h₂ b hb
    · intro i
      simp only [ObjectHeader.fill_body_fields]
      by_cases hi : i = n
      · subst hi
        simp
      · rw [write_body_other_field _ _ _ _ _ hi, h₃ i]
        have : (i < n + 1) = (i < n) := by
          apply propext
          omega
        simp only [this]

/-- initialize_copy writes no body field. -/
theorem initialize_copy_body (age_bits : Nat) (state : VM) (this other new_age : Nat) :
    (ObjectHeader.initialize_copy age_bits state this other new_age).body = state.body := by
  simp [ObjectHeader.initialize_copy, VM.write_header]

/-- C29: frames of the header copy and body routines.  For a source object other
than the destination and a new age that fits the age field, initialize_copy
sets age to the new age and Forwarded to 0, copies obj_type, bytes, klass,
ivars and the flags ForeverYoung, StoresBytes, RequiresCleanup, IsBlockContext,
IsMeta and RefsAreWeak from the source, and leaves the source and every body
field as they were (it also copies IsTainted, clears IsFrozen and keeps the
zone).  copy_body, when both objects have equal bytes, makes every body field
below num_fields equal to the field of the source.  clear_fields sets ivars
and every body field to nil; clear_body_to_null sets every body field to 0 and
leaves ivars unchanged. -/
theorem header_and_body_frames (age_bits : Nat) (fields_of_bytes : Nat → Nat) (state : VM)
    (this other new_age : Nat) (hage : new_age < 2 ^ age_bits) (hother : other ≠ this) :
    ((ObjectHeader.initialize_copy age_bits state this other new_age).header this).age
        = new_age
    ∧ ((ObjectHeader.initialize_copy age_bits state this other new_age).header this).Forwarded
        = false
    ∧ ((ObjectHeader.initialize_copy age_bits state this other new_age).header this).obj_type
        = (state.header other).obj_type
    ∧ ((ObjectHeader.initialize_copy age_bits state this other new_age).header this).bytes
        = (state.header other).bytes
    ∧ ((ObjectHeader.initialize_copy age_bits state this other new_age).header this).klass
        = (state.header other).klass
    ∧ ((ObjectHeader.initialize_copy age_bits state this other new_age).header this).ivars
        = (state.header other).ivars
    ∧ ((ObjectHeader.initialize_copy age_bits state this other new_age).header
        this).ForeverYoung = (state.header other).ForeverYoung
    ∧ ((ObjectHeader.initialize_copy age_bits state this other new_age).header
        this).StoresBytes = (state.header other).StoresBytes
    ∧ ((ObjectHeader.initialize_copy age_bits state this other new_age).header
        this).RequiresCleanup = (state.header other).RequiresCleanup
    ∧ ((ObjectHeader.initialize_copy age_bits state this other new_age).header
        this).IsBlockContext = (state.header other).IsBlockContext
    ∧ ((ObjectHeader.initialize_copy age_bits state this other new_age).header this).IsMeta
        = (state.header other).IsMeta
    ∧ ((ObjectHeader.initialize_copy age_bits state this other new_age).header
        this).RefsAreWeak = (state.header other).RefsAreWeak
    ∧ ((ObjectHeader.initialize_copy age_bits state this other new_age).header this).IsTainted
        = (state.header other).IsTainted
    ∧ ((ObjectHeader.initialize_copy age_bits state this other new_age).header this).IsFrozen
        = false
    ∧ ((ObjectHeader.initialize_copy age_bits state this other new_age).header this).zone
        = (state.header this).zone
    ∧ (ObjectHeader.initialize_copy age_bits state this other new_age).header other
        = state.header other
    ∧ (ObjectHeader.initialize_copy age_bits state this other new_age).body = state.body
    ∧ ((state.header this).bytes = (state.header other).bytes →
        ∃ copied, ObjectHeader.copy_body fields_of_bytes state this other = some copied
          ∧ (∀ i, i < ObjectHeader.num_fields fields_of_bytes state this →
              copied.body this i = state.body other i)
          ∧ copied.body other = state.body other
          ∧ copied.header = state.header)
    ∧ ((ObjectHeader.clear_fields fields_of_bytes state this).header this).ivars = Oop.Qnil
    ∧ (∀ i, i < ObjectHeader.num_fields fields_of_bytes state this →
        (ObjectHeader.clear_fields fields_of_bytes state this).body this i = some Oop.Qnil)
    ∧ (∀ i, i < ObjectHeader.num_fields fields_of_bytes state this →
        (ObjectHeader.clear_body_to_null fields_of_bytes state this).body this i = none)
    ∧ ((ObjectHeader.clear_body_to_null fields_of_bytes state this).header this).ivars
        = (state.header this).ivars := by
  obtain ⟨hc₁, hc₂⟩ := initialize_copy_spec age_bits state this other new_age
  refine ⟨by rw [hc₁]; exact Nat.mod_eq_of_lt hage, by rw [hc₁], by rw [hc₁], by rw [hc₁],
    by rw [hc₁], by rw [hc₁], by rw [hc₁], by rw [hc₁], by rw [hc₁], by rw [hc₁], by rw [hc₁],
    by rw [hc₁], by rw [hc₁], by rw [hc₁], by rw [hc₁],
    hc₂ other hother, initialize_copy_body age_bits state this other new_age, ?_, ?_, ?_, ?_,
    ?_⟩
  · intro hbytes
    refine ⟨ObjectHeader.copy_body_fields this other
      (ObjectHeader.num_fields fields_of_bytes state this) state,
      by simp only [ObjectHeader.copy_body, if_pos hbytes], ?_, ?_, ?_⟩
    · intro i hi
      rw [(copy_body_fields_spec this other _ state).2.2 i, if_pos hi]
    · exact (copy_body_fields_spec this other _ state).2.1 other hother
    · exact (copy_body_fields_spec this other _ state).1
  · unfold ObjectHeader.clear_fields
    simp only []
    rw [(fill_body_fields_spec this _ _ _).1]
    simp [VM.write_header]
  · intro i hi
    unfold ObjectHeader.clear_fields
    simp only []
    rw [(fill_body_fields_spec this _ _ _).2.2 i]
    have hn : ObjectHeader.num_fields fields_of_bytes
        (state.write_header this { state.header this with ivars := Oop.Qnil }) this
        = ObjectHeader.num_fields fields_of_bytes state this := by
      simp [ObjectHeader.num_fields, VM.write_header]
    rw [hn, if_pos hi]
  · intro i hi
    unfold ObjectHeader.clear_body_to_null
    rw [(fill_body_fields_spec this _ _ _).2.2 i, if_pos hi]
  · unfold ObjectHeader.clear_body_to_null
    rw [(fill_body_fields_spec this _ _ _).1]

/-- Witness for C29: copying object 7 of the bodies heap into object 8 with new age
3 in a four-bit age field sets the age of the copy to 3. -/
theorem header_and_body_frames_witness :
    ((ObjectHeader.initialize_copy 4 bodies 8 7 3).header 8).age = 3
    ∧ (∃ copied, ObjectHeader.copy_body (fun b => b / 2) bodies 8 7 = some copied
        ∧ (∀ i, i < ObjectHeader.num_fields (fun b => b / 2) bodies 8 →
            copied.body 8 i = bodies.body 7 i)
        ∧ copied.body 7 = bodies.body 7
        ∧ copied.header = bodies.header) :=
  ⟨(header_and_body_frames 4 (fun b => b / 2) bodies 8 7 3 (by decide) (by decide)).1,
   (header_and_body_frames 4 (fun b => b / 2) bodies 8 7 3 (by decide)
      (by decide)).2.2.2.2.2.2.2.2.2.2.2.2.2.2.2.2.2.1 rfl⟩

end rubinius

/-!
## The bundled LLVM passes
-/

namespace llvm


namespace LibCallAliasAnalysis

theorem and_subset (a b : ModRefResult) :
    (ModRefResult.of_int (a.to_int &&& b.to_int)).to_int &&& bit_not a.to_int = 0 := by
  cases a <;> cases b <;> decide

theorem and_not_subset (a b : ModRefResult) :
    (ModRefResult.of_int (a.to_int &&& bit_not b.to_int)).to_int &&& bit_not a.to_int = 0 := by
  cases a <;> cases b <;> decide

theorem self_subset (a : ModRefResult) : a.to_int &&& bit_not a.to_int = 0 := by
  cases a <;> decide

theorem does_not_loop_subset (isLocation : Nat → LocResult) (MRInfo : ModRefResult)
    (Details : List LocationMRInfo) :
    (does_not_loop isLocation MRInfo Details).to_int &&& bit_not MRInfo.to_int = 0 := by
  induction Details with
  | nil => exact self_subset MRInfo
  | cons d rest ih =>
    unfold does_not_loop
    split
    · exact ih
    · exact and_not_subset MRInfo d.MRInfo

theorem does_only_loop_subset (isLocation : Nat → LocResult) (MRInfo : ModRefResult)
    (Details : List LocationMRInfo) (NoneMatch : Bool) :
    (does_only_loop isLocation MRInfo Details NoneMatch).to_int &&& bit_not MRInfo.to_int
      = 0 := by
  induction Details generalizing NoneMatch with
  | nil =>
    unfold does_only_loop
    split
    · cases MRInfo <;> decide
    · exact self_subset MRInfo
  | cons d rest ih =>
    unfold does_only_loop
    split
    · exact ih NoneMatch
    · exact ih false
    · exact and_subset MRInfo d.MRInfo

theorem does_only_loop_all_no (isLocation : Nat → LocResult) (MRInfo : ModRefResult)
    (Details : List LocationMRInfo)
    (h : ∀ d ∈ Details, isLocation d.LocationID = LocResult.No) :
    does_only_loop isLocation MRInfo Details true = ModRefResult.NoModRef := by
  induction Details with
  | nil => simp [does_only_loop]
  | cons d rest ih =>
    have hd := h d (List.mem_cons_self d rest)
    unfold does_only_loop
    rw [hd]
    exact ih (fun e he => h e (List.mem_cons_of_mem d he))

/-- C23: the result of AnalyzeLibCallDetails is a bitwise subset of the universal
behaviour of the function info, whatever the details and whatever the locations
answer; it is NoModRef when the universal behaviour is NoModRef, and, for a
details array of the DoesOnly kind, when every location listed answers No. -/
theorem AnalyzeLibCallDetails_improves (FI : LibCallFunctionInfo)
    (isLocation : Nat → LocResult) :
    (AnalyzeLibCallDetails FI isLocation).to_int &&& bit_not FI.UniversalBehavior.to_int = 0
    ∧ (FI.UniversalBehavior = ModRefResult.NoModRef →
        AnalyzeLibCallDetails FI isLocation = ModRefResult.NoModRef)
    ∧ (∀ Details, FI.UniversalBehavior ≠ ModRefResult.NoModRef →
        FI.LocationDetails = some Details →
        FI.DetailsType = DetailsKind.DoesNot →
        (∀ d ∈ Details, isLocation d.LocationID ≠ LocResult.Yes) →
        AnalyzeLibCallDetails FI isLocation = FI.UniversalBehavior)
    ∧ (∀ Details, FI.DetailsType = DetailsKind.DoesOnly →
        FI.LocationDetails = some Details →
        (∀ d ∈ Details, isLocation d.LocationID = LocResult.No) →
        AnalyzeLibCallDetails FI isLocation = ModRefResult.NoModRef) := by
  refine ⟨?_, ?_, ?_, ?_⟩
  · unfold AnalyzeLibCallDetails
    split
    · exact self_subset _
    · split
      · exact self_subset _
      · split
        · exact does_not_loop_subset _ _ _
        · exact does_only_loop_subset _ _ _ _
  · intro h
    simp [AnalyzeLibCallDetails, h]
  · intro Details hub hd hk hall
    simp only [AnalyzeLibCallDetails, hub, hd, hk, if_false]
    clear hd
    induction Details with
    | nil => rfl
    | cons d rest ih =>
      unfold does_not_loop
      rw [if_pos (hall d (List.mem_cons_self d rest))]
      exact ih (fun e he => hall e (List.mem_cons_of_mem d he))
  · intro Details hk hd hall
    by_cases hub : FI.UniversalBehavior = ModRefResult.NoModRef
    · simp [AnalyzeLibCallDetails, hub]
    · simp only [AnalyzeLibCallDetails, hub, hd, hk, if_false]
      exact does_only_loop_all_no _ _ _ hall

/-- An instance of C23: a function that may read and write, with details of the
DoesOnly kind that list two locations, both of which answer No. -/
theorem AnalyzeLibCallDetails_improves_witness :
    AnalyzeLibCallDetails
      { UniversalBehavior := ModRefResult.ModRef, DetailsType := DetailsKind.DoesOnly,
        LocationDetails := some [⟨0, ModRefResult.Ref⟩, ⟨1, ModRefResult.Mod⟩] }
      (fun _ => LocResult.No) = ModRefResult.NoModRef :=
  (AnalyzeLibCallDetails_improves
    { UniversalBehavior := ModRefResult.ModRef, DetailsType := DetailsKind.DoesOnly,
      LocationDetails := some [⟨0, ModRefResult.Ref⟩, ⟨1, ModRefResult.Mod⟩] }
    (fun _ => LocResult.No)).2.2.2 _ rfl rfl (fun _ _ => rfl)

end LibCallAliasAnalysis


namespace InternalizePass

theorem internalize_all_fst (names : List String) (l : List GlobalValue) :
    (internalize_all names l).1 = l.map (fun I => (internalize names I).1) := by
  induction l with
  | nil => rfl
  | cons I rest ih => simp [internalize_all, ih]

theorem internalize_changed (names : List String) (I : GlobalValue) :
    (internalize names I).2 = true ↔ (internalize names I).1 ≠ I := by
  unfold internalize
  split
  · rename_i h
    simp only [Bool.and_eq_true, Bool.not_eq_true', decide_eq_false_iff_not] at h
    simp only [true_iff]
    intro heq
    apply h.1.2
    rw [← heq]
  · simp

theorem internalize_all_changed (names : List String) (l : List GlobalValue) :
    (internalize_all names l).2 = true ↔ (internalize_all names l).1 ≠ l := by
  induction l with
  | nil => simp [internalize_all]
  | cons I rest ih =>
    simp only [internalize_all, Bool.or_eq_true, ih, internalize_changed, ne_eq,
      List.cons.injEq, not_and_or]

theorem internalize_fst (names : List String) (I : GlobalValue) :
    (internalize names I).1
      = if I.isDeclaration = false ∧ I.name ∉ names then
          { I with linkage := LinkageTypes.InternalLinkage }
        else I := by
  obtain ⟨name, linkage, decl⟩ := I
  unfold internalize
  by_cases hd : decl = true
  · simp [hd]
  · simp only [Bool.not_eq_true] at hd
    by_cases hn : name ∈ names
    · simp [hn]
    · by_cases hl : linkage = LinkageTypes.InternalLinkage
      · simp [hd, hn, hl]
      · simp [hd, hn, hl]


theorem internalize_module_eq (names : List String) (M : Module) :
    internalize_module names M
      = ((internalize_all names M.functions).2
          || (internalize_all (reserved_names ++ names) M.globals).2,
        { functions := (internalize_all names M.functions).1,
          globals := (internalize_all (reserved_names ++ names) M.globals).1 },
        { ExternalNames := reserved_names ++ names, DontInternalize := false }) := rfl

theorem getFunction_name (M : Module) (name : String) (f : GlobalValue)
    (h : getFunction M name = some f) : f.name = name := by
  have := List.find?_some h
  simpa using this

/-- C24, a module the claim fails on: main is defined, and the global variable
llvm.used has an initializer and appending linkage.  After the pass the variable
still has appending linkage, and the pass answers that nothing changed. -/
theorem runOnModule_keeps_llvm_used :
    getFunction
        { functions := [⟨"main", LinkageTypes.ExternalLinkage, false⟩],
          globals := [⟨"llvm.used", LinkageTypes.AppendingLinkage, false⟩] } "main"
      = some ⟨"main", LinkageTypes.ExternalLinkage, false⟩
    ∧ (runOnModule { ExternalNames := [], DontInternalize := false }
        { functions := [⟨"main", LinkageTypes.ExternalLinkage, false⟩],
          globals := [⟨"llvm.used", LinkageTypes.AppendingLinkage, false⟩] }).2.1.globals
      = [⟨"llvm.used", LinkageTypes.AppendingLinkage, false⟩]
    ∧ (runOnModule { ExternalNames := [], DontInternalize := false }
        { functions := [⟨"main", LinkageTypes.ExternalLinkage, false⟩],
          globals := [⟨"llvm.used", LinkageTypes.AppendingLinkage, false⟩] }).1 = false := by
  decide

/-- C24 as amended: in main-detection mode, a module without a defined main is
left as it is and the answer is false.  With a defined main, every function
that is a declaration or is named main is left as it is and every other
function gets internal linkage; every global variable that is a declaration,
or is named main or by one of the eight reserved names, is left as it is and
every other global variable gets internal linkage; and the answer is true
exactly when the module afterwards differs from the module before. -/
theorem runOnModule_main_detection (M : Module) :
    ((∀ f, getFunction M "main" = some f → f.isDeclaration = true) →
      runOnModule { ExternalNames := [], DontInternalize := false } M
        = (false, M, { ExternalNames := [], DontInternalize := false }))
    ∧ (∀ MainFunc, getFunction M "main" = some MainFunc → MainFunc.isDeclaration = false →
      (runOnModule { ExternalNames := [], DontInternalize := false } M).2.1.functions
        = M.functions.map (fun f =>
            if f.isDeclaration = false ∧ f.name ≠ "main" then
              { f with linkage := LinkageTypes.InternalLinkage }
            else f)
      ∧ (runOnModule { ExternalNames := [], DontInternalize := false } M).2.1.globals
        = M.globals.map (fun g =>
            if g.isDeclaration = false ∧ g.name ∉ reserved_names ∧ g.name ≠ "main" then
              { g with linkage := LinkageTypes.InternalLinkage }
            else g)
      ∧ ((runOnModule { ExternalNames := [], DontInternalize := false } M).1 = true
          ↔ (runOnModule { ExternalNames := [], DontInternalize := false } M).2.1 ≠ M)) := by
  constructor
  · intro h
    unfold runOnModule
    simp only [Bool.false_eq_true, if_false, List.isEmpty_nil, if_true]
    cases hm : getFunction M "main" with
    | none => rfl
    | some f => simp [h f hm]
  · intro MainFunc hm hdef
    have hname := getFunction_name M "main" MainFunc hm
    have hrun : runOnModule { ExternalNames := [], DontInternalize := false } M
        = internalize_module ["main"] M := by
      unfold runOnModule
      simp [hm, hdef, hname]
    rw [hrun, internalize_module_eq]
    refine ⟨?_, ?_, ?_⟩
    · simp only [internalize_all_fst]
      apply List.map_congr_left
      intro f _
      rw [internalize_fst]
      simp
    · simp only [internalize_all_fst]
      apply List.map_congr_left
      intro g _
      rw [internalize_fst]
      simp [and_assoc]
    · obtain ⟨functions, globals⟩ := M
      simp only [Bool.or_eq_true, internalize_all_changed, ne_eq, Module.mk.injEq, not_and_or]

/-- An instance of C24 as amended: main and a helper function are defined, puts is
declared, and there are two initialised global variables, counter and
llvm.used.  The helper and counter become internal, the rest is kept. -/
theorem runOnModule_main_detection_witness :
    (runOnModule { ExternalNames := [], DontInternalize := false }
      { functions := [⟨"main", LinkageTypes.ExternalLinkage, false⟩,
          ⟨"helper", LinkageTypes.ExternalLinkage, false⟩,
          ⟨"puts", LinkageTypes.ExternalLinkage, true⟩],
        globals := [⟨"counter", LinkageTypes.WeakLinkage, false⟩,
          ⟨"llvm.used", LinkageTypes.AppendingLinkage, false⟩] }).2.1.functions
      = [⟨"main", LinkageTypes.ExternalLinkage, false⟩,
          ⟨"helper", LinkageTypes.InternalLinkage, false⟩,
          ⟨"puts", LinkageTypes.ExternalLinkage, true⟩] :=
  ((runOnModule_main_detection
      { functions := [⟨"main", LinkageTypes.ExternalLinkage, false⟩,
          ⟨"helper", LinkageTypes.ExternalLinkage, false⟩,
          ⟨"puts", LinkageTypes.ExternalLinkage, true⟩],
        globals := [⟨"counter", LinkageTypes.WeakLinkage, false⟩,
          ⟨"llvm.used", LinkageTypes.AppendingLinkage, false⟩] }).2
    ⟨"main", LinkageTypes.ExternalLinkage, false⟩ (by decide) rfl).1.trans (by decide)

end InternalizePass


namespace LoopDeletion

theorem SingleDominatingExit_iff (fn : Function) (L : Loop) (exitingBlocks : List Nat) :
    SingleDominatingExit fn L exitingBlocks = true
      ↔ ∃ exitingBlock latch, exitingBlocks = [exitingBlock] ∧ L.latch = some latch
          ∧ fn.dominates exitingBlock latch = true := by
  unfold SingleDominatingExit
  split
  · rename_i exitingBlock
    cases hl : L.latch with
    | none => simp
    | some latch => simp
  · rename_i hne
    constructor
    · intro h
      exact absurd h (by simp)
    · rintro ⟨e, latch, he, _, _⟩
      exact absurd he (hne e)

theorem IsLoopDead_iff (fn : Function) (L : Loop) (exitingBlock exitBlock : Nat) :
    IsLoopDead fn L exitingBlock exitBlock = true
      ↔ (∀ P ∈ leading_phis fn exitBlock, ∀ I,
            (fn.instruction P).incoming exitingBlock = Value.instruction I →
            IsLoopInvariantInst fn I L = true)
        ∧ (∀ LI ∈ L.blocks, ∀ BI ∈ fn.block LI,
            (fn.instruction BI).mayWriteToMemory = false
            ∧ ¬ ((fn.instruction BI).isLoad = true ∧ (fn.instruction BI).isVolatile = true)) := by
  unfold IsLoopDead
  have hphi : ((leading_phis fn exitBlock).any (fun P =>
      match (fn.instruction P).incoming exitingBlock with
      | Value.instruction I => !IsLoopInvariantInst fn I L
      | Value.other _ => false) = true)
      ↔ ¬ (∀ P ∈ leading_phis fn exitBlock, ∀ I,
            (fn.instruction P).incoming exitingBlock = Value.instruction I →
            IsLoopInvariantInst fn I L = true) := by
    simp only [List.any_eq_true, not_forall]
    constructor
    · rintro ⟨P, hP, h⟩
      cases hin : (fn.instruction P).incoming exitingBlock with
      | instruction I =>
        rw [hin] at h
        exact ⟨P, hP, I, hin, by simpa using h⟩
      | other v =>
        rw [hin] at h
        exact absurd h (by simp)
    · rintro ⟨P, hP, I, hin, h⟩
      refine ⟨P, hP, ?_⟩
      rw [hin]
      simpa using h
  have hside : (L.blocks.any (fun LI => (fn.block LI).any (fun BI =>
      (fn.instruction BI).mayWriteToMemory
        || ((fn.instruction BI).isLoad && (fn.instruction BI).isVolatile))) = true)
      ↔ ¬ (∀ LI ∈ L.blocks, ∀ BI ∈ fn.block LI,
            (fn.instruction BI).mayWriteToMemory = false
            ∧ ¬ ((fn.instruction BI).isLoad = true
                ∧ (fn.instruction BI).isVolatile = true)) := by
    simp only [List.any_eq_true, Bool.or_eq_true, Bool.and_eq_true, not_forall]
    constructor
    · rintro ⟨LI, hLI, BI, hBI, h⟩
      refine ⟨LI, hLI, BI, hBI, ?_⟩
      intro hn
      rcases h with h | h
      · rw [hn.1] at h
        exact absurd h (by simp)
      · exact hn.2 h
    · rintro ⟨LI, hLI, BI, hBI, h⟩
      refine ⟨LI, hLI, BI, hBI, ?_⟩
      by_contra hn
      apply h
      refine ⟨?_, fun hl => hn (Or.inr hl)⟩
      cases hw : (fn.instruction BI).mayWriteToMemory with
      | false => rfl
      | true => exact absurd (Or.inl hw) hn
  by_cases h1 : ∀ P ∈ leading_phis fn exitBlock, ∀ I,
      (fn.instruction P).incoming exitingBlock = Value.instruction I →
      IsLoopInvariantInst fn I L = true
  · by_cases h2 : ∀ LI ∈ L.blocks, ∀ BI ∈ fn.block LI,
        (fn.instruction BI).mayWriteToMemory = false
        ∧ ¬ ((fn.instruction BI).isLoad = true ∧ (fn.instruction BI).isVolatile = true)
    · rw [if_neg (fun h => hphi.mp h h1), if_neg (fun h => hside.mp h h2)]
      exact ⟨fun _ => ⟨h1, h2⟩, fun _ => rfl⟩
    · rw [if_neg (fun h => hphi.mp h h1), if_pos (hside.mpr h2)]
      exact ⟨fun h => absurd h (by simp), fun h => absurd h.2 h2⟩
  · rw [if_pos (hphi.mpr h1)]
    exact ⟨fun h => absurd h (by simp), fun h => absurd h.1 h1⟩

/-- C25: runOnLoop answers true exactly when the loop has exactly one unique exit
block, a preheader, no subloops, a trip count that is not null, exactly one
exiting block, a latch that this exiting block dominates, every value that a
leading PHI node of the exit block receives from the exiting block is no
instruction or is an invariant instruction, and no instruction of a block of
the loop may write to memory or is a volatile load.  Whenever it answers
false, the state afterwards is the state before. -/
theorem runOnLoop_guarded (fn : Function) (L : Loop) :
    ((runOnLoop fn L).1 = true
      ↔ ∃ exitBlock preheader tripCount exitingBlock latch,
          L.uniqueExitBlocks = [exitBlock]
          ∧ L.preheader = some preheader
          ∧ L.subloops = []
          ∧ L.tripCount = some tripCount
          ∧ L.exitingBlocks = [exitingBlock]
          ∧ L.latch = some latch
          ∧ fn.dominates exitingBlock latch = true
          ∧ (∀ P ∈ leading_phis fn exitBlock, ∀ I,
              (fn.instruction P).incoming exitingBlock = Value.instruction I →
              IsLoopInvariantInst fn I L = true)
          ∧ (∀ LI ∈ L.blocks, ∀ BI ∈ fn.block LI,
              (fn.instruction BI).mayWriteToMemory = false
              ∧ ¬ ((fn.instruction BI).isLoad = true
                  ∧ (fn.instruction BI).isVolatile = true)))
    ∧ ((runOnLoop fn L).1 = false → (runOnLoop fn L).2 = fn) := by
  have hfalse : runOnLoop fn L = (false, fn) →
      ¬ (∃ exitBlock preheader tripCount exitingBlock latch,
          L.uniqueExitBlocks = [exitBlock]
          ∧ L.preheader = some preheader
          ∧ L.subloops = []
          ∧ L.tripCount = some tripCount
          ∧ L.exitingBlocks = [exitingBlock]
          ∧ L.latch = some latch
          ∧ fn.dominates exitingBlock latch = true
          ∧ (∀ P ∈ leading_phis fn exitBlock, ∀ I,
              (fn.instruction P).incoming exitingBlock = Value.instruction I →
              IsLoopInvariantInst fn I L = true)
          ∧ (∀ LI ∈ L.blocks, ∀ BI ∈ fn.block LI,
              (fn.instruction BI).mayWriteToMemory = false
              ∧ ¬ ((fn.instruction BI).isLoad = true
                  ∧ (fn.instruction BI).isVolatile = true))) →
      ((runOnLoop fn L).1 = true
        ↔ ∃ exitBlock preheader tripCount exitingBlock latch,
          L.uniqueExitBlocks = [exitBlock]
          ∧ L.preheader = some preheader
          ∧ L.subloops = []
          ∧ L.tripCount = some tripCount
          ∧ L.exitingBlocks = [exitingBlock]
          ∧ L.latch = some latch
          ∧ fn.dominates exitingBlock latch = true
          ∧ (∀ P ∈ leading_phis fn exitBlock, ∀ I,
              (fn.instruction P).incoming exitingBlock = Value.instruction I →
              IsLoopInvariantInst fn I L = true)
          ∧ (∀ LI ∈ L.blocks, ∀ BI ∈ fn.block LI,
              (fn.instruction BI).mayWriteToMemory = false
              ∧ ¬ ((fn.instruction BI).isLoad = true
                  ∧ (fn.instruction BI).isVolatile = true)))
      ∧ ((runOnLoop fn L).1 = false → (runOnLoop fn L).2 = fn) := by
    intro hrun hnot
    rw [hrun]
    exact ⟨⟨fun h => absurd h (by simp), fun h => absurd h hnot⟩, fun _ => rfl⟩
  have hshape : L.uniqueExitBlocks = [] ∨ (∃ exitBlock, L.uniqueExitBlocks = [exitBlock])
      ∨ (∃ first second more, L.uniqueExitBlocks = first :: second :: more) := by
    rcases L.uniqueExitBlocks with _ | ⟨first, _ | ⟨second, more⟩⟩ <;> simp
  rcases hshape with hexit | ⟨exitBlock, hexit⟩ | ⟨first, second, more, hexit⟩
  · apply hfalse
    · simp [runOnLoop, hexit]
    · rintro ⟨x, _, _, _, _, hx, _⟩
      rw [hexit] at hx
      exact absurd hx (by simp)
  · rcases Option.eq_none_or_eq_some L.preheader with hpre | ⟨preheader, hpre⟩
    · apply hfalse
      · simp [runOnLoop, hexit, hpre]
      · rintro ⟨_, p, _, _, _, _, hp, _⟩
        rw [hpre] at hp
        exact absurd hp (by simp)
    · by_cases hsub : L.subloops = []
      · rcases Option.eq_none_or_eq_some L.tripCount with htc | ⟨tripCount, htc⟩
        · apply hfalse
          · simp [runOnLoop, hexit, hpre, hsub, htc]
          · rintro ⟨_, _, t, _, _, _, _, _, ht, _⟩
            rw [htc] at ht
            exact absurd ht (by simp)
        · by_cases hsde : SingleDominatingExit fn L L.exitingBlocks = true
          · obtain ⟨exitingBlock, latch, he, hl, hd⟩ :=
              (SingleDominatingExit_iff fn L L.exitingBlocks).mp hsde
            by_cases hdead : IsLoopDead fn L exitingBlock exitBlock = true
            · have hrun : runOnLoop fn L
                  = (true, remove_loop fn L preheader exitBlock exitingBlock) := by
                rw [he] at hsde
                simp [runOnLoop, hexit, hpre, hsub, htc, he, hsde, hdead]
              have hd2 := (IsLoopDead_iff fn L exitingBlock exitBlock).mp hdead
              rw [hrun]
              refine ⟨⟨fun _ => ?_, fun _ => rfl⟩, fun h => absurd h (by simp)⟩
              exact ⟨exitBlock, preheader, tripCount, exitingBlock, latch, hexit, hpre, hsub,
                htc, he, hl, hd, hd2.1, hd2.2⟩
            · apply hfalse
              · rw [he] at hsde
                simp [runOnLoop, hexit, hpre, hsub, htc, he, hsde, hdead]
              · rintro ⟨x, _, _, e, _, hx, _, _, _, he2, _, _, h1, h2⟩
                rw [hexit] at hx
                rw [he] at he2
                simp only [List.cons.injEq, and_true] at hx he2
                subst hx
                subst he2
                exact hdead ((IsLoopDead_iff fn L _ _).mpr ⟨h1, h2⟩)
          · apply hfalse
            · simp [runOnLoop, hexit, hpre, hsub, htc, hsde]
            · rintro ⟨_, _, _, e, l, _, _, _, _, he2, hl, hd, _, _⟩
              exact hsde ((SingleDominatingExit_iff fn L _).mpr ⟨e, l, he2, hl, hd⟩)
      · apply hfalse
        · simp [runOnLoop, hexit, hpre, hsub]
        · rintro ⟨_, _, _, _, _, _, _, hs, _⟩
          exact hsub hs
  · apply hfalse
    · simp [runOnLoop, hexit]
    · rintro ⟨x, _, _, _, _, hx, _⟩
      rw [hexit] at hx
      exact absurd hx (by simp)

/-- An instance of C25: the loop of `spinning` contains a volatile load, so the
pass answers false and the state afterwards is the state before. -/
theorem runOnLoop_guarded_witness :
    (runOnLoop spinning counting_loop).1 = false
    ∧ (runOnLoop spinning counting_loop).2 = spinning :=
  ⟨rfl, (runOnLoop_guarded spinning counting_loop).2 rfl⟩

theorem runOnLoop_removes_counting_loop :
    (runOnLoop counting counting_loop).1 = true
    ∧ (runOnLoop counting counting_loop).2.edits
      = [Edit.replaceUsesOfWith_terminator 0 1 2, Edit.replaceUsesOfWith_phi 14 1 0,
          Edit.changeImmediateDominator_children 1 0, Edit.eraseNode 1,
          Edit.dropAllReferences_instruction 11, Edit.dropAllReferences_instruction 12,
          Edit.dropAllReferences_instruction 13, Edit.dropAllReferences_block 1,
          Edit.eraseFromParent 1, Edit.removeBlock 1, Edit.deleteLoopFromQueue,
          Edit.NumDeleted] := by
  decide

end LoopDeletion

end llvm
